import Mathlib

/-!
# InfiniBand fabric model: a shallow embedding of `ib_port.h`, `ib_fabric.h`, `ib_fabric.cpp`

Conventions of the embedding.

* `std::map<K, V>` is an association list in ascending key order; `std::set<lid_t>` is a list
  in ascending order.  Iteration of a container is recursion over the list.
* A `port_t *` is modelled by the port it points to; the peer pointer `connection` is the
  key `(guid, port)` of the peer, from which `connection->guid` is read.  An `entity_t *`
  stored in the lid map is the guid of the entity it points to (its key in `entities`).
* `assert`, `abort()` and the dereference of a null pointer or of an end iterator end the call;
  they are the `Except.error` results.  The embedding is of the build in which `assert` is
  active (`NDEBUG` not defined), which is also the build that compiles the switch collision
  check of `build_lid_map`.  The cabling methods are embedded a second time as compiled with
  `NDEBUG` (names ending in `_ndebug`), the build in which `add_cable` can return false.
* A call that ends in an assertion ends the process: nothing that follows the assertion in
  the caller is run.
* `lid_t` is `uint64_t`: the sum `blid + i` is taken modulo `2 ^ 64` (`lid_add`).
  `lmc_t` and `port_num_t` are `uint8_t`; they are natural numbers here, and the one place
  where an `lmc_t` is computed from a wider value (`max_lmc_lid`) reduces modulo `2 ^ 8`.
* The attributes of a port that no modelled function reads (`hca`, `width`, `speed`, `name`,
  `leaf`, `spine`) are left out.
* The diagnostic output to `std::cerr` that is compiled without `NDEBUG`, with the labels it
  prints, is left out.  `port_t::label` asserts that the port has a name: the embedding is of
  ports with a non-empty `name`.
-/

namespace infiniband

/-! ## ib_port.h -/

/-- The 64-bit addition of `lid_t`: `blid + i`. -/
def lid_add (a i : Nat) : Nat := (a + i) % 2 ^ 64

/-- LMC Max Value. -/
def MAX_LMC_VALUE : Nat := 7

/-- The enum `port_type::type_t`. -/
inductive type_t where
  | UNKNOWN
  | HCA
  | TCA
  deriving DecidableEq, Repr

/-- The key of a port: `port_t::key_guid_port_t`. -/
structure key_guid_port_t where
  guid : Nat
  port : Nat
  deriving DecidableEq, Repr

/-- The class `port_t`, with the fields the fabric reads. -/
structure port_t where
  type : type_t
  lid : Nat
  port : Nat
  guid : Nat
  connection : Option key_guid_port_t
  deriving DecidableEq, Repr

/-- The ways a call ends other than by returning: a failed `assert`, `abort()`, or the
dereference of a null pointer or of an end iterator. -/
inductive error_t where
  /-- `assert(port)` in `entity_t::lid`, or `ports.begin()` of an entity without ports. -/
  | NoPort
  /-- `assert(port->lid > 0)`. -/
  | ZeroLid
  /-- `assert(lidmap.find(blid + i) == lidmap.end())`, and `abort()` in the switch branch. -/
  | AddressCollision
  /-- `abort(); ///unknown port type?`. -/
  | UnknownType
  /-- `assert(portmap.size() > 1)`. -/
  | TooFewPorts
  /-- `assert(lidmap.find(itr->second->lid) != lid_end)`. -/
  | LidNotMapped
  /-- `assert(lmc <= MAX_LMC_VALUE)`. -/
  | LmcTooLarge
  /-- `assert(outgoing_port_n_i != uft.end())`. -/
  | NoRoute
  /-- `assert(outgoing_port_i != ports.end())`. -/
  | NoSuchPort
  /-- `assert(outgoing_port_i->second->connection)`, and `connection->guid` of a dark port. -/
  | Unreachable
  /-- The dereference of `entities.end()` returned by `find_entity`. -/
  | NoEntity
  /-- `assert(port1->guid > 0)`, `assert(port2->guid > 0)`, and `assert(guid > 0)` of the
  `entity_t` constructor. -/
  | ZeroGuid
  /-- `assert(port1->port > 0)`, `assert(port2->port > 0)`. -/
  | ZeroPort
  /-- `assert(port1->connection == port2)`, `assert(port2->connection == port1)`. -/
  | PeerMismatch
  /-- `if(port1->guid == port2->guid) assert(port1->port != port2->port)`. -/
  | LoopbackSamePort
  /-- The assertion that both ports are known or both unknown, and `assert(false)` of the
  branch "Port already known". -/
  | AlreadyKnown
  /-- `assert(ports.find(port->port) == ports.end())` of `entity_t::add_port`. -/
  | DuplicatePort
  /-- `assert(port->guid == guid)` of the sanity loop of `entity_t::add_port`. -/
  | GuidMismatch
  /-- `assert(type != port_type::UNKNOWN)` of the `entity_t` constructor,
  `assert(entity_itr->second.get_type() == type)` of `find_entity`, and
  `assert(port->type == type)` of the sanity loop of `entity_t::add_port`. -/
  | DeviceClassMismatch
  /-- `assert(result.second)` after `portmap.insert`. -/
  | InsertFailed
  /-- `assert(itr->second != itr->second->connection)` of `add_cables`. -/
  | SelfCable
  /-- `assert(itr2 != _portmap.end())` of `add_cables`. -/
  | DanglingPeer
  /-- The read of `port2->connection` through a `connection` pointer that is not the address
  of a port. -/
  | InvalidPeer
  /-- `assert(lidmap.size())` of `fabric_t::add_route`. -/
  | EmptyLidMap
  deriving DecidableEq, Repr

/-! ## std::map with natural-number keys -/

/-- The lookup `std::map::find`: the value stored under the key, if any. -/
def map_find {V : Type} : List (Nat × V) → Nat → Option V
  | [], _ => none
  | (k, v) :: m, a => if k = a then some v else map_find m a

/-- Placement of a new pair at its position in key order. -/
def map_place {V : Type} : List (Nat × V) → Nat → V → List (Nat × V)
  | [], k, v => [(k, v)]
  | (k1, v1) :: m, k, v =>
    if k < k1 then (k, v) :: (k1, v1) :: m else (k1, v1) :: map_place m k v

/-- The insertion `std::map::insert(std::pair(k, v))`: nothing happens when the key is present. -/
def map_insert {V : Type} (m : List (Nat × V)) (k : Nat) (v : V) : List (Nat × V) :=
  if (map_find m k).isSome then m else map_place m k v

/-- The assignment `m[k] = v`: the value of a present key is overwritten. -/
def map_assign {V : Type} : List (Nat × V) → Nat → V → List (Nat × V)
  | [], k, v => [(k, v)]
  | (k1, v1) :: m, k, v =>
    if k < k1 then (k, v) :: (k1, v1) :: m
    else if k = k1 then (k, v) :: m
    else (k1, v1) :: map_assign m k v

/-- The keys of a map are in strictly ascending order. -/
def map_sorted {V : Type} (m : List (Nat × V)) : Prop :=
  List.Pairwise (fun x y => x.1 < y.1) m

/-! ## ib_fabric.h: entity_t -/

/-- The class `entity_t`: `ports` is `portmap_t`, `routes` is `routes_t`,
`uft` is `unicast_forwarding_table_t`. -/
structure entity_t where
  guid : Nat
  type : type_t
  ports : List (Nat × port_t)
  routes : List (Nat × List Nat)
  uft : List (Nat × Nat)
  deriving DecidableEq, Repr

/-- The const overload of `entity_t::get_first_port`: the port at `ports.begin()`. -/
def entity_t.get_first_port (e : entity_t) : Option port_t :=
  match e.ports with
  | [] => none
  | (_, p) :: _ => some p

/-- The method `entity_t::lid`: the lid of the first port. -/
def entity_t.lid (e : entity_t) : Except error_t Nat :=
  match e.get_first_port with
  | none => Except.error error_t.NoPort
  | some p => if p.lid > 0 then Except.ok p.lid else Except.error error_t.ZeroLid

/-- The inner loop of `entity_t::build_forwarding_table`: `uft.insert` of every lid of one
port's set. -/
def uft_insert_set (portnum : Nat) : List (Nat × Nat) → List Nat → List (Nat × Nat)
  | uft, [] => uft
  | uft, j :: js => uft_insert_set portnum (map_insert uft j portnum) js

/-- The outer loop of `entity_t::build_forwarding_table` over `routes`. -/
def uft_insert_routes : List (Nat × Nat) → List (Nat × List Nat) → List (Nat × Nat)
  | uft, [] => uft
  | uft, (portnum, lids) :: rs => uft_insert_routes (uft_insert_set portnum uft lids) rs

/-- The method `entity_t::build_forwarding_table`: `uft.clear()`, then the two loops.
The C++ function returns the constant `true`. -/
def entity_t.build_forwarding_table (e : entity_t) : entity_t :=
  { e with uft := uft_insert_routes [] e.routes }

/-! ## ib_fabric.h: fabric_t -/

/-- The class `fabric_t`: `entities` is `entities_t` (guid to entity), `portmap` is
`portmap_guidport_t` in the order of `key_guid_port_t::operator<`, `lidmap` is
`entitiesmap_lid_t` with the entity pointer given as the entity's guid. -/
structure fabric_t where
  lmc : Nat
  entities : List (Nat × entity_t)
  portmap : List (key_guid_port_t × port_t)
  lidmap : List (Nat × Nat)
  deriving DecidableEq, Repr

/-- The method `fabric_t::get_lmc`. -/
def fabric_t.get_lmc (f : fabric_t) : Nat := f.lmc

/-- The method `fabric_t::find_entity(guid)` with `create == false`: `entities.find(guid)`. -/
def fabric_t.find_entity (f : fabric_t) (guid : Nat) : Option entity_t :=
  map_find f.entities guid

/-- The method `fabric_t::clear_lidmap`. -/
def fabric_t.clear_lidmap (f : fabric_t) : fabric_t := { f with lidmap := [] }

/-- The constant `const lmc_t max_lmc_lid = lmc > 0 ? (1 << lmc) - 1 : 0;`.  For the values
`lmc <= MAX_LMC_VALUE` that `build_lid_map` asserts, the value is at most 127 and neither the
conversion to `lmc_t` nor the loop counter `lmc_t i` wraps. -/
def max_lmc_lid (lmc : Nat) : Nat := if lmc > 0 then (2 ^ lmc - 1) % 2 ^ 8 else 0

/-- The loop `for(lmc_t i = 0; i <= max_lmc_lid; ++i)` of the host-adapter branch, over the
offsets still to visit: `assert(lidmap.find(blid + i) == lidmap.end()); lidmap[blid + i] = &entity;`. -/
def assign_hca_lids (guid blid : Nat) : List (Nat × Nat) → List Nat → Except error_t (List (Nat × Nat))
  | lidmap, [] => Except.ok lidmap
  | lidmap, i :: is =>
    if (map_find lidmap (lid_add blid i)).isSome then Except.error error_t.AddressCollision
    else assign_hca_lids guid blid (map_assign lidmap (lid_add blid i) guid) is

/-- The body of the entity loop of `build_lid_map` for the entity stored under `guid`. -/
def assign_entity_lids (maxoff : Nat) (lidmap : List (Nat × Nat)) (guid : Nat) (e : entity_t) :
    Except error_t (List (Nat × Nat)) :=
  match e.lid with
  | Except.error err => Except.error err
  | Except.ok blid =>
    match e.type with
    | type_t.HCA => assign_hca_lids guid blid lidmap (List.range (maxoff + 1))
    | type_t.TCA =>
      if (map_find lidmap blid).isSome then Except.error error_t.AddressCollision
      else Except.ok (map_assign lidmap blid guid)
    | type_t.UNKNOWN => Except.error error_t.UnknownType

/-- The entity loop of `build_lid_map`: "Walk every entity and build lid map". -/
def walk_entities (maxoff : Nat) : List (Nat × Nat) → List (Nat × entity_t) →
    Except error_t (List (Nat × Nat))
  | lidmap, [] => Except.ok lidmap
  | lidmap, (guid, e) :: es =>
    match assign_entity_lids maxoff lidmap guid e with
    | Except.error err => Except.error err
    | Except.ok lidmap2 => walk_entities maxoff lidmap2 es

/-- The loop `for(lmc_t i = 1; i <= max_lmc_lid; ++i)` of the inference for one port, over the
offsets still to visit; the result is the new `max_lmc_lid`. -/
def scan_offsets (lidmap : List (Nat × Nat)) (p : port_t) (maxoff : Nat) : List Nat → Except error_t Nat
  | [] => Except.ok maxoff
  | i :: is =>
    if p.lid = 0 then Except.error error_t.ZeroLid
    else if (map_find lidmap p.lid).isNone then Except.error error_t.LidNotMapped
    else if (map_find lidmap (lid_add p.lid i)).isSome then Except.ok (i - 1)
    else scan_offsets lidmap p maxoff is

/-- The port loop of the inference, `itr != eitr && max_lmc_lid > 0`, "Only search LIDs of HCAs". -/
def search_ports (lidmap : List (Nat × Nat)) : List (key_guid_port_t × port_t) → Nat → Except error_t Nat
  | [], maxoff => Except.ok maxoff
  | (_, p) :: ps, maxoff =>
    if maxoff > 0 then
      if p.type = type_t.HCA then
        match scan_offsets lidmap p maxoff (List.range' 1 maxoff) with
        | Except.error err => Except.error err
        | Except.ok m => search_ports lidmap ps m
      else search_ports lidmap ps maxoff
    else Except.ok maxoff

/-- The integer part of the binary logarithm, by halving (at most `fuel` times). -/
def floor_log2 : Nat → Nat → Nat
  | 0, _ => 0
  | fuel + 1, n => if n ≥ 2 then floor_log2 fuel (n / 2) + 1 else 0

/-- The assignment `lmc = std::log2(max_lmc_lid) + 1;` (and `(log(max_lmc_lid) / log(2)) + 1`),
a `double` converted to `lmc_t`.  For `max_lmc_lid >= 1` the conversion truncates the real
value, `floor(log2(max_lmc_lid)) + 1`.  For `max_lmc_lid == 0` the value is minus infinity,
which has no `lmc_t` value; the conversion is taken to give 0, the low byte that the
conversion instructions of the usual targets leave. -/
def lmc_of_max_lmc_lid (maxoff : Nat) : Nat :=
  if maxoff = 0 then 0 else floor_log2 maxoff maxoff + 1

/-- The first block of `fabric_t::build_lid_map`, which is all of `build_lid_map(false)`:
`clear_lidmap()` and the entity loop. -/
def fabric_t.build_lid_map_pass (f : fabric_t) : Except error_t fabric_t :=
  match walk_entities (max_lmc_lid f.lmc) f.clear_lidmap.lidmap f.entities with
  | Except.error err => Except.error err
  | Except.ok lidmap => Except.ok { f with lidmap := lidmap }

/-- The inference block of `build_lid_map`, run on the fabric the first block left: the new
`max_lmc_lid`, from the start value `(1 << MAX_LMC_VALUE) - 1`. -/
def fabric_t.determine_max_lmc_lid (f : fabric_t) : Except error_t Nat :=
  if f.portmap.length > 1 then search_ports f.lidmap f.portmap (2 ^ MAX_LMC_VALUE - 1)
  else Except.error error_t.TooFewPorts

/-- The method `fabric_t::build_lid_map(determine_lmc)`.  The C++ function returns `true`;
here the result is the fabric it leaves. -/
def fabric_t.build_lid_map (f : fabric_t) (determine_lmc : Bool) : Except error_t fabric_t :=
  match f.build_lid_map_pass with
  | Except.error err => Except.error err
  | Except.ok f1 =>
    if determine_lmc then
      match f1.determine_max_lmc_lid with
      | Except.error err => Except.error err
      | Except.ok maxoff =>
        if lmc_of_max_lmc_lid maxoff ≤ MAX_LMC_VALUE then
          if f.lmc ≠ lmc_of_max_lmc_lid maxoff then
            fabric_t.build_lid_map_pass { f1 with lmc := lmc_of_max_lmc_lid maxoff }
          else Except.ok { f1 with lmc := lmc_of_max_lmc_lid maxoff }
        else Except.error error_t.LmcTooLarge
    else Except.ok f1

/-! ## ib_fabric.cpp: forwarding and hop count -/

/-- The expression `find_entity(e.ports.begin()->second->connection->guid)->second` of
`fabric_t::count_hops`: the device cabled to the first port of `e`. -/
def fabric_t.first_port_peer (f : fabric_t) (e : entity_t) : Except error_t entity_t :=
  match e.ports with
  | [] => Except.error error_t.NoPort
  | (_, p) :: _ =>
    match p.connection with
    | none => Except.error error_t.Unreachable
    | some c =>
      match f.find_entity c.guid with
      | none => Except.error error_t.NoEntity
      | some e2 => Except.ok e2

/-- The method `entity_t::forward(fabric, target)`: the device at the other end of the port
that `uft` gives for the lid of `target`. -/
def entity_t.forward (e : entity_t) (f : fabric_t) (target : entity_t) : Except error_t entity_t :=
  match target.lid with
  | Except.error err => Except.error err
  | Except.ok target_lid =>
    match map_find e.uft target_lid with
    | none => Except.error error_t.NoRoute
    | some outgoing_port_num =>
      match map_find e.ports outgoing_port_num with
      | none => Except.error error_t.NoSuchPort
      | some p =>
        match p.connection with
        | none => Except.error error_t.Unreachable
        | some c =>
          match f.find_entity c.guid with
          | none => Except.error error_t.NoEntity
          | some e2 => Except.ok e2

/-- The loop `while(current->lid() != right->lid())` of `fabric_t::count_hops`, run for at most
`fuel` evaluations of its condition; `none` when the fuel ends before the loop does. -/
def count_hops_loop (f : fabric_t) (right : entity_t) : Nat → entity_t → Nat →
    Option (Except error_t Nat)
  | 0, _, _ => none
  | fuel + 1, current, hops =>
    match current.lid with
    | Except.error err => some (Except.error err)
    | Except.ok cl =>
      match right.lid with
      | Except.error err => some (Except.error err)
      | Except.ok rl =>
        if cl ≠ rl then
          match current.forward f right with
          | Except.error err => some (Except.error err)
          | Except.ok next => count_hops_loop f right fuel next (hops + 1)
        else some (Except.ok hops)

/-- The method `fabric_t::count_hops(start, end)`, its loop run with `fuel`.  The counter
`int hops` is a natural number. -/
def fabric_t.count_hops (f : fabric_t) (fuel : Nat) (start end_ : entity_t) :
    Option (Except error_t Nat) :=
  match (if start.type = type_t.HCA then f.first_port_peer start else Except.ok start) with
  | Except.error err => some (Except.error err)
  | Except.ok left =>
    match (if end_.type = type_t.HCA then f.first_port_peer end_ else Except.ok end_) with
    | Except.error err => some (Except.error err)
    | Except.ok right =>
      count_hops_loop f right fuel left
        ((if start.type = type_t.HCA then 1 else 0) + (if end_.type = type_t.HCA then 1 else 0))

/-! ## ib_port.cpp, ib_fabric.cpp: cabling

A `port_t *` argument is the port it points to, and a null pointer is `none`.  Two port
pointers are compared by the keys of their ports: the ports of one pending map, and of the
fabric, have pairwise different keys.  The state a call leaves is part of its result also
when an assertion ends it. -/

/-- The comparison `port_t::key_guid_port_t::operator<`.  Its assertions (guid and port are
not zero) hold for the keys `add_cable` builds, which asserts them on the ports first. -/
def key_guid_port_t.lt (a b : key_guid_port_t) : Bool :=
  if a.guid = b.guid then decide (a.port < b.port) else decide (a.guid < b.guid)

/-- The comparison `port_t::key_guid_port_t::operator<` with its assertions:
`assert(guid); assert(port > 0); assert(other.guid); assert(other.port > 0);`. -/
def key_guid_port_t.lt_asserted (a b : key_guid_port_t) : Except error_t Bool :=
  if a.guid = 0 then Except.error error_t.ZeroGuid
  else if a.port = 0 then Except.error error_t.ZeroPort
  else if b.guid = 0 then Except.error error_t.ZeroGuid
  else if b.port = 0 then Except.error error_t.ZeroPort
  else Except.ok (if a.guid = b.guid then decide (a.port < b.port) else decide (a.guid < b.guid))

/-- The key of a port: the constructor `key_guid_port_t(const port_t *)`. -/
def port_t.key (p : port_t) : key_guid_port_t := { guid := p.guid, port := p.port }

/-- The lookup `std::map::find` of `portmap_guidport_t`: a key matches when neither is less
than the other. -/
def pm_find {V : Type} : List (key_guid_port_t × V) → key_guid_port_t → Option V
  | [], _ => none
  | (k, v) :: m, a => if !(k.lt a) && !(a.lt k) then some v else pm_find m a

/-- Placement of a new pair at its position in the order of `operator<`. -/
def pm_place {V : Type} : List (key_guid_port_t × V) → key_guid_port_t → V →
    List (key_guid_port_t × V)
  | [], k, v => [(k, v)]
  | (k1, v1) :: m, k, v =>
    if k.lt k1 then (k, v) :: (k1, v1) :: m else (k1, v1) :: pm_place m k v

/-- The insertion `portmap.insert(std::make_pair(port, port))`: nothing happens when the key
is present. -/
def pm_insert {V : Type} (m : List (key_guid_port_t × V)) (k : key_guid_port_t) (v : V) :
    List (key_guid_port_t × V) :=
  if (pm_find m k).isSome then m else pm_place m k v

/-- The constructor `fabric_t::fabric_t()`. -/
def fabric_t.empty : fabric_t := { lmc := 0, entities := [], portmap := [], lidmap := [] }

/-- The sanity loop of `entity_t::add_port` (compiled without `NDEBUG`): every port of the
entity has the guid and the type of the entity. -/
def sanity_check (guid : Nat) (type : type_t) : List (Nat × port_t) → Except error_t Unit
  | [] => Except.ok ()
  | (_, p) :: ps =>
    if p.guid ≠ guid then Except.error error_t.GuidMismatch
    else if p.type ≠ type then Except.error error_t.DeviceClassMismatch
    else sanity_check guid type ps

/-- The method `entity_t::add_port(port)`: the entity it leaves and `result.second`. -/
def entity_t.add_port (e : entity_t) (port : port_t) : entity_t × Except error_t Bool :=
  if (map_find e.ports port.port).isSome then (e, Except.error error_t.DuplicatePort)
  else
    match sanity_check e.guid e.type (map_insert e.ports port.port port) with
    | Except.error err => ({ e with ports := map_insert e.ports port.port port }, Except.error err)
    | Except.ok _ => ({ e with ports := map_insert e.ports port.port port }, Except.ok true)

/-- The entity the constructor `entity_t(guid, type)` builds, its assertions apart. -/
def entity_t.new (guid : Nat) (type : type_t) : entity_t :=
  { guid := guid, type := type, ports := [], routes := [], uft := [] }

/-- The method `fabric_t::find_entity(guid, type, create)` with `create == true`: the entity
found or created, and the fabric with it.  A new entity is built by `entity_t(guid, type)`. -/
def fabric_t.find_entity_create (f : fabric_t) (guid : Nat) (type : type_t) :
    fabric_t × Except error_t entity_t :=
  match map_find f.entities guid with
  | none =>
    if guid = 0 then (f, Except.error error_t.ZeroGuid)
    else if type = type_t.UNKNOWN then (f, Except.error error_t.DeviceClassMismatch)
    else
      ({ f with entities := map_insert f.entities guid (entity_t.new guid type) },
        Except.ok (entity_t.new guid type))
  | some e =>
    if e.type = type then (f, Except.ok e) else (f, Except.error error_t.DeviceClassMismatch)

/-- The block of `add_cable` that is run for `port1` and then for `port2`:
`find_entity(port->guid, port->type, true)`, `add_port(port)` on the entity of the map, and
`portmap.insert`. -/
def fabric_t.attach_port (f : fabric_t) (port : port_t) : fabric_t × Except error_t Bool :=
  match f.find_entity_create port.guid port.type with
  | (f1, Except.error err) => (f1, Except.error err)
  | (f1, Except.ok e) =>
    match e.add_port port with
    | (e2, Except.error err) =>
      ({ f1 with entities := map_assign f1.entities port.guid e2 }, Except.error err)
    | (e2, Except.ok false) =>
      ({ f1 with entities := map_assign f1.entities port.guid e2 }, Except.ok false)
    | (e2, Except.ok true) =>
      if (pm_find f1.portmap port.key).isSome then
        ({ f1 with entities := map_assign f1.entities port.guid e2 },
          Except.error error_t.InsertFailed)
      else
        ({ f1 with entities := map_assign f1.entities port.guid e2,
                   portmap := pm_insert f1.portmap port.key port }, Except.ok true)

/-- The assertions "Check cable is sane" at the head of `add_cable(port1, port2)`. -/
def add_cable_check (f : fabric_t) (port1 : port_t) (port2 : Option port_t) : Except error_t Unit :=
  if port1.guid = 0 then Except.error error_t.ZeroGuid
  else if port1.port = 0 then Except.error error_t.ZeroPort
  else
    match port2 with
    | none => Except.ok ()
    | some p2 =>
      if port1.connection ≠ some p2.key then Except.error error_t.PeerMismatch
      else if p2.connection ≠ some port1.key then Except.error error_t.PeerMismatch
      else if p2.guid = 0 then Except.error error_t.ZeroGuid
      else if p2.port = 0 then Except.error error_t.ZeroPort
      else if port1.guid = p2.guid ∧ port1.port = p2.port then
        Except.error error_t.LoopbackSamePort
      else if (pm_find f.portmap p2.key).isSome ≠ (pm_find f.portmap port1.key).isSome then
        Except.error error_t.AlreadyKnown
      else Except.ok ()

/-- The method `fabric_t::add_cable(port1, port2)`: the fabric it leaves, and its return
value or the assertion that ended it. -/
def fabric_t.add_cable (f : fabric_t) (port1 : port_t) (port2 : Option port_t) :
    fabric_t × Except error_t Bool :=
  match add_cable_check f port1 port2 with
  | Except.error err => (f, Except.error err)
  | Except.ok _ =>
    if (pm_find f.portmap port1.key).isSome then (f, Except.error error_t.AlreadyKnown)
    else
      match f.attach_port port1 with
      | (f1, Except.error err) => (f1, Except.error err)
      | (f1, Except.ok false) => (f1, Except.ok false)
      | (f1, Except.ok true) =>
        match port2 with
        | none => (f1, Except.ok true)
        | some p2 => f1.attach_port p2

/-- The assignment `itr2->second = 0` on the entry of the pending map with key `k`. -/
def pm_null (m : List (key_guid_port_t × Option port_t)) (k : key_guid_port_t) :
    List (key_guid_port_t × Option port_t) :=
  m.map (fun x => if !(x.1.lt k) && !(k.lt x.1) then (x.1, none) else x)

/-- The way the first loop of `add_cables` ends. -/
inductive cables_end where
  /-- The loop visited every entry: `fail` is false. -/
  | completed
  /-- A call of `add_cable` returned false: `fail = true; break;`. -/
  | cable_failed
  /-- An assertion failed, in `add_cables` itself or in the call of `add_cable`: the process
  ends there. -/
  | asserted (err : error_t)

/-- The port a `connection` pointer with key `c` points to: the port the pending map as passed
in holds under `c`, or else the port of `peers` under `c`.  `peers` are the ports outside the
pending map that ports of the map are linked to, each under the key that names it. -/
def peer_of (objs : List (key_guid_port_t × Option port_t))
    (peers : List (key_guid_port_t × port_t)) (c : key_guid_port_t) : Option port_t :=
  match pm_find objs c with
  | some (some q) => some q
  | _ => pm_find peers c

/-- The first loop of `add_cables` over the keys still to visit.  `objs` is the pending map
as passed in and `pend` the pending map with the entries set to null so far.
`add_cable(itr->second)` is `add_cable(port, port->connection)`; the search
`_portmap.find(itr->second->connection)` and its assertion come after that call. -/
def add_cables_loop (objs : List (key_guid_port_t × Option port_t))
    (peers : List (key_guid_port_t × port_t)) :
    List key_guid_port_t → fabric_t → List (key_guid_port_t × Option port_t) →
    fabric_t × List (key_guid_port_t × Option port_t) × cables_end
  | [], f, pend => (f, pend, cables_end.completed)
  | k :: ks, f, pend =>
    match pm_find pend k with
    | some (some p) =>
      if p.connection = some p.key then (f, pend, cables_end.asserted error_t.SelfCable)
      else
        match p.connection with
        | none =>
          match f.add_cable p none with
          | (f1, Except.ok true) => add_cables_loop objs peers ks f1 (pm_null pend k)
          | (f1, Except.ok false) => (f1, pend, cables_end.cable_failed)
          | (f1, Except.error err) => (f1, pend, cables_end.asserted err)
        | some c =>
          match peer_of objs peers c with
          | none => (f, pend, cables_end.asserted error_t.InvalidPeer)
          | some q =>
            match f.add_cable p (some q) with
            | (f1, Except.ok true) =>
              match pm_find pend c with
              | some _ => add_cables_loop objs peers ks f1 (pm_null (pm_null pend c) k)
              | none => (f1, pend, cables_end.asserted error_t.DanglingPeer)
            | (f1, Except.ok false) => (f1, pend, cables_end.cable_failed)
            | (f1, Except.error err) => (f1, pend, cables_end.asserted err)
    | _ => add_cables_loop objs peers ks f pend

/-- What `add_cables` leaves: the fabric, the pending map `_portmap`, the ports released with
`delete`, and the return value `!fail` or the assertion that ended the call. -/
structure cables_result where
  fabric : fabric_t
  portmap : List (key_guid_port_t × Option port_t)
  deleted : List port_t
  result : Except error_t Bool

/-- The method `fabric_t::add_cables(_portmap)`: the loop, the release of the remaining
ports when `fail` is set, and `_portmap.clear()`.  At an assertion the fabric and the pending
map are as the loop left them. -/
def fabric_t.add_cables (f : fabric_t) (pending : List (key_guid_port_t × Option port_t))
    (peers : List (key_guid_port_t × port_t)) : cables_result :=
  match add_cables_loop pending peers (pending.map Prod.fst) f pending with
  | (f1, _, cables_end.completed) =>
    { fabric := f1, portmap := [], deleted := [], result := Except.ok true }
  | (f1, pend, cables_end.cable_failed) =>
    { fabric := f1, portmap := [], deleted := pend.filterMap Prod.snd, result := Except.ok false }
  | (f1, pend, cables_end.asserted err) =>
    { fabric := f1, portmap := pend, deleted := [], result := Except.error err }

/-! ## ib_fabric.cpp: cabling compiled with NDEBUG

In the build with assertions `entity_t::add_port` returns true or ends in an assertion, so
that `add_cable` never returns false and the branch `fail = true` of `add_cables` is not
taken.  The methods of this section are the cabling methods with `assert` compiled out and
without the sanity loop of `add_port`, which is under `#ifndef NDEBUG`: here `add_port`
returns false for a port number the device holds, and `add_cable` returns false after it. -/

/-- The method `entity_t::add_port(port)` compiled with `NDEBUG`: `ports.insert` and
`result.second`. -/
def entity_t.add_port_ndebug (e : entity_t) (port : port_t) : entity_t × Bool :=
  if (map_find e.ports port.port).isSome then (e, false)
  else ({ e with ports := map_insert e.ports port.port port }, true)

/-- The method `fabric_t::find_entity(guid, type, true)` compiled with `NDEBUG`: the entity
found or created, and the fabric with it. -/
def fabric_t.find_entity_create_ndebug (f : fabric_t) (guid : Nat) (type : type_t) :
    fabric_t × entity_t :=
  match map_find f.entities guid with
  | none =>
    ({ f with entities := map_insert f.entities guid (entity_t.new guid type) },
      entity_t.new guid type)
  | some e => (f, e)

/-- The block of `add_cable` that is run for `port1` and then for `port2`, compiled with
`NDEBUG`: false when `add_port` returns false, before `portmap.insert`. -/
def fabric_t.attach_port_ndebug (f : fabric_t) (port : port_t) : fabric_t × Bool :=
  match f.find_entity_create_ndebug port.guid port.type with
  | (f1, e) =>
    match e.add_port_ndebug port with
    | (e2, false) => ({ f1 with entities := map_assign f1.entities port.guid e2 }, false)
    | (e2, true) =>
      ({ f1 with entities := map_assign f1.entities port.guid e2,
                 portmap := pm_insert f1.portmap port.key port }, true)

/-- The method `fabric_t::add_cable(port1, port2)` compiled with `NDEBUG`: the fabric it
leaves, the ports it releases with `delete` (both, in the branch "Port already known"), and
its return value. -/
def fabric_t.add_cable_ndebug (f : fabric_t) (port1 : port_t) (port2 : Option port_t) :
    fabric_t × List port_t × Bool :=
  if (pm_find f.portmap port1.key).isSome then (f, port1 :: port2.toList, true)
  else
    match f.attach_port_ndebug port1 with
    | (f1, false) => (f1, [], false)
    | (f1, true) =>
      match port2 with
      | none => (f1, [], true)
      | some p2 =>
        match f1.attach_port_ndebug p2 with
        | (f2, b) => (f2, [], b)

/-- The first loop of `add_cables` compiled with `NDEBUG`; `deleted` are the ports released
so far by the calls of `add_cable`.  The assignment `itr2->second = 0` through the end
iterator ends the call (`DanglingPeer`). -/
def add_cables_loop_ndebug (objs : List (key_guid_port_t × Option port_t))
    (peers : List (key_guid_port_t × port_t)) :
    List key_guid_port_t → fabric_t → List (key_guid_port_t × Option port_t) → List port_t →
    fabric_t × List (key_guid_port_t × Option port_t) × List port_t × cables_end
  | [], f, pend, deleted => (f, pend, deleted, cables_end.completed)
  | k :: ks, f, pend, deleted =>
    match pm_find pend k with
    | some (some p) =>
      match p.connection with
      | none =>
        match f.add_cable_ndebug p none with
        | (f1, d, true) =>
          add_cables_loop_ndebug objs peers ks f1 (pm_null pend k) (deleted ++ d)
        | (f1, d, false) => (f1, pend, deleted ++ d, cables_end.cable_failed)
      | some c =>
        match peer_of objs peers c with
        | none => (f, pend, deleted, cables_end.asserted error_t.InvalidPeer)
        | some q =>
          match f.add_cable_ndebug p (some q) with
          | (f1, d, true) =>
            match pm_find pend c with
            | some _ =>
              add_cables_loop_ndebug objs peers ks f1 (pm_null (pm_null pend c) k) (deleted ++ d)
            | none => (f1, pend, deleted ++ d, cables_end.asserted error_t.DanglingPeer)
          | (f1, d, false) => (f1, pend, deleted ++ d, cables_end.cable_failed)
    | _ => add_cables_loop_ndebug objs peers ks f pend deleted

/-- The method `fabric_t::add_cables(_portmap)` compiled with `NDEBUG`: the loop, the release
of every port the pending map still holds when `fail` is set, and `_portmap.clear()`. -/
def fabric_t.add_cables_ndebug (f : fabric_t)
    (pending : List (key_guid_port_t × Option port_t))
    (peers : List (key_guid_port_t × port_t)) : cables_result :=
  match add_cables_loop_ndebug pending peers (pending.map Prod.fst) f pending [] with
  | (f1, _, deleted, cables_end.completed) =>
    { fabric := f1, portmap := [], deleted := deleted, result := Except.ok true }
  | (f1, pend, deleted, cables_end.cable_failed) =>
    { fabric := f1, portmap := [], deleted := deleted ++ pend.filterMap Prod.snd,
      result := Except.ok false }
  | (f1, pend, deleted, cables_end.asserted err) =>
    { fabric := f1, portmap := pend, deleted := deleted, result := Except.error err }

/-! ## ib_fabric.cpp: routes

`fabric_t::add_route` asserts with the error kinds of the cabling: `assert(guid > 0)` is
`ZeroGuid`, `assert(port > 0)` is `ZeroPort`, `assert(lid > 0)` is `ZeroLid`,
`assert(itr != entities.end())` is `NoEntity`. -/

/-- The insertion `std::set<lid_t>::insert(lid)`: the set it leaves.  Nothing happens when the
element is present. -/
def set_insert : List Nat → Nat → List Nat
  | [], a => [a]
  | x :: s, a => if a < x then a :: x :: s else if a = x then x :: s else x :: set_insert s a

/-- The method `entity_t::add_route(port, lid)`: `routes[port].insert(lid)`, where `routes[port]`
is the set stored under `port` or a new empty set; the entity it leaves and `result.second`. -/
def entity_t.add_route (e : entity_t) (port lid : Nat) : entity_t × Bool :=
  ({ e with routes := map_assign e.routes port (set_insert ((map_find e.routes port).getD []) lid) },
    decide (lid ∉ (map_find e.routes port).getD []))

/-- The method `fabric_t::add_route(guid, port, lid)`: the fabric it leaves, and its return
value or the assertion that ended it. -/
def fabric_t.add_route (f : fabric_t) (guid port lid : Nat) : fabric_t × Except error_t Bool :=
  if guid = 0 then (f, Except.error error_t.ZeroGuid)
  else if port = 0 then (f, Except.error error_t.ZeroPort)
  else if lid = 0 then (f, Except.error error_t.ZeroLid)
  else if f.lidmap.length = 0 then (f, Except.error error_t.EmptyLidMap)
  else
    match map_find f.entities guid with
    | none => (f, Except.error error_t.NoEntity)
    | some e =>
      ({ f with entities := map_assign f.entities guid (e.add_route port lid).1 },
        Except.ok (e.add_route port lid).2)

/-- The method `entity_t::clear_routes`: `routes.clear(); return true;`. -/
def entity_t.clear_routes (e : entity_t) : entity_t × Bool := ({ e with routes := [] }, true)

/-- The loop of `fabric_t::clear_routes` over the entities still to visit: the entities it
leaves, and false when a call of `entity_t::clear_routes` returned false. -/
def clear_routes_loop : List (Nat × entity_t) → List (Nat × entity_t) × Bool
  | [] => ([], true)
  | (g, e) :: es =>
    match e.clear_routes with
    | (e2, false) => ((g, e2) :: es, false)
    | (e2, true) => ((g, e2) :: (clear_routes_loop es).1, (clear_routes_loop es).2)

/-- The method `fabric_t::clear_routes`: "Walk every entity and clear routes". -/
def fabric_t.clear_routes (f : fabric_t) : fabric_t × Bool :=
  ({ f with entities := (clear_routes_loop f.entities).1 }, (clear_routes_loop f.entities).2)

/-- The loop of `fabric_t::build_forwarding_table` over the entities still to visit. -/
def build_forwarding_table_loop : List (Nat × entity_t) → List (Nat × entity_t)
  | [] => []
  | (g, e) :: es => (g, e.build_forwarding_table) :: build_forwarding_table_loop es

/-- The method `fabric_t::build_forwarding_table`.  The C++ function returns the constant
`true`. -/
def fabric_t.build_forwarding_table (f : fabric_t) : fabric_t :=
  { f with entities := build_forwarding_table_loop f.entities }

/-! ## Definitions for the statements -/

/-- The first port, in iteration order of `routes`, whose destination set contains `a`. -/
def first_route_port : List (Nat × List Nat) → Nat → Option Nat
  | [], _ => none
  | (portnum, lids) :: rs, a => if a ∈ lids then some portnum else first_route_port rs a

/-- The addresses a device claims at the offset bound `maxoff = 2 ^ m - 1`: a host adapter the
block `base + 0 .. base + maxoff`, a switch only `base`, where `base` is `entity_t::lid`. -/
def claims_address (maxoff : Nat) (e : entity_t) (a : Nat) : Prop :=
  ∃ b, e.lid = Except.ok b ∧
    ((e.type = type_t.HCA ∧ ∃ i, i ≤ maxoff ∧ a = lid_add b i) ∨ (e.type = type_t.TCA ∧ a = b))

/-- The first offset of the list at which `lid + i` is a key of the lid map. -/
def first_hit (lidmap : List (Nat × Nat)) (lid : Nat) : List Nat → Option Nat
  | [] => none
  | i :: is => if (map_find lidmap (lid_add lid i)).isSome then some i else first_hit lidmap lid is

/-- The device reached after `k` forwarding steps towards `right`. -/
def forward_steps (f : fabric_t) (right : entity_t) : Nat → entity_t → Except error_t entity_t
  | 0, e => Except.ok e
  | k + 1, e =>
    match e.forward f right with
    | Except.error err => Except.error err
    | Except.ok next => forward_steps f right k next

/-- The walk from `left` needs exactly `k` forwarding steps: after `k` steps the current
device has the lid of `right`, and after every smaller number of steps it has another lid. -/
def reaches_in (f : fabric_t) (right left : entity_t) (k : Nat) : Prop :=
  (∃ d l, forward_steps f right k left = Except.ok d ∧ d.lid = Except.ok l ∧
    right.lid = Except.ok l) ∧
  ∀ j, j < k → ∃ d l r, forward_steps f right j left = Except.ok d ∧ d.lid = Except.ok l ∧
    right.lid = Except.ok r ∧ l ≠ r

/-- What `attach_port` does to the entity map: the entity under `g` becomes `e`. -/
def entities_updated (old new : List (Nat × entity_t)) (g : Nat) (e : entity_t) : Prop :=
  ∀ g2, map_find new g2 = if g = g2 then some e else map_find old g2

/-- The entity `attach_port` works on: the one `entities` holds under the guid of the port,
with the type of the port, or a new one. -/
def located (f : fabric_t) (p : port_t) (e0 : entity_t) : Prop :=
  (map_find f.entities p.guid = some e0 ∧ e0.type = p.type) ∨
  (map_find f.entities p.guid = none ∧ e0 = entity_t.new p.guid p.type ∧ p.guid ≠ 0 ∧
    p.type ≠ type_t.UNKNOWN)

/-- The agreement of the flat port index with the port maps of the devices: every device is
stored under its guid and has a known class, its ports carry its guid and class and are
stored under their port numbers, and a port is in a device's port map exactly when the flat
index holds it under the key of that guid and port number. -/
def fabric_inv (f : fabric_t) : Prop :=
  (∀ g e, map_find f.entities g = some e →
    e.guid = g ∧ e.type ≠ type_t.UNKNOWN ∧
    (∀ x ∈ e.ports, x.2.guid = g ∧ x.2.type = e.type) ∧
    (∀ n p, map_find e.ports n = some p →
      p.port = n ∧ pm_find f.portmap { guid := g, port := n } = some p)) ∧
  (∀ k p, pm_find f.portmap k = some p →
    ∃ e, map_find f.entities k.guid = some e ∧ map_find e.ports k.port = some p)

/-- The fabrics that calls of `add_cable` and `add_cables`, whatever their outcome, build
from the fabric of the constructor. -/
inductive cabled : fabric_t → Prop where
  | empty : cabled fabric_t.empty
  | add_cable (f : fabric_t) (port1 : port_t) (port2 : Option port_t) :
      cabled f → cabled (f.add_cable port1 port2).1
  | add_cables (f : fabric_t) (pending : List (key_guid_port_t × Option port_t))
      (peers : List (key_guid_port_t × port_t)) :
      cabled f → cabled (f.add_cables pending peers).fabric

/-- The calls `add_cable(port1, port2)` that the first loop of `add_cables` makes, in order:
the recursion of `add_cables_loop`, which records each call before it is made. -/
def add_cables_calls (objs : List (key_guid_port_t × Option port_t))
    (peers : List (key_guid_port_t × port_t)) :
    List key_guid_port_t → fabric_t → List (key_guid_port_t × Option port_t) →
    List (port_t × Option port_t)
  | [], _, _ => []
  | k :: ks, f, pend =>
    match pm_find pend k with
    | some (some p) =>
      if p.connection = some p.key then []
      else
        match p.connection with
        | none =>
          (p, none) ::
            match f.add_cable p none with
            | (f1, Except.ok true) => add_cables_calls objs peers ks f1 (pm_null pend k)
            | _ => []
        | some c =>
          match peer_of objs peers c with
          | none => []
          | some q =>
            (p, some q) ::
              match f.add_cable p (some q) with
              | (f1, Except.ok true) =>
                match pm_find pend c with
                | some _ => add_cables_calls objs peers ks f1 (pm_null (pm_null pend c) k)
                | none => []
              | _ => []
    | _ => add_cables_calls objs peers ks f pend

/-- The ports of a list of calls of `add_cable`: `port1` of every call, and `port2` when it is
given. -/
def cable_ends : List (port_t × Option port_t) → List port_t
  | [] => []
  | (p, none) :: cs => p :: cable_ends cs
  | (p, some q) :: cs => p :: q :: cable_ends cs

/-- A pending map stores every port under the key of the port. -/
def pending_keyed (m : List (key_guid_port_t × Option port_t)) : Prop :=
  ∀ x ∈ m, ∀ p, x.2 = some p → p.key = x.1

/-- One call of a method of `fabric_t` that writes to the fabric, whatever its outcome.
`build_lid_map` and `clear_lidmap` write `lmc` and `lidmap` only: the step `lid_map` is any
change of these two. -/
inductive fabric_step : fabric_t → fabric_t → Prop where
  | add_cable (f : fabric_t) (port1 : port_t) (port2 : Option port_t) :
      fabric_step f (f.add_cable port1 port2).1
  | add_cables (f : fabric_t) (pending : List (key_guid_port_t × Option port_t))
      (peers : List (key_guid_port_t × port_t)) :
      fabric_step f (f.add_cables pending peers).fabric
  | find_entity (f : fabric_t) (guid : Nat) (type : type_t) :
      fabric_step f (f.find_entity_create guid type).1
  | lid_map (f f2 : fabric_t) :
      f2.entities = f.entities → f2.portmap = f.portmap → fabric_step f f2
  | add_route (f : fabric_t) (guid port lid : Nat) : fabric_step f (f.add_route guid port lid).1
  | clear_routes (f : fabric_t) : fabric_step f f.clear_routes.1
  | build_forwarding_table (f : fabric_t) : fabric_step f f.build_forwarding_table

/-- The fabrics that a sequence of such calls builds from the fabric `f0`. -/
inductive reachable_from (f0 : fabric_t) : fabric_t → Prop where
  | refl : reachable_from f0 f0
  | step (f f2 : fabric_t) : reachable_from f0 f → fabric_step f f2 → reachable_from f0 f2

/-- The bound one host-adapter port gives to the inference: `i - 1` for the smallest offset
`i` in `1 .. 127` at which `lid + i` is a key of the lid map, and 127 when there is none. -/
def port_bound (lidmap : List (Nat × Nat)) (p : port_t) : Nat :=
  match first_hit lidmap p.lid (List.range' 1 127) with
  | some i => i - 1
  | none => 127

/-- The minimum of `port_bound` over the host-adapter ports of a flat port index, and 127 when
it holds none. -/
def collision_bound (lidmap : List (Nat × Nat)) : List (key_guid_port_t × port_t) → Nat
  | [] => 127
  | (_, p) :: ps =>
    if p.type = type_t.HCA then min (port_bound lidmap p) (collision_bound lidmap ps)
    else collision_bound lidmap ps

/-- The run of a port as the spec words it: the first offset of the list at which `lid + i`
is not a key of the lid map. -/
def spec_first_absent (lidmap : List (Nat × Nat)) (lid : Nat) : List Nat → Option Nat
  | [] => none
  | i :: is =>
    if (map_find lidmap (lid_add lid i)).isNone then some i else spec_first_absent lidmap lid is

/-- The fabric-wide bound as the spec words it: the minimum over the host-adapter ports of the
run length minus one, from the upper bound 127. -/
def spec_run_bound (lidmap : List (Nat × Nat)) : List (key_guid_port_t × port_t) → Nat
  | [] => 127
  | (_, p) :: ps =>
    if p.type = type_t.HCA then
      match spec_first_absent lidmap p.lid (List.range' 1 127) with
      | some i => min (i - 1) (spec_run_bound lidmap ps)
      | none => spec_run_bound lidmap ps
    else spec_run_bound lidmap ps

/-- The number of times a call `build_lid_map(determine_lmc)` runs its first block, "Walk
every entity and build lid map": once, and once more in the call `build_lid_map(false)` it
ends with when the inferred `lmc` is not `current_lmc`. -/
def fabric_t.build_lid_map_passes (f : fabric_t) (determine_lmc : Bool) : Nat :=
  match f.build_lid_map_pass with
  | Except.error _ => 1
  | Except.ok f1 =>
    if determine_lmc then
      match f1.determine_max_lmc_lid with
      | Except.error _ => 1
      | Except.ok maxoff =>
        if lmc_of_max_lmc_lid maxoff ≤ MAX_LMC_VALUE then
          if f.lmc ≠ lmc_of_max_lmc_lid maxoff then 1 + 1 else 1
        else 1
    else 1

/-- A cable from the device `a` to the device `b` of the fabric: a port of `a` whose peer is a
port of `b`, the peer pointer resolved as `forward` and `count_hops` resolve it. -/
def cable_joined (f : fabric_t) (a b : entity_t) : Prop :=
  ∃ n p c q, map_find a.ports n = some p ∧ p.connection = some c ∧
    f.find_entity c.guid = some b ∧ map_find b.ports c.port = some q

/-- Symmetric cabling: the peer of every port of a device of the fabric is a port of a device
of the fabric, and its peer is the first port. -/
def symmetric_cabling (f : fabric_t) : Prop :=
  ∀ g e n p c, map_find f.entities g = some e → map_find e.ports n = some p →
    p.connection = some c →
    ∃ e2 q, map_find f.entities c.guid = some e2 ∧ map_find e2.ports c.port = some q ∧
      q.connection = some { guid := g, port := n }

/-- Distinct devices of the fabric have distinct base addresses. -/
def distinct_bases (f : fabric_t) : Prop :=
  ∀ g1 e1 g2 e2 l, map_find f.entities g1 = some e1 → map_find f.entities g2 = some e2 →
    e1.lid = Except.ok l → e2.lid = Except.ok l → g1 = g2

/-- A sequence of `n + 1` devices from `a` to `b` in which each device is joined to the next
by a cable: `n` cables in a row. -/
inductive cable_path (f : fabric_t) : Nat → entity_t → entity_t → Prop where
  | refl (a : entity_t) : cable_path f 0 a a
  | step (n : Nat) (a b c : entity_t) :
      cable_joined f a b → cable_path f n b c → cable_path f (n + 1) a c

/-! ## Example fabrics -/

/-- A port for the example fabrics. -/
def sample_port (t : type_t) (guid port lid : Nat) (peer : Option key_guid_port_t) : port_t :=
  { type := t, lid := lid, port := port, guid := guid, connection := peer }

/-- A one-port device without routes for the example fabrics. -/
def sample_entity (t : type_t) (guid lid : Nat) : entity_t :=
  { guid := guid, type := t, ports := [(1, sample_port t guid 1 lid none)], routes := [], uft := [] }

/-- A fabric of two one-port devices: guid 1 of class `t1` at lid `l1`, guid 2 of class `t2`
at lid `l2`. -/
def two_device_fabric (lmc : Nat) (t1 : type_t) (l1 : Nat) (t2 : type_t) (l2 : Nat) : fabric_t :=
  { lmc := lmc,
    entities := [(1, sample_entity t1 1 l1), (2, sample_entity t2 2 l2)],
    portmap := [({ guid := 1, port := 1 }, sample_port t1 1 1 l1 none),
                ({ guid := 2, port := 1 }, sample_port t2 2 1 l2 none)],
    lidmap := [] }

/-- Host adapters with guid 1, 2 (base lids 10, 20) and a switch with guid 3 (base lid 30),
the adapters cabled to ports 1 and 2 of the switch. -/
def small_fabric (lmc : Nat) (lidmap : List (Nat × Nat)) : fabric_t :=
  { lmc := lmc,
    entities :=
      [(1, { guid := 1, type := type_t.HCA, routes := [], uft := [],
             ports := [(1, sample_port type_t.HCA 1 1 10 (some { guid := 3, port := 1 }))] }),
       (2, { guid := 2, type := type_t.HCA, routes := [], uft := [],
             ports := [(1, sample_port type_t.HCA 2 1 20 (some { guid := 3, port := 2 }))] }),
       (3, { guid := 3, type := type_t.TCA, routes := [], uft := [],
             ports := [(1, sample_port type_t.TCA 3 1 30 (some { guid := 1, port := 1 })),
                       (2, sample_port type_t.TCA 3 2 30 (some { guid := 2, port := 1 }))] })],
    portmap :=
      [({ guid := 1, port := 1 }, sample_port type_t.HCA 1 1 10 (some { guid := 3, port := 1 })),
       ({ guid := 2, port := 1 }, sample_port type_t.HCA 2 1 20 (some { guid := 3, port := 2 })),
       ({ guid := 3, port := 1 }, sample_port type_t.TCA 3 1 30 (some { guid := 1, port := 1 })),
       ({ guid := 3, port := 2 }, sample_port type_t.TCA 3 2 30 (some { guid := 2, port := 1 }))],
    lidmap := lidmap }

/-- A switch with routes `1 -> {5, 9}`, `3 -> {5}` and a stale forwarding entry `77 -> 4`. -/
def tie_break_entity : entity_t :=
  { guid := 1, type := type_t.TCA, ports := [], routes := [(1, [5, 9]), (3, [5])],
    uft := [(77, 4)] }

/-- The host adapter of the star scenario: guid `g`, lid `lid`, port 1 cabled to port `sp` of
the switch with guid 1. -/
def star_hca (g lid sp : Nat) : entity_t :=
  { guid := g, type := type_t.HCA, routes := [], uft := [],
    ports := [(1, sample_port type_t.HCA g 1 lid (some { guid := 1, port := sp }))] }

/-- The switch of the star scenario: guid 1, lid `lid`, port 1 cabled to the adapter with
guid 2 and port 2 to the adapter with guid 3, routes `1 -> {2}`, `2 -> {3}` compiled. -/
def star_switch (lid : Nat) : entity_t :=
  entity_t.build_forwarding_table
    { guid := 1, type := type_t.TCA, routes := [(1, [2]), (2, [3])], uft := [],
      ports := [(1, sample_port type_t.TCA 1 1 lid (some { guid := 2, port := 1 })),
                (2, sample_port type_t.TCA 1 2 lid (some { guid := 3, port := 1 }))] }

/-- The scenario: switch `S` (guid 1, lid `slid`), host adapters `H1` (guid 2, lid 2) and
`H2` (guid 3, lid 3), cabled `H1.port1 <-> S.port1`, `H2.port1 <-> S.port2`. -/
def star_fabric (slid : Nat) : fabric_t :=
  { lmc := 0,
    entities := [(1, star_switch slid), (2, star_hca 2 2 1), (3, star_hca 3 3 2)],
    portmap :=
      [({ guid := 1, port := 1 }, sample_port type_t.TCA 1 1 slid (some { guid := 2, port := 1 })),
       ({ guid := 1, port := 2 }, sample_port type_t.TCA 1 2 slid (some { guid := 3, port := 1 })),
       ({ guid := 2, port := 1 }, sample_port type_t.HCA 2 1 2 (some { guid := 1, port := 1 })),
       ({ guid := 3, port := 1 }, sample_port type_t.HCA 3 1 3 (some { guid := 1, port := 2 }))],
    lidmap := [(slid, 1), (2, 2), (3, 3)] }

/-- The first switch of the chain `H1 - S1 - S2 - H2`: guid 1, lid 1, port 1 cabled to `H1`
(guid 3), port 2 to `S2` (guid 2); routes `1 -> {3}`, `2 -> {2, 4}` compiled. -/
def chain_switch1 : entity_t :=
  entity_t.build_forwarding_table
    { guid := 1, type := type_t.TCA, routes := [(1, [3]), (2, [2, 4])], uft := [],
      ports := [(1, sample_port type_t.TCA 1 1 1 (some { guid := 3, port := 1 })),
                (2, sample_port type_t.TCA 1 2 1 (some { guid := 2, port := 1 }))] }

/-- The second switch of the chain: guid 2, lid 2, port 1 cabled to `S1`, port 2 to `H2`
(guid 4); routes `1 -> {1, 3}`, `2 -> {4}` compiled. -/
def chain_switch2 : entity_t :=
  entity_t.build_forwarding_table
    { guid := 2, type := type_t.TCA, routes := [(1, [1, 3]), (2, [4])], uft := [],
      ports := [(1, sample_port type_t.TCA 2 1 2 (some { guid := 1, port := 2 })),
                (2, sample_port type_t.TCA 2 2 2 (some { guid := 4, port := 1 }))] }

/-- The host adapter `H1` of the chain: guid 3, lid 3, cabled to port 1 of `S1`. -/
def chain_hca1 : entity_t :=
  { guid := 3, type := type_t.HCA, routes := [], uft := [],
    ports := [(1, sample_port type_t.HCA 3 1 3 (some { guid := 1, port := 1 }))] }

/-- The host adapter `H2` of the chain: guid 4, lid 4, cabled to port 2 of `S2`. -/
def chain_hca2 : entity_t :=
  { guid := 4, type := type_t.HCA, routes := [], uft := [],
    ports := [(1, sample_port type_t.HCA 4 1 4 (some { guid := 2, port := 2 }))] }

/-- The chain `H1 - S1 - S2 - H2`. -/
def chain_fabric : fabric_t :=
  { lmc := 0,
    entities := [(1, chain_switch1), (2, chain_switch2), (3, chain_hca1), (4, chain_hca2)],
    portmap :=
      [({ guid := 1, port := 1 }, sample_port type_t.TCA 1 1 1 (some { guid := 3, port := 1 })),
       ({ guid := 1, port := 2 }, sample_port type_t.TCA 1 2 1 (some { guid := 2, port := 1 })),
       ({ guid := 2, port := 1 }, sample_port type_t.TCA 2 1 2 (some { guid := 1, port := 2 })),
       ({ guid := 2, port := 2 }, sample_port type_t.TCA 2 2 2 (some { guid := 4, port := 1 })),
       ({ guid := 3, port := 1 }, sample_port type_t.HCA 3 1 3 (some { guid := 1, port := 1 })),
       ({ guid := 4, port := 1 }, sample_port type_t.HCA 4 1 4 (some { guid := 2, port := 2 }))],
    lidmap := [(1, 1), (2, 2), (3, 3), (4, 4)] }

/-- A switch of the routing cycle: guid `g`, lid `g`, port 1 cabled to port 1 of the switch
with guid `peer`, and the route `1 -> {3}` compiled. -/
def cycle_switch (g peer : Nat) : entity_t :=
  entity_t.build_forwarding_table
    { guid := g, type := type_t.TCA, routes := [(1, [3])], uft := [],
      ports := [(1, sample_port type_t.TCA g 1 g (some { guid := peer, port := 1 }))] }

/-- Two switches (guid 1 and 2) that forward the lid 3 of a third switch (guid 3) to each
other. -/
def cycle_fabric : fabric_t :=
  { lmc := 0,
    entities := [(1, cycle_switch 1 2), (2, cycle_switch 2 1), (3, sample_entity type_t.TCA 3 3)],
    portmap :=
      [({ guid := 1, port := 1 }, sample_port type_t.TCA 1 1 1 (some { guid := 2, port := 1 })),
       ({ guid := 2, port := 1 }, sample_port type_t.TCA 2 1 2 (some { guid := 1, port := 1 })),
       ({ guid := 3, port := 1 }, sample_port type_t.TCA 3 1 3 none)],
    lidmap := [(1, 1), (2, 2), (3, 3)] }

/-- The port 1 of a host adapter with guid 2 and lid 2, with its peer link as given. -/
def sample_hca_port (peer : Option key_guid_port_t) : port_t := sample_port type_t.HCA 2 1 2 peer

/-- The port 1 of a switch with guid 1 and lid 1, with its peer link as given. -/
def sample_tca_port (peer : Option key_guid_port_t) : port_t := sample_port type_t.TCA 1 1 1 peer

/-- The fabric after the cable between `sample_hca_port` and `sample_tca_port`, linked to each
other, is added to the empty fabric. -/
def sample_pair_fabric : fabric_t :=
  (fabric_t.empty.add_cable (sample_hca_port (some { guid := 1, port := 1 }))
    (some (sample_tca_port (some { guid := 2, port := 1 })))).1

/-- A pending map of one cable between `sample_tca_port` and `sample_hca_port`, and the dark
port 1 of a host adapter with guid 3. -/
def sample_pending : List (key_guid_port_t × Option port_t) :=
  [({ guid := 1, port := 1 }, some (sample_tca_port (some { guid := 2, port := 1 }))),
   ({ guid := 2, port := 1 }, some (sample_hca_port (some { guid := 1, port := 1 }))),
   ({ guid := 3, port := 1 }, some (sample_port type_t.HCA 3 1 3 none))]

/-- The fabric with one device, the switch with guid 2, built by cabling its dark port 5. -/
def conflict_fabric : fabric_t :=
  (fabric_t.empty.add_cable (sample_port type_t.TCA 2 5 7 none) none).1

/-- A pending map of one cable between `sample_tca_port` and `sample_hca_port`. -/
def conflict_pending : List (key_guid_port_t × Option port_t) :=
  [({ guid := 1, port := 1 }, some (sample_tca_port (some { guid := 2, port := 1 }))),
   ({ guid := 2, port := 1 }, some (sample_hca_port (some { guid := 1, port := 1 })))]

/-- A host adapter with guid 1 and two ports, port 1 at lid 10 and port 2 at lid 500, and a
switch with guid 2 at lid 1000, all ports dark, built by three calls of `add_cable`. -/
def dual_port_fabric : fabric_t :=
  (((fabric_t.empty.add_cable (sample_port type_t.HCA 1 1 10 none) none).1.add_cable
    (sample_port type_t.HCA 1 2 500 none) none).1.add_cable
    (sample_port type_t.TCA 2 1 1000 none) none).1

/-- The switch of `sample_pair_fabric`: guid 1, port 1 cabled to port 1 of the host adapter
with guid 2. -/
def sample_pair_switch : entity_t :=
  { guid := 1, type := type_t.TCA, routes := [], uft := [],
    ports := [(1, sample_tca_port (some { guid := 2, port := 1 }))] }

/-- The fabric with one device, the host adapter with guid 2, built by cabling its dark
port 1. -/
def taken_fabric : fabric_t :=
  (fabric_t.empty.add_cable (sample_hca_port none) none).1

/-- A switch with guid 1 and two dark ports: port 1 at lid 0 and port 2 at lid 5. -/
def unset_first_switch : entity_t :=
  { guid := 1, type := type_t.TCA, routes := [], uft := [],
    ports := [(1, sample_port type_t.TCA 1 1 0 none), (2, sample_port type_t.TCA 1 2 5 none)] }

/-- The fabric of `unset_first_switch`, built by cabling its two dark ports. -/
def unset_first_fabric : fabric_t :=
  ((fabric_t.empty.add_cable (sample_port type_t.TCA 1 1 0 none) none).1.add_cable
    (sample_port type_t.TCA 1 2 5 none) none).1

/-! ## Lemmas on maps -/

theorem map_find_place {V : Type} (m : List (Nat × V)) (k : Nat) (v : V) (a : Nat)
    (hk : map_find m k = none) :
    map_find (map_place m k v) a = if k = a then some v else map_find m a := by
  induction m with
  | nil => simp [map_place, map_find]
  | cons x m ih =>
    obtain ⟨k1, v1⟩ := x
    simp only [map_find] at hk
    by_cases h1 : k1 = k
    · simp [h1] at hk
    · simp only [h1, if_false] at hk
      simp only [map_place]
      by_cases h2 : k < k1
      · simp [h2, map_find]
      · simp only [h2, if_false, map_find, ih hk]
        by_cases h3 : k1 = a
        · have : ¬ k = a := fun h => h1 (h3.trans h.symm)
          simp [h3, this]
        · simp [h3]

theorem map_find_insert {V : Type} (m : List (Nat × V)) (k : Nat) (v : V) (a : Nat) :
    map_find (map_insert m k v) a =
      match map_find m a with
      | some w => some w
      | none => if k = a then some v else none := by
  unfold map_insert
  cases hk : map_find m k with
  | some w =>
    simp only [Option.isSome_some, if_true]
    cases ha : map_find m a with
    | some w2 => rfl
    | none =>
      have : ¬ k = a := by
        intro h
        rw [h] at hk
        rw [hk] at ha
        cases ha
      simp [this]
  | none =>
    simp only [Option.isSome_none, Bool.false_eq_true, if_false]
    rw [map_find_place m k v a hk]
    by_cases h : k = a
    · subst h
      simp [hk]
    · simp only [h, if_false]
      cases map_find m a <;> rfl

theorem map_find_assign {V : Type} (m : List (Nat × V)) (k : Nat) (v : V) (a : Nat) :
    map_find (map_assign m k v) a = if k = a then some v else map_find m a := by
  induction m with
  | nil => simp [map_assign, map_find]
  | cons x m ih =>
    obtain ⟨k1, v1⟩ := x
    simp only [map_assign]
    by_cases h2 : k < k1
    · simp [h2, map_find]
    · simp only [h2, if_false]
      by_cases h3 : k = k1
      · subst h3
        simp only [if_true, map_find]
        by_cases h4 : k = a <;> simp [h4]
      · simp only [h3, if_false, map_find, ih]
        by_cases h4 : k1 = a
        · have : ¬ k = a := fun h => h3 (h.trans h4.symm)
          simp [h4, this]
        · simp [h4]

theorem floor_log2_eq (fuel n : Nat) (h : n ≤ fuel) : floor_log2 fuel n = Nat.log2 n := by
  induction fuel generalizing n with
  | zero =>
    have : n = 0 := Nat.le_zero.mp h
    subst this
    rw [Nat.log2]
    simp [floor_log2]
  | succ fuel ih =>
    rw [Nat.log2]
    simp only [floor_log2]
    by_cases h2 : n ≥ 2
    · have h3 : n / 2 ≤ fuel := by omega
      simp [h2, ih _ h3]
    · simp [h2]

/-! ## entity_t::build_forwarding_table -/

theorem find_uft_insert_set (portnum : Nat) (lids : List Nat) (uft : List (Nat × Nat)) (a : Nat) :
    map_find (uft_insert_set portnum uft lids) a =
      match map_find uft a with
      | some w => some w
      | none => if a ∈ lids then some portnum else none := by
  induction lids generalizing uft with
  | nil => simp only [uft_insert_set]; cases map_find uft a <;> simp
  | cons j js ih =>
    simp only [uft_insert_set, ih, map_find_insert]
    cases map_find uft a with
    | some w => rfl
    | none =>
      by_cases h : j = a
      · simp [h]
      · have h2 : ¬ a = j := fun e => h e.symm
        simp [h, h2]

theorem find_uft_insert_routes (rs : List (Nat × List Nat)) (uft : List (Nat × Nat)) (a : Nat) :
    map_find (uft_insert_routes uft rs) a =
      match map_find uft a with
      | some w => some w
      | none => first_route_port rs a := by
  induction rs generalizing uft with
  | nil => simp only [uft_insert_routes, first_route_port]; cases map_find uft a <;> rfl
  | cons r rs ih =>
    obtain ⟨p, s⟩ := r
    simp only [uft_insert_routes, ih, find_uft_insert_set, first_route_port]
    cases map_find uft a with
    | some w => rfl
    | none =>
      by_cases h : a ∈ s <;> simp [h]

theorem first_route_port_none (rs : List (Nat × List Nat)) (a : Nat) :
    first_route_port rs a = none ↔ ∀ r ∈ rs, a ∉ r.2 := by
  induction rs with
  | nil => simp [first_route_port]
  | cons r rs ih =>
    obtain ⟨p, s⟩ := r
    simp only [first_route_port, List.mem_cons, forall_eq_or_imp]
    by_cases h : a ∈ s
    · simp [h]
    · simp [h, ih]

theorem first_route_port_some (rs : List (Nat × List Nat)) (hs : map_sorted rs) (a p : Nat) :
    first_route_port rs a = some p ↔
      (∃ s, (p, s) ∈ rs ∧ a ∈ s) ∧ ∀ q s, (q, s) ∈ rs → a ∈ s → p ≤ q := by
  induction rs with
  | nil => simp [first_route_port]
  | cons r rs ih =>
    obtain ⟨p1, s1⟩ := r
    have hs2 : map_sorted rs := (List.pairwise_cons.mp hs).2
    have hlt : ∀ y ∈ rs, p1 < y.1 := (List.pairwise_cons.mp hs).1
    simp only [first_route_port]
    by_cases h : a ∈ s1
    · simp only [h, if_true, Option.some.injEq]
      constructor
      · intro e
        subst e
        refine ⟨⟨s1, List.mem_cons_self _ _, h⟩, ?_⟩
        intro q s hq _
        rcases List.mem_cons.mp hq with e | hq
        · cases e; exact Nat.le_refl _
        · exact Nat.le_of_lt (hlt _ hq)
      · rintro ⟨⟨s, hm, has⟩, hmin⟩
        have h1 : p ≤ p1 := hmin p1 s1 (List.mem_cons_self _ _) h
        rcases List.mem_cons.mp hm with e | hm
        · cases e; rfl
        · have := hlt _ hm
          simp only at this
          omega
    · simp only [h, if_false, ih hs2]
      constructor
      · rintro ⟨⟨s, hm, has⟩, hmin⟩
        refine ⟨⟨s, List.mem_cons_of_mem _ hm, has⟩, ?_⟩
        intro q s2 hq hqa
        rcases List.mem_cons.mp hq with e | hq
        · cases e; exact absurd hqa h
        · exact hmin q s2 hq hqa
      · rintro ⟨⟨s, hm, has⟩, hmin⟩
        rcases List.mem_cons.mp hm with e | hm
        · cases e; exact absurd has h
        · exact ⟨⟨s, hm, has⟩, fun q s2 hq hqa => hmin q s2 (List.mem_cons_of_mem _ hq) hqa⟩

/-- C1: after `entity_t::build_forwarding_table` the forwarding table has an entry for address
`a` exactly when `a` is in the destination set of some source port, the entry is the
numerically smallest such port number, and nothing of the previous forwarding table survives
(the result does not depend on the old `uft`); ports and routes are untouched. -/
theorem build_forwarding_table_smallest_port (e : entity_t) (hs : map_sorted e.routes) (a : Nat) :
    ((map_find e.build_forwarding_table.uft a).isSome ↔ ∃ r ∈ e.routes, a ∈ r.2) ∧
    (∀ p, map_find e.build_forwarding_table.uft a = some p ↔
      (∃ s, (p, s) ∈ e.routes ∧ a ∈ s) ∧ ∀ q s, (q, s) ∈ e.routes → a ∈ s → p ≤ q) ∧
    (∀ old, ({ e with uft := old } : entity_t).build_forwarding_table = e.build_forwarding_table) ∧
    e.build_forwarding_table.routes = e.routes ∧ e.build_forwarding_table.ports = e.ports := by
  have hf : map_find e.build_forwarding_table.uft a = first_route_port e.routes a := by
    simp only [entity_t.build_forwarding_table, find_uft_insert_routes, map_find]
  refine ⟨?_, ?_, fun _ => rfl, rfl, rfl⟩
  · rw [hf]
    have := first_route_port_none e.routes a
    cases hfr : first_route_port e.routes a with
    | none =>
      rw [hfr] at this
      simp only [Option.isSome_none, Bool.false_eq_true, false_iff]
      rintro ⟨r, hr, har⟩
      exact this.mp rfl r hr har
    | some p =>
      simp only [Option.isSome_some, true_iff]
      by_contra hc
      rw [hfr] at this
      have h2 := this.mpr (fun r hr har => hc ⟨r, hr, har⟩)
      cases h2
  · intro p
    rw [hf]
    exact first_route_port_some e.routes hs a p

theorem build_forwarding_table_smallest_port_witness :
    map_find tie_break_entity.build_forwarding_table.uft 5 = some 1 ∧
    map_find tie_break_entity.build_forwarding_table.uft 77 = none ∧
    (∀ p, map_find tie_break_entity.build_forwarding_table.uft 5 = some p ↔
      (∃ s, (p, s) ∈ tie_break_entity.routes ∧ 5 ∈ s) ∧
        ∀ q s, (q, s) ∈ tie_break_entity.routes → 5 ∈ s → p ≤ q) :=
  ⟨by decide, by decide,
    (build_forwarding_table_smallest_port tie_break_entity
      (by simp [map_sorted, tie_break_entity]) 5).2.1⟩

/-! ## fabric_t::build_lid_map: the construction pass -/

theorem assign_hca_lids_find (guid blid : Nat) (is : List Nat) (m m2 : List (Nat × Nat))
    (h : assign_hca_lids guid blid m is = Except.ok m2) (a v : Nat) :
    map_find m2 a = some v ↔
      map_find m a = some v ∨ (v = guid ∧ ∃ i ∈ is, a = lid_add blid i) := by
  induction is generalizing m with
  | nil =>
    simp only [assign_hca_lids, Except.ok.injEq] at h
    subst h
    simp
  | cons i is ih =>
    simp only [assign_hca_lids] at h
    cases hf : map_find m (lid_add blid i) with
    | some w => simp [hf] at h
    | none =>
      simp only [hf, Option.isSome_none, Bool.false_eq_true, if_false] at h
      rw [ih _ h, map_find_assign]
      by_cases he : lid_add blid i = a
      · subst he
        simp only [if_true, Option.some.injEq, hf, List.mem_cons, exists_eq_or_imp, true_or,
          and_true]
        constructor
        · rintro (e | ⟨e, _⟩)
          · exact Or.inr e.symm
          · exact Or.inr e
        · rintro (e | e)
          · cases e
          · exact Or.inl e.symm
      · have he2 : ¬ a = lid_add blid i := fun e => he e.symm
        simp only [he, if_false, List.mem_cons, exists_eq_or_imp, he2, false_or]

theorem assign_entity_lids_find (maxoff guid : Nat) (e : entity_t) (m m2 : List (Nat × Nat))
    (h : assign_entity_lids maxoff m guid e = Except.ok m2) (a v : Nat) :
    map_find m2 a = some v ↔ map_find m a = some v ∨ (v = guid ∧ claims_address maxoff e a) := by
  unfold assign_entity_lids at h
  unfold claims_address
  cases hl : e.lid with
  | error err => simp [hl] at h
  | ok b =>
    simp only [hl] at h
    cases ht : e.type with
    | UNKNOWN => simp [ht] at h
    | HCA =>
      simp only [ht] at h
      rw [assign_hca_lids_find _ _ _ _ _ h]
      simp [List.mem_range, Nat.lt_succ_iff]
    | TCA =>
      simp only [ht] at h
      cases hf : map_find m b with
      | some w => simp [hf] at h
      | none =>
        simp only [hf, Option.isSome_none, Bool.false_eq_true, if_false, Except.ok.injEq] at h
        subst h
        rw [map_find_assign]
        by_cases hb : b = a
        · subst hb
          simp only [if_true, Option.some.injEq, hf, Except.ok.injEq, exists_eq_left', false_or]
          simp [eq_comm]
        · have hb2 : ¬ a = b := fun e => hb e.symm
          simp [hb, hb2]

theorem walk_entities_find (maxoff : Nat) (es : List (Nat × entity_t)) (m m2 : List (Nat × Nat))
    (h : walk_entities maxoff m es = Except.ok m2) (a v : Nat) :
    map_find m2 a = some v ↔
      map_find m a = some v ∨ ∃ e, (v, e) ∈ es ∧ claims_address maxoff e a := by
  induction es generalizing m with
  | nil =>
    simp only [walk_entities, Except.ok.injEq] at h
    subst h
    simp
  | cons x es ih =>
    obtain ⟨g, e⟩ := x
    simp only [walk_entities] at h
    cases ha : assign_entity_lids maxoff m g e with
    | error err => simp [ha] at h
    | ok m1 =>
      simp only [ha] at h
      rw [ih _ h, assign_entity_lids_find _ _ _ _ _ ha]
      simp only [List.mem_cons, Prod.mk.injEq]
      constructor
      · rintro ((h1 | ⟨h1, h2⟩) | ⟨e2, h1, h2⟩)
        · exact Or.inl h1
        · exact Or.inr ⟨e, Or.inl ⟨h1, rfl⟩, h2⟩
        · exact Or.inr ⟨e2, Or.inr h1, h2⟩
      · rintro (h1 | ⟨e2, (⟨h1, h3⟩ | h1), h2⟩)
        · exact Or.inl (Or.inl h1)
        · subst h3
          exact Or.inl (Or.inr ⟨h1, h2⟩)
        · exact Or.inr ⟨e2, h1, h2⟩

theorem max_lmc_lid_eq (lmc : Nat) (h : lmc ≤ 7) : max_lmc_lid lmc = 2 ^ lmc - 1 := by
  unfold max_lmc_lid
  interval_cases lmc <;> simp

theorem build_lid_map_false (f : fabric_t) : f.build_lid_map false = f.build_lid_map_pass := by
  unfold fabric_t.build_lid_map
  cases f.build_lid_map_pass <;> simp

/-- C2: a successful `build_lid_map(false)` at multiplier `m = lmc <= 7` leaves a lid map that
is exactly `base + i -> d` for every host adapter `d` and `i` in `0 .. 2 ^ m - 1` and
`base -> d` for every switch `d` (the sum being the 64-bit sum of `lid_t`), with no other
entries, whatever the lid map held before; the multiplier, the devices and the ports are
unchanged. -/
theorem build_lid_map_false_exact (f f2 : fabric_t) (hm : f.lmc ≤ 7)
    (h : f.build_lid_map false = Except.ok f2) :
    (∀ a g, map_find f2.lidmap a = some g ↔
      ∃ e b, (g, e) ∈ f.entities ∧ e.lid = Except.ok b ∧
        ((e.type = type_t.HCA ∧ ∃ i, i ≤ 2 ^ f.lmc - 1 ∧ a = lid_add b i) ∨
          (e.type = type_t.TCA ∧ a = b))) ∧
    (∀ old, ({ f with lidmap := old } : fabric_t).build_lid_map false = Except.ok f2) ∧
    f2.lmc = f.lmc ∧ f2.entities = f.entities ∧ f2.portmap = f.portmap := by
  rw [build_lid_map_false] at h
  have hold : ∀ old, ({ f with lidmap := old } : fabric_t).build_lid_map false = Except.ok f2 := by
    intro old
    rw [build_lid_map_false, ← h]
    rfl
  unfold fabric_t.build_lid_map_pass at h
  cases hw : walk_entities (max_lmc_lid f.lmc) f.clear_lidmap.lidmap f.entities with
  | error err => simp [hw] at h
  | ok m =>
    simp only [hw, Except.ok.injEq] at h
    subst h
    refine ⟨?_, hold, rfl, rfl, rfl⟩
    intro a g
    have := walk_entities_find _ _ _ _ hw a g
    simp only [max_lmc_lid_eq f.lmc hm] at this
    rw [this]
    unfold claims_address
    constructor
    · rintro (h0 | ⟨e, he, b, hb, hc⟩)
      · simp [fabric_t.clear_lidmap, map_find] at h0
      · exact ⟨e, b, he, hb, hc⟩
    · rintro ⟨e, b, he, hb, hc⟩
      exact Or.inr ⟨e, he, b, hb, hc⟩

theorem build_lid_map_false_exact_witness :
    (small_fabric 1 [(99, 7)]).build_lid_map false =
        Except.ok (small_fabric 1 [(10, 1), (11, 1), (20, 2), (21, 2), (30, 3)]) ∧
    (∀ a g, map_find (small_fabric 1 [(10, 1), (11, 1), (20, 2), (21, 2), (30, 3)]).lidmap a = some g ↔
      ∃ e b, (g, e) ∈ (small_fabric 1 [(99, 7)]).entities ∧ e.lid = Except.ok b ∧
        ((e.type = type_t.HCA ∧ ∃ i, i ≤ 2 ^ (small_fabric 1 [(99, 7)]).lmc - 1 ∧ a = lid_add b i) ∨
          (e.type = type_t.TCA ∧ a = b))) :=
  ⟨rfl, (build_lid_map_false_exact (small_fabric 1 [(99, 7)])
    (small_fabric 1 [(10, 1), (11, 1), (20, 2), (21, 2), (30, 3)]) (by decide) rfl).1⟩

theorem lid_add_injective (b i j : Nat) (hi : i < 2 ^ 64) (hj : j < 2 ^ 64)
    (h : lid_add b i = lid_add b j) : i = j := by
  unfold lid_add at h
  norm_num at h hi hj
  omega

theorem assign_hca_lids_result (guid blid : Nat) (is : List Nat) (m : List (Nat × Nat)) :
    assign_hca_lids guid blid m is = Except.error error_t.AddressCollision ∨
      ∃ m2, assign_hca_lids guid blid m is = Except.ok m2 := by
  induction is generalizing m with
  | nil => exact Or.inr ⟨m, rfl⟩
  | cons i is ih =>
    simp only [assign_hca_lids]
    by_cases hf : (map_find m (lid_add blid i)).isSome
    · simp [hf]
    · simp only [hf, Bool.false_eq_true, if_false]
      exact ih _

theorem assign_hca_lids_ok_iff (guid blid : Nat) (is : List Nat) (m : List (Nat × Nat))
    (hd : is.Pairwise (fun i j => lid_add blid i ≠ lid_add blid j)) :
    (∃ m2, assign_hca_lids guid blid m is = Except.ok m2) ↔
      ∀ i ∈ is, map_find m (lid_add blid i) = none := by
  induction is generalizing m with
  | nil => simp [assign_hca_lids]
  | cons i is ih =>
    have hd1 := (List.pairwise_cons.mp hd).1
    have hd2 := (List.pairwise_cons.mp hd).2
    simp only [assign_hca_lids, List.mem_cons, forall_eq_or_imp]
    cases hf : map_find m (lid_add blid i) with
    | some w => simp
    | none =>
      simp only [Option.isSome_none, Bool.false_eq_true, if_false, true_and]
      rw [ih _ hd2]
      constructor
      · intro h j hj
        have := h j hj
        rw [map_find_assign] at this
        simp only [hd1 j hj, if_false] at this
        exact this
      · intro h j hj
        rw [map_find_assign]
        simp only [hd1 j hj, if_false]
        exact h j hj

theorem range_lid_add_pairwise (blid n : Nat) (hn : n ≤ 2 ^ 64) :
    (List.range n).Pairwise (fun i j => lid_add blid i ≠ lid_add blid j) := by
  refine List.Pairwise.imp_of_mem ?_ (List.pairwise_lt_range n)
  intro i j hi hj hlt he
  have hi2 : i < 2 ^ 64 := Nat.lt_of_lt_of_le (List.mem_range.mp hi) hn
  have hj2 : j < 2 ^ 64 := Nat.lt_of_lt_of_le (List.mem_range.mp hj) hn
  have := lid_add_injective blid i j hi2 hj2 he
  omega

theorem assign_entity_lids_result (maxoff guid : Nat) (e : entity_t) (m : List (Nat × Nat))
    (hl : ∃ b, e.lid = Except.ok b) (ht : e.type ≠ type_t.UNKNOWN) :
    assign_entity_lids maxoff m guid e = Except.error error_t.AddressCollision ∨
      ∃ m2, assign_entity_lids maxoff m guid e = Except.ok m2 := by
  obtain ⟨b, hb⟩ := hl
  unfold assign_entity_lids
  simp only [hb]
  cases hty : e.type with
  | UNKNOWN => exact absurd hty ht
  | HCA => exact assign_hca_lids_result _ _ _ _
  | TCA =>
    simp only
    by_cases hf : (map_find m b).isSome
    · simp [hf]
    · simp [hf]

theorem assign_entity_lids_ok_iff (maxoff guid : Nat) (e : entity_t) (m : List (Nat × Nat))
    (hmax : maxoff < 2 ^ 64) (hl : ∃ b, e.lid = Except.ok b) (ht : e.type ≠ type_t.UNKNOWN) :
    (∃ m2, assign_entity_lids maxoff m guid e = Except.ok m2) ↔
      ∀ a, claims_address maxoff e a → map_find m a = none := by
  obtain ⟨b, hb⟩ := hl
  unfold assign_entity_lids claims_address
  simp only [hb]
  cases hty : e.type with
  | UNKNOWN => exact absurd hty ht
  | HCA =>
    simp only
    rw [assign_hca_lids_ok_iff _ _ _ _ (range_lid_add_pairwise b (maxoff + 1) (by omega))]
    constructor
    · rintro h a ⟨b2, hb2, (⟨_, i, hi, hai⟩ | ⟨h1, _⟩)⟩
      · cases hb2
        rw [hai]
        exact h i (List.mem_range.mpr (by omega))
      · cases h1
    · intro h i hi
      exact h _ ⟨b, rfl, Or.inl ⟨trivial, i, by have := List.mem_range.mp hi; omega, rfl⟩⟩
  | TCA =>
    simp only
    constructor
    · rintro ⟨m2, h⟩ a ⟨b2, hb2, (⟨h1, _⟩ | ⟨_, hab⟩)⟩
      · cases h1
      · cases hb2
        subst hab
        cases hf : map_find m a with
        | none => rfl
        | some w => simp [hf] at h
    · intro h
      have := h b ⟨b, rfl, Or.inr ⟨trivial, rfl⟩⟩
      simp [this]

theorem walk_entities_result (maxoff : Nat) (es : List (Nat × entity_t)) (m : List (Nat × Nat))
    (hb : ∀ x ∈ es, (∃ b, x.2.lid = Except.ok b) ∧ x.2.type ≠ type_t.UNKNOWN) :
    walk_entities maxoff m es = Except.error error_t.AddressCollision ∨
      ∃ m2, walk_entities maxoff m es = Except.ok m2 := by
  induction es generalizing m with
  | nil => exact Or.inr ⟨m, rfl⟩
  | cons x es ih =>
    obtain ⟨g, e⟩ := x
    simp only [walk_entities]
    have hx := hb (g, e) (List.mem_cons_self _ _)
    rcases assign_entity_lids_result maxoff g e m hx.1 hx.2 with h | ⟨m1, h⟩
    · simp [h]
    · simp only [h]
      exact ih _ (fun y hy => hb y (List.mem_cons_of_mem _ hy))

theorem walk_entities_ok_iff (maxoff : Nat) (es : List (Nat × entity_t)) (m : List (Nat × Nat))
    (hmax : maxoff < 2 ^ 64)
    (hb : ∀ x ∈ es, (∃ b, x.2.lid = Except.ok b) ∧ x.2.type ≠ type_t.UNKNOWN) :
    (∃ m2, walk_entities maxoff m es = Except.ok m2) ↔
      (∀ x ∈ es, ∀ a, claims_address maxoff x.2 a → map_find m a = none) ∧
      es.Pairwise (fun x y => ∀ a, claims_address maxoff x.2 a → ¬ claims_address maxoff y.2 a) := by
  induction es generalizing m with
  | nil => simp [walk_entities]
  | cons x es ih =>
    obtain ⟨g, e⟩ := x
    have hx := hb (g, e) (List.mem_cons_self _ _)
    have hb2 : ∀ y ∈ es, (∃ b, y.2.lid = Except.ok b) ∧ y.2.type ≠ type_t.UNKNOWN :=
      fun y hy => hb y (List.mem_cons_of_mem _ hy)
    have hent := assign_entity_lids_ok_iff maxoff g e m hmax hx.1 hx.2
    simp only [walk_entities, List.mem_cons, forall_eq_or_imp, List.pairwise_cons]
    cases ha : assign_entity_lids maxoff m g e with
    | error err =>
      simp only [ha] at hent
      simp only [false_iff, not_and, reduceCtorEq, exists_false]
      intro h1
      exact absurd (hent.mpr h1.1) (by simp)
    | ok m1 =>
      simp only [ha] at hent
      have h0 : ∀ a, claims_address maxoff e a → map_find m a = none := hent.mp ⟨m1, rfl⟩
      have hfind := assign_entity_lids_find maxoff g e m m1 ha
      have hnone : ∀ a, map_find m1 a = none ↔ (map_find m a = none ∧ ¬ claims_address maxoff e a) := by
        intro a
        constructor
        · intro hn
          constructor
          · cases hma : map_find m a with
            | none => rfl
            | some w =>
              have := (hfind a w).mpr (Or.inl hma)
              rw [hn] at this
              cases this
          · intro hc
            have := (hfind a g).mpr (Or.inr ⟨rfl, hc⟩)
            rw [hn] at this
            cases this
        · rintro ⟨h1, h2⟩
          cases hma : map_find m1 a with
          | none => rfl
          | some w =>
            rcases (hfind a w).mp hma with h3 | ⟨_, h3⟩
            · rw [h1] at h3
              cases h3
            · exact absurd h3 h2
      rw [ih m1 hb2]
      constructor
      · rintro ⟨h1, h2⟩
        refine ⟨⟨h0, ?_⟩, ?_, h2⟩
        · intro y hy a hc
          exact ((hnone a).mp (h1 y hy a hc)).1
        · intro y hy a hc hcy
          exact ((hnone a).mp (h1 y hy a hcy)).2 hc
      · rintro ⟨⟨_, h1⟩, h2, h3⟩
        refine ⟨?_, h3⟩
        intro y hy a hc
        exact (hnone a).mpr ⟨h1 y hy a hc, fun hce => h2 y hy a hce hc⟩

theorem max_lmc_lid_lt (lmc : Nat) : max_lmc_lid lmc < 2 ^ 64 := by
  unfold max_lmc_lid
  split
  · have : (2 ^ lmc - 1) % 2 ^ 8 < 2 ^ 8 := Nat.mod_lt _ (by norm_num)
    have h2 : (2 : Nat) ^ 8 < 2 ^ 64 := by norm_num
    omega
  · norm_num

/-- C3: on a fabric whose devices all have a first port with a positive lid (and a class, host
adapter or switch), `build_lid_map(false)` at multiplier `lmc <= 7` ends in the collision
assertion exactly when two distinct devices claim a common address, a host adapter claiming
`base .. base + 2 ^ lmc - 1` and a switch only `base`; there is no other failure. -/
theorem build_lid_map_collision_iff (f : fabric_t) (hm : f.lmc ≤ 7) (hs : map_sorted f.entities)
    (hb : ∀ g e, (g, e) ∈ f.entities → (∃ b, e.lid = Except.ok b) ∧ e.type ≠ type_t.UNKNOWN) :
    (f.build_lid_map false = Except.error error_t.AddressCollision ↔
      ∃ g1 e1 g2 e2 a, (g1, e1) ∈ f.entities ∧ (g2, e2) ∈ f.entities ∧ g1 ≠ g2 ∧
        claims_address (2 ^ f.lmc - 1) e1 a ∧ claims_address (2 ^ f.lmc - 1) e2 a) ∧
    (f.build_lid_map false = Except.error error_t.AddressCollision ∨
      ∃ f2, f.build_lid_map false = Except.ok f2) := by
  have hb2 : ∀ x ∈ f.entities, (∃ b, x.2.lid = Except.ok b) ∧ x.2.type ≠ type_t.UNKNOWN :=
    fun x hx => hb x.1 x.2 hx
  have hres := walk_entities_result (max_lmc_lid f.lmc) f.entities [] hb2
  have hiff := walk_entities_ok_iff (max_lmc_lid f.lmc) f.entities [] (max_lmc_lid_lt _) hb2
  rw [max_lmc_lid_eq f.lmc hm] at hres hiff
  rw [build_lid_map_false]
  unfold fabric_t.build_lid_map_pass
  simp only [max_lmc_lid_eq f.lmc hm, fabric_t.clear_lidmap]
  have hpair : (∃ m2, walk_entities (2 ^ f.lmc - 1) [] f.entities = Except.ok m2) ↔
      ¬ ∃ g1 e1 g2 e2 a, (g1, e1) ∈ f.entities ∧ (g2, e2) ∈ f.entities ∧ g1 ≠ g2 ∧
        claims_address (2 ^ f.lmc - 1) e1 a ∧ claims_address (2 ^ f.lmc - 1) e2 a := by
    rw [hiff]
    constructor
    · rintro ⟨_, hp⟩ ⟨g1, e1, g2, e2, a, h1, h2, hne, hc1, hc2⟩
      have hsym : Symmetric (fun (x y : Nat × entity_t) =>
          ∀ a, claims_address (2 ^ f.lmc - 1) x.2 a → ¬ claims_address (2 ^ f.lmc - 1) y.2 a) :=
        fun x y hxy a hy hx => hxy a hx hy
      have hne2 : (g1, e1) ≠ (g2, e2) := fun he => hne (congrArg Prod.fst he)
      exact hp.forall hsym h1 h2 hne2 a hc1 hc2
    · intro hno
      refine ⟨fun x _ a _ => rfl, ?_⟩
      refine List.Pairwise.imp_of_mem ?_ hs
      intro x y hx hy hlt a hc1 hc2
      exact hno ⟨x.1, x.2, y.1, y.2, a, hx, hy, Nat.ne_of_lt hlt, hc1, hc2⟩
  rcases hres with he | ⟨m2, hok⟩
  · simp only [he, true_or, and_true, true_iff]
    by_contra hno
    obtain ⟨m2, hok⟩ := hpair.mpr hno
    rw [he] at hok
    cases hok
  · have hno := hpair.mp ⟨m2, hok⟩
    simp only [hok, reduceCtorEq, false_iff, false_or]
    exact ⟨hno, ⟨_, rfl⟩⟩

theorem build_lid_map_collision_iff_witness :
    (two_device_fabric 1 type_t.HCA 10 type_t.TCA 11).build_lid_map false =
        Except.error error_t.AddressCollision ∧
    (two_device_fabric 1 type_t.TCA 11 type_t.HCA 10).build_lid_map false =
        Except.error error_t.AddressCollision ∧
    ∃ g1 e1 g2 e2 a,
      (g1, e1) ∈ (two_device_fabric 1 type_t.HCA 10 type_t.TCA 11).entities ∧
      (g2, e2) ∈ (two_device_fabric 1 type_t.HCA 10 type_t.TCA 11).entities ∧ g1 ≠ g2 ∧
      claims_address (2 ^ (two_device_fabric 1 type_t.HCA 10 type_t.TCA 11).lmc - 1) e1 a ∧
      claims_address (2 ^ (two_device_fabric 1 type_t.HCA 10 type_t.TCA 11).lmc - 1) e2 a :=
  ⟨rfl, rfl,
    (build_lid_map_collision_iff (two_device_fabric 1 type_t.HCA 10 type_t.TCA 11) (by decide)
      (by simp [map_sorted, two_device_fabric])
      (by
        intro g e h
        simp only [two_device_fabric, List.mem_cons, Prod.mk.injEq, List.mem_singleton,
          List.not_mem_nil, or_false] at h
        rcases h with ⟨_, rfl⟩ | ⟨_, rfl⟩
        · exact ⟨⟨10, rfl⟩, by decide⟩
        · exact ⟨⟨11, rfl⟩, by decide⟩)).1.mp rfl⟩

/-! ## fabric_t::build_lid_map: the inference -/

/-- C4 (the code at the failing input): on two host adapters with base lids 10 and 12 and
multiplier 0, the first `build_lid_map(true)` ends with multiplier 1 and the lid map
`10, 11, 12, 13`, and the second run, on the fabric the first run left, ends with multiplier 0
and the lid map `10, 12`. -/
theorem build_lid_map_true_twice_differs :
    (two_device_fabric 0 type_t.HCA 10 type_t.HCA 12).build_lid_map true =
      Except.ok { two_device_fabric 0 type_t.HCA 10 type_t.HCA 12 with
        lmc := 1, lidmap := [(10, 1), (11, 1), (12, 2), (13, 2)] } ∧
    ({ two_device_fabric 0 type_t.HCA 10 type_t.HCA 12 with
        lmc := 1, lidmap := [(10, 1), (11, 1), (12, 2), (13, 2)] } : fabric_t).build_lid_map true =
      Except.ok { two_device_fabric 0 type_t.HCA 10 type_t.HCA 12 with
        lmc := 0, lidmap := [(10, 1), (12, 2)] } :=
  ⟨rfl, rfl⟩

theorem build_lid_map_pass_frame (f f1 : fabric_t) (h : f.build_lid_map_pass = Except.ok f1) :
    f1.lmc = f.lmc ∧ f1.entities = f.entities ∧ f1.portmap = f.portmap ∧
      walk_entities (max_lmc_lid f.lmc) [] f.entities = Except.ok f1.lidmap := by
  unfold fabric_t.build_lid_map_pass at h
  simp only [fabric_t.clear_lidmap] at h
  cases hw : walk_entities (max_lmc_lid f.lmc) [] f.entities with
  | error err => simp [hw] at h
  | ok m =>
    simp only [hw, Except.ok.injEq] at h
    subst h
    exact ⟨rfl, rfl, rfl, rfl⟩

theorem scan_offsets_le (lidmap : List (Nat × Nat)) (p : port_t) (maxoff bound : Nat)
    (is : List Nat) (m : Nat) (h : scan_offsets lidmap p maxoff is = Except.ok m)
    (hb : maxoff ≤ bound) (hi : ∀ i ∈ is, i - 1 ≤ bound) : m ≤ bound := by
  induction is with
  | nil =>
    simp only [scan_offsets, Except.ok.injEq] at h
    omega
  | cons i is ih =>
    simp only [scan_offsets] at h
    split at h
    · cases h
    · split at h
      · cases h
      · split at h
        · simp only [Except.ok.injEq] at h
          have := hi i (List.mem_cons_self _ _)
          omega
        · exact ih h (fun j hj => hi j (List.mem_cons_of_mem _ hj))

theorem search_ports_le (lidmap : List (Nat × Nat)) (ps : List (key_guid_port_t × port_t))
    (maxoff b : Nat) (h : search_ports lidmap ps maxoff = Except.ok b) : b ≤ maxoff := by
  induction ps generalizing maxoff with
  | nil =>
    simp only [search_ports, Except.ok.injEq] at h
    omega
  | cons x ps ih =>
    obtain ⟨k, p⟩ := x
    simp only [search_ports] at h
    split at h
    · split at h
      · cases hs : scan_offsets lidmap p maxoff (List.range' 1 maxoff) with
        | error err => simp [hs] at h
        | ok m =>
          simp only [hs] at h
          have h1 : m ≤ maxoff := by
            refine scan_offsets_le _ _ _ _ _ _ hs (Nat.le_refl _) ?_
            intro i hi
            have := List.mem_range'_1.mp hi
            omega
          have := ih _ h
          omega
      · exact ih _ h
    · simp only [Except.ok.injEq] at h
      omega

theorem lmc_of_max_lmc_lid_eq (b : Nat) :
    lmc_of_max_lmc_lid b = if b = 0 then 0 else Nat.log2 b + 1 := by
  unfold lmc_of_max_lmc_lid
  rw [floor_log2_eq b b (Nat.le_refl _)]

theorem lmc_of_max_lmc_lid_le (b : Nat) (h : b ≤ 127) : lmc_of_max_lmc_lid b ≤ MAX_LMC_VALUE := by
  rw [lmc_of_max_lmc_lid_eq]
  unfold MAX_LMC_VALUE
  split
  · omega
  · rename_i hb
    have : Nat.log2 b < 7 := (Nat.log2_lt hb).mpr (by norm_num; omega)
    omega

/-- C6: when the construction pass and the port scan of `build_lid_map(true)` have run, with
inferred bound `b`, then `b <= 2 ^ 7 - 1`, the multiplier the step assigns is 0 for `b = 0` and
`floor(log2 b) + 1` for `b >= 1`, it is at most `MAX_LMC_VALUE`, the assertion on it never
fails, and every fabric the call returns carries that multiplier. -/
theorem inferred_lmc_formula (f f1 : fabric_t) (b : Nat)
    (h1 : f.build_lid_map_pass = Except.ok f1) (h2 : f1.determine_max_lmc_lid = Except.ok b) :
    b ≤ 2 ^ 7 - 1 ∧
    lmc_of_max_lmc_lid b = (if b = 0 then 0 else Nat.log2 b + 1) ∧
    lmc_of_max_lmc_lid b ≤ MAX_LMC_VALUE ∧
    f.build_lid_map true ≠ Except.error error_t.LmcTooLarge ∧
    ∀ f2, f.build_lid_map true = Except.ok f2 → f2.get_lmc = lmc_of_max_lmc_lid b := by
  have hb : b ≤ 127 := by
    unfold fabric_t.determine_max_lmc_lid at h2
    split at h2
    · exact search_ports_le _ _ _ _ h2
    · cases h2
  have hle := lmc_of_max_lmc_lid_le b hb
  have hrun : f.build_lid_map true =
      if f.lmc ≠ lmc_of_max_lmc_lid b then
        fabric_t.build_lid_map_pass { f1 with lmc := lmc_of_max_lmc_lid b }
      else Except.ok { f1 with lmc := lmc_of_max_lmc_lid b } := by
    unfold fabric_t.build_lid_map
    simp only [h1, h2, if_true, hle]
  refine ⟨hb, lmc_of_max_lmc_lid_eq b, hle, ?_, ?_⟩
  · rw [hrun]
    split
    · intro hc
      unfold fabric_t.build_lid_map_pass at hc
      split at hc
      · rename_i err hw
        simp only [Except.error.injEq] at hc
        subst hc
        have hres : ∀ (es : List (Nat × entity_t)) (maxoff : Nat) (m : List (Nat × Nat)),
            walk_entities maxoff m es ≠ Except.error error_t.LmcTooLarge := by
          intro es maxoff
          induction es with
          | nil => intro m hx; cases hx
          | cons x es ih =>
            intro m hx
            obtain ⟨g, e⟩ := x
            simp only [walk_entities] at hx
            cases ha : assign_entity_lids maxoff m g e with
            | ok m1 =>
              simp only [ha] at hx
              exact ih m1 hx
            | error err =>
              simp only [ha, Except.error.injEq] at hx
              subst hx
              unfold assign_entity_lids at ha
              cases hl : e.lid with
              | error err2 =>
                simp only [hl, Except.error.injEq] at ha
                subst ha
                unfold entity_t.lid at hl
                split at hl
                · cases hl
                · split at hl <;> cases hl
              | ok bl =>
                simp only [hl] at ha
                cases ht : e.type with
                | UNKNOWN => simp [ht] at ha
                | TCA =>
                  simp only [ht] at ha
                  split at ha <;> cases ha
                | HCA =>
                  simp only [ht] at ha
                  rcases assign_hca_lids_result g bl (List.range (maxoff + 1)) m with h | ⟨m2, h⟩
                  · rw [h] at ha
                    cases ha
                  · rw [h] at ha
                    cases ha
        exact hres _ _ _ hw
      · cases hc
    · intro hc
      cases hc
  · intro f2 hf2
    rw [hrun] at hf2
    unfold fabric_t.get_lmc
    split at hf2
    · exact (build_lid_map_pass_frame _ _ hf2).1
    · simp only [Except.ok.injEq] at hf2
      subst hf2
      rfl

theorem inferred_lmc_formula_witness :
    (two_device_fabric 0 type_t.HCA 10 type_t.HCA 14).build_lid_map true =
      Except.ok { two_device_fabric 0 type_t.HCA 10 type_t.HCA 14 with
        lmc := 2, lidmap := [(10, 1), (11, 1), (12, 1), (13, 1), (14, 2), (15, 2), (16, 2), (17, 2)] } ∧
    lmc_of_max_lmc_lid 3 = (if 3 = 0 then 0 else Nat.log2 3 + 1) ∧
    lmc_of_max_lmc_lid 3 ≤ MAX_LMC_VALUE :=
  ⟨rfl,
    (inferred_lmc_formula (two_device_fabric 0 type_t.HCA 10 type_t.HCA 14)
      { two_device_fabric 0 type_t.HCA 10 type_t.HCA 14 with lidmap := [(10, 1), (14, 2)] } 3
      rfl rfl).2.1,
    (inferred_lmc_formula (two_device_fabric 0 type_t.HCA 10 type_t.HCA 14)
      { two_device_fabric 0 type_t.HCA 10 type_t.HCA 14 with lidmap := [(10, 1), (14, 2)] } 3
      rfl rfl).2.2.1⟩

theorem first_hit_some (lidmap : List (Nat × Nat)) (lid : Nat) (is : List Nat) (i : Nat)
    (h : first_hit lidmap lid is = some i) :
    i ∈ is ∧ (map_find lidmap (lid_add lid i)).isSome := by
  induction is with
  | nil => cases h
  | cons j is ih =>
    simp only [first_hit] at h
    split at h
    · simp only [Option.some.injEq] at h
      subst h
      exact ⟨List.mem_cons_self _ _, by assumption⟩
    · exact ⟨List.mem_cons_of_mem _ (ih h).1, (ih h).2⟩

theorem first_hit_none (lidmap : List (Nat × Nat)) (lid : Nat) (is : List Nat)
    (h : first_hit lidmap lid is = none) :
    ∀ i ∈ is, map_find lidmap (lid_add lid i) = none := by
  induction is with
  | nil => intro i hi; cases hi
  | cons j is ih =>
    simp only [first_hit] at h
    split at h
    · cases h
    · rename_i hj
      intro i hi
      rcases List.mem_cons.mp hi with e | hi
      · subst e
        cases hf : map_find lidmap (lid_add lid i) with
        | none => rfl
        | some w => simp [hf] at hj
      · exact ih h i hi

theorem first_hit_range_min (lidmap : List (Nat × Nat)) (lid : Nat) (n s i : Nat)
    (h : first_hit lidmap lid (List.range' s n) = some i) :
    ∀ j, s ≤ j → j < i → map_find lidmap (lid_add lid j) = none := by
  induction n generalizing s with
  | zero => simp [first_hit] at h
  | succ n ih =>
    rw [List.range'_succ] at h
    simp only [first_hit] at h
    split at h
    · simp only [Option.some.injEq] at h
      intro j h1 h2
      omega
    · rename_i hs
      intro j h1 h2
      by_cases hjs : j = s
      · subst hjs
        cases hf : map_find lidmap (lid_add lid j) with
        | none => rfl
        | some w => simp [hf] at hs
      · exact ih (s + 1) h j (by omega) h2

theorem scan_offsets_eq (lidmap : List (Nat × Nat)) (p : port_t) (maxoff : Nat) (is : List Nat)
    (h0 : p.lid ≠ 0) (h1 : map_find lidmap p.lid ≠ none) :
    scan_offsets lidmap p maxoff is =
      Except.ok (match first_hit lidmap p.lid is with
        | some i => i - 1
        | none => maxoff) := by
  have h2 : (map_find lidmap p.lid).isNone = false := by
    cases hf : map_find lidmap p.lid with
    | none => exact absurd hf h1
    | some w => rfl
  induction is with
  | nil => rfl
  | cons i is ih =>
    simp only [scan_offsets, first_hit, h0, if_false, h2, Bool.false_eq_true]
    split
    · rfl
    · exact ih

theorem scan_offsets_gap (lidmap : List (Nat × Nat)) (D : Nat) (p : port_t) (maxoff : Nat)
    (h0 : p.lid ≠ 0) (h1 : map_find lidmap p.lid ≠ none)
    (hgap : ∀ i, 1 ≤ i → i < D → map_find lidmap (lid_add p.lid i) = none)
    (hmax : D - 1 ≤ maxoff) :
    ∃ m, scan_offsets lidmap p maxoff (List.range' 1 maxoff) = Except.ok m ∧ D - 1 ≤ m ∧
      m ≤ maxoff ∧ ((map_find lidmap (lid_add p.lid D)).isSome → 1 ≤ D → D ≤ maxoff → m = D - 1) := by
  rw [scan_offsets_eq lidmap p maxoff _ h0 h1]
  cases hfh : first_hit lidmap p.lid (List.range' 1 maxoff) with
  | none =>
    refine ⟨maxoff, rfl, hmax, Nat.le_refl _, ?_⟩
    intro hhit hD1 hD
    have := first_hit_none _ _ _ hfh D (List.mem_range'_1.mpr ⟨hD1, by omega⟩)
    rw [this] at hhit
    cases hhit
  | some i =>
    obtain ⟨hmem, hhiti⟩ := first_hit_some _ _ _ _ hfh
    have hi := List.mem_range'_1.mp hmem
    have hiD : D ≤ i := by
      by_contra hc
      have := hgap i hi.1 (by omega)
      rw [this] at hhiti
      cases hhiti
    refine ⟨i - 1, rfl, by omega, by omega, ?_⟩
    intro hhit hD1 hD
    by_contra hc
    have := first_hit_range_min _ _ _ _ _ hfh D hD1 (by omega)
    rw [this] at hhit
    cases hhit

theorem search_ports_gap (lidmap : List (Nat × Nat)) (D : Nat) (hD : 1 ≤ D)
    (ps : List (key_guid_port_t × port_t)) (maxoff : Nat)
    (hgood : ∀ x ∈ ps, x.2.type = type_t.HCA → x.2.lid ≠ 0 ∧ map_find lidmap x.2.lid ≠ none ∧
      ∀ i, 1 ≤ i → i < D → map_find lidmap (lid_add x.2.lid i) = none)
    (hmax : D - 1 ≤ maxoff)
    (hhit : maxoff = D - 1 ∨
      ∃ x ∈ ps, x.2.type = type_t.HCA ∧ (map_find lidmap (lid_add x.2.lid D)).isSome) :
    search_ports lidmap ps maxoff = Except.ok (D - 1) := by
  induction ps generalizing maxoff with
  | nil =>
    rcases hhit with h | ⟨x, hx, _⟩
    · simp [search_ports, h]
    · cases hx
  | cons y ps ih =>
    obtain ⟨key, p⟩ := y
    have hgood2 : ∀ x ∈ ps, x.2.type = type_t.HCA → x.2.lid ≠ 0 ∧
        map_find lidmap x.2.lid ≠ none ∧
        ∀ i, 1 ≤ i → i < D → map_find lidmap (lid_add x.2.lid i) = none :=
      fun x hx => hgood x (List.mem_cons_of_mem _ hx)
    simp only [search_ports]
    by_cases hpos : maxoff > 0
    · simp only [hpos, if_true]
      by_cases hty : p.type = type_t.HCA
      · simp only [hty, if_true]
        obtain ⟨g0, g1, g2⟩ := hgood (key, p) (List.mem_cons_self _ _) hty
        obtain ⟨m, hm, hm1, hm2, hm3⟩ := scan_offsets_gap lidmap D p maxoff g0 g1 g2 hmax
        simp only [hm]
        refine ih m hgood2 hm1 ?_
        rcases hhit with h | ⟨x, hx, hxt, hxh⟩
        · exact Or.inl (by omega)
        · rcases List.mem_cons.mp hx with e | hx
          · subst e
            by_cases hDm : D ≤ maxoff
            · exact Or.inl (hm3 hxh hD hDm)
            · exact Or.inl (by omega)
          · exact Or.inr ⟨x, hx, hxt, hxh⟩
      · simp only [hty, if_false]
        refine ih maxoff hgood2 hmax ?_
        rcases hhit with h | ⟨x, hx, hxt, hxh⟩
        · exact Or.inl h
        · rcases List.mem_cons.mp hx with e | hx
          · subst e
            exact absurd hxt hty
          · exact Or.inr ⟨x, hx, hxt, hxh⟩
    · simp only [hpos, if_false, Except.ok.injEq]
      omega

theorem lmc_of_pow_pred (k : Nat) (hk : k ≤ 7) : lmc_of_max_lmc_lid (2 ^ k - 1) = k := by
  interval_cases k <;> decide

theorem entity_lid_ok (e : entity_t) (b : Nat) (h : e.lid = Except.ok b) :
    0 < b ∧ ∃ p, e.get_first_port = some p ∧ p.lid = b := by
  unfold entity_t.lid at h
  split at h
  · cases h
  · rename_i p hp
    split at h
    · simp only [Except.ok.injEq] at h
      subst h
      exact ⟨by assumption, p, hp, rfl⟩
    · cases h

theorem walk_entities_ok_known (maxoff : Nat) (es : List (Nat × entity_t)) (m m2 : List (Nat × Nat))
    (h : walk_entities maxoff m es = Except.ok m2) :
    ∀ x ∈ es, (∃ b, x.2.lid = Except.ok b) ∧ x.2.type ≠ type_t.UNKNOWN := by
  induction es generalizing m with
  | nil => intro x hx; cases hx
  | cons y es ih =>
    obtain ⟨g, e⟩ := y
    simp only [walk_entities] at h
    cases ha : assign_entity_lids maxoff m g e with
    | error err => simp [ha] at h
    | ok m1 =>
      simp only [ha] at h
      intro x hx
      rcases List.mem_cons.mp hx with e2 | hx
      · subst e2
        unfold assign_entity_lids at ha
        cases hl : e.lid with
        | error err => simp [hl] at ha
        | ok b =>
          refine ⟨⟨b, rfl⟩, ?_⟩
          intro ht
          have ht2 : e.type = type_t.UNKNOWN := ht
          simp [hl, ht2] at ha
      · exact ih m1 h x hx

theorem lid_add_sub (b1 b2 i j : Nat) (hij : j ≤ i) (h : lid_add b1 i = lid_add b2 j) :
    lid_add b1 (i - j) = lid_add b2 0 := by
  unfold lid_add at *
  norm_num at *
  omega

theorem lid_add_zero (b : Nat) (h : b < 2 ^ 64) : lid_add b 0 = b := by
  unfold lid_add
  exact Nat.mod_eq_of_lt h

theorem claims_disjoint_of_gap (lidmap : List (Nat × Nat)) (es : List (Nat × entity_t)) (D : Nat)
    (hM : ∀ x ∈ es, ∀ a, claims_address 0 x.2 a → map_find lidmap a ≠ none)
    (hgap : ∀ x ∈ es, x.2.type = type_t.HCA → ∀ b, x.2.lid = Except.ok b →
      ∀ i, 1 ≤ i → i < D → map_find lidmap (lid_add b i) = none)
    (x y : Nat × entity_t) (hx : x ∈ es) (hy : y ∈ es)
    (hR : ∀ a, claims_address 0 x.2 a → ¬ claims_address 0 y.2 a) :
    ∀ a, claims_address (D - 1) x.2 a → ¬ claims_address (D - 1) y.2 a := by
  rintro a ⟨b1, hb1, c1⟩ ⟨b2, hb2, c2⟩
  have base1 : x.2.type = type_t.HCA → claims_address 0 x.2 (lid_add b1 0) :=
    fun ht => ⟨b1, hb1, Or.inl ⟨ht, 0, Nat.le_refl _, rfl⟩⟩
  have base2 : y.2.type = type_t.HCA → claims_address 0 y.2 (lid_add b2 0) :=
    fun ht => ⟨b2, hb2, Or.inl ⟨ht, 0, Nat.le_refl _, rfl⟩⟩
  have sw1 : x.2.type = type_t.TCA → claims_address 0 x.2 b1 :=
    fun ht => ⟨b1, hb1, Or.inr ⟨ht, rfl⟩⟩
  have sw2 : y.2.type = type_t.TCA → claims_address 0 y.2 b2 :=
    fun ht => ⟨b2, hb2, Or.inr ⟨ht, rfl⟩⟩
  rcases c1 with ⟨t1, i, hi, hai⟩ | ⟨t1, hai⟩
  · rcases c2 with ⟨t2, j, hj, haj⟩ | ⟨t2, haj⟩
    · have hij : lid_add b1 i = lid_add b2 j := hai.symm.trans haj
      rcases Nat.lt_trichotomy i j with hlt | heq | hgt
      · have h1 := lid_add_sub b2 b1 j i (Nat.le_of_lt hlt) hij.symm
        have h2 := hgap y hy t2 b2 hb2 (j - i) (by omega) (by omega)
        rw [h1] at h2
        exact hM x hx _ (base1 t1) h2
      · subst heq
        have h1 := lid_add_sub b1 b2 i i (Nat.le_refl _) hij
        rw [Nat.sub_self] at h1
        have := base2 t2
        rw [← h1] at this
        exact hR _ (base1 t1) this
      · have h1 := lid_add_sub b1 b2 i j (Nat.le_of_lt hgt) hij
        have h2 := hgap x hx t1 b1 hb1 (i - j) (by omega) (by omega)
        rw [h1] at h2
        exact hM y hy _ (base2 t2) h2
    · have hij : lid_add b1 i = b2 := hai.symm.trans haj
      by_cases hi0 : i = 0
      · subst hi0
        have := sw2 t2
        rw [← hij] at this
        exact hR _ (base1 t1) this
      · have h2 := hgap x hx t1 b1 hb1 i (by omega) (by omega)
        rw [hij] at h2
        exact hM y hy _ (sw2 t2) h2
  · rcases c2 with ⟨t2, j, hj, haj⟩ | ⟨t2, haj⟩
    · have hij : lid_add b2 j = b1 := haj.symm.trans hai
      by_cases hj0 : j = 0
      · subst hj0
        have := base2 t2
        rw [hij] at this
        exact hR _ (sw1 t1) this
      · have h2 := hgap y hy t2 b2 hb2 j (by omega) (by omega)
        rw [hij] at h2
        exact hM x hx _ (sw1 t1) h2
    · have hij : b1 = b2 := hai.symm.trans haj
      have := sw2 t2
      rw [← hij] at this
      exact hR _ (sw1 t1) this

/-- C5: on a fabric at multiplier 0 with at least two ports, whose construction pass leaves
the lid map of `f1`, in which every host-adapter port carries the base lid of its device and
the smallest offset `i >= 1` at which some host-adapter port finds `lid + i` in that map is
exactly `2 ^ k` with `k <= 6`, `build_lid_map(true)` returns and the multiplier it leaves is
`k`.  The flat port index holds the first port of every host adapter, and lids are `lid_t`
values. -/
theorem build_lid_map_infers_gap (f f1 : fabric_t) (k : Nat) (hk : k ≤ 6)
    (h0 : f.lmc = 0) (hn : f.portmap.length > 1)
    (hr : ∀ x ∈ f.portmap, x.2.lid < 2 ^ 64)
    (hfirst : ∀ g e, (g, e) ∈ f.entities → e.type = type_t.HCA →
      ∃ x ∈ f.portmap, x.2.type = type_t.HCA ∧ e.get_first_port = some x.2)
    (hbase : ∀ x ∈ f.portmap, x.2.type = type_t.HCA →
      ∃ e, (x.2.guid, e) ∈ f.entities ∧ e.lid = Except.ok x.2.lid)
    (h1 : f.build_lid_map_pass = Except.ok f1)
    (hgap : ∀ x ∈ f.portmap, x.2.type = type_t.HCA →
      ∀ i, 1 ≤ i → i < 2 ^ k → map_find f1.lidmap (lid_add x.2.lid i) = none)
    (hhit : ∃ x ∈ f.portmap, x.2.type = type_t.HCA ∧
      (map_find f1.lidmap (lid_add x.2.lid (2 ^ k))).isSome) :
    ∃ f2, f.build_lid_map true = Except.ok f2 ∧ f2.get_lmc = k := by
  obtain ⟨hf1lmc, hf1es, hf1pm, hwalk⟩ := build_lid_map_pass_frame f f1 h1
  have hmax0 : max_lmc_lid f.lmc = 0 := by rw [h0]; rfl
  rw [hmax0] at hwalk
  have hknown := walk_entities_ok_known 0 f.entities [] f1.lidmap hwalk
  have hfind := walk_entities_find 0 f.entities [] f1.lidmap hwalk
  have hD : 1 ≤ 2 ^ k := Nat.one_le_two_pow
  have hD64 : 2 ^ k ≤ 64 := by
    have : 2 ^ k ≤ 2 ^ 6 := Nat.pow_le_pow_right (by norm_num) hk
    norm_num at this
    exact this
  -- every claimed address of the first pass is a key of the lid map
  have hM : ∀ x ∈ f.entities, ∀ a, claims_address 0 x.2 a → map_find f1.lidmap a ≠ none := by
    intro x hx a hc
    have := (hfind a x.1).mpr (Or.inr ⟨x.2, hx, hc⟩)
    rw [this]
    exact fun h => by cases h
  -- the scan of the flat port index
  have hgood : ∀ x ∈ f.portmap, x.2.type = type_t.HCA → x.2.lid ≠ 0 ∧
      map_find f1.lidmap x.2.lid ≠ none ∧
      ∀ i, 1 ≤ i → i < 2 ^ k → map_find f1.lidmap (lid_add x.2.lid i) = none := by
    intro x hx ht
    obtain ⟨e, he, hl⟩ := hbase x hx ht
    have hpos := (entity_lid_ok e _ hl).1
    refine ⟨by omega, ?_, hgap x hx ht⟩
    have hty := (hknown (x.2.guid, e) he).2
    apply hM (x.2.guid, e) he
    cases hte : e.type with
    | UNKNOWN => exact absurd hte hty
    | HCA => exact ⟨x.2.lid, hl, Or.inl ⟨hte, 0, Nat.le_refl _, (lid_add_zero _ (hr x hx)).symm⟩⟩
    | TCA => exact ⟨x.2.lid, hl, Or.inr ⟨hte, rfl⟩⟩
  have hsearch : f1.determine_max_lmc_lid = Except.ok (2 ^ k - 1) := by
    unfold fabric_t.determine_max_lmc_lid
    rw [hf1pm]
    simp only [hn, if_true]
    exact search_ports_gap f1.lidmap (2 ^ k) hD f.portmap _ hgood
      (by unfold MAX_LMC_VALUE; norm_num; omega) (Or.inr hhit)
  have hlmc : lmc_of_max_lmc_lid (2 ^ k - 1) = k := lmc_of_pow_pred k (by omega)
  have hle : k ≤ MAX_LMC_VALUE := by unfold MAX_LMC_VALUE; omega
  unfold fabric_t.build_lid_map
  simp only [h1, hsearch, if_true, hlmc, hle, h0]
  by_cases hk0 : k = 0
  · subst hk0
    refine ⟨{ f1 with lmc := 0 }, ?_, rfl⟩
    simp
  · have hne : (0 : Nat) ≠ k := fun h => hk0 h.symm
    simp only [hne, ne_eq, not_false_eq_true, if_true]
    -- the rebuild at multiplier k
    have hgapE : ∀ x ∈ f.entities, x.2.type = type_t.HCA → ∀ b, x.2.lid = Except.ok b →
        ∀ i, 1 ≤ i → i < 2 ^ k → map_find f1.lidmap (lid_add b i) = none := by
      intro x hx ht b hb i hi1 hi2
      obtain ⟨y, hy, hyt, hyf⟩ := hfirst x.1 x.2 hx ht
      obtain ⟨_, p, hp, hpl⟩ := entity_lid_ok x.2 b hb
      rw [hyf] at hp
      cases hp
      rw [← hpl]
      exact hgap y hy hyt i hi1 hi2
    have hpair0 := ((walk_entities_ok_iff 0 f.entities [] (by norm_num) hknown).mp
      ⟨_, hwalk⟩).2
    have hpairk : f.entities.Pairwise (fun x y => ∀ a,
        claims_address (2 ^ k - 1) x.2 a → ¬ claims_address (2 ^ k - 1) y.2 a) :=
      List.Pairwise.imp_of_mem
        (fun {x y} hx hy hR => claims_disjoint_of_gap f1.lidmap f.entities (2 ^ k) hM hgapE x y hx hy hR)
        hpair0
    have hlt : 2 ^ k - 1 < 2 ^ 64 := by
      have : (64 : Nat) < 2 ^ 64 := by norm_num
      omega
    obtain ⟨m2, hm2⟩ := (walk_entities_ok_iff (2 ^ k - 1) f.entities [] hlt hknown).mpr
      ⟨fun _ _ _ _ => rfl, hpairk⟩
    refine ⟨{ f1 with lmc := k, lidmap := m2 }, ?_, rfl⟩
    unfold fabric_t.build_lid_map_pass
    simp only [fabric_t.clear_lidmap, max_lmc_lid_eq k (by omega), hf1es, hm2]

theorem build_lid_map_infers_gap_witness :
    ∃ f2, (two_device_fabric 0 type_t.HCA 10 type_t.HCA 12).build_lid_map true = Except.ok f2 ∧
      f2.get_lmc = 1 :=
  build_lid_map_infers_gap (two_device_fabric 0 type_t.HCA 10 type_t.HCA 12)
    { two_device_fabric 0 type_t.HCA 10 type_t.HCA 12 with lidmap := [(10, 1), (12, 2)] } 1
    (by decide) rfl (by decide)
    (by
      intro x hx
      simp only [two_device_fabric, List.mem_cons, List.mem_singleton, List.not_mem_nil,
        or_false] at hx
      rcases hx with rfl | rfl <;> simp [sample_port])
    (by
      intro g e he _
      simp only [two_device_fabric, List.mem_cons, Prod.mk.injEq, List.mem_singleton,
        List.not_mem_nil, or_false] at he
      rcases he with ⟨_, rfl⟩ | ⟨_, rfl⟩
      · exact ⟨_, List.mem_cons_self _ _, rfl, rfl⟩
      · exact ⟨_, List.mem_cons_of_mem _ (List.mem_cons_self _ _), rfl, rfl⟩)
    (by
      intro x hx _
      simp only [two_device_fabric, List.mem_cons, List.mem_singleton, List.not_mem_nil,
        or_false] at hx
      rcases hx with rfl | rfl
      · exact ⟨_, List.mem_cons_self _ _, rfl⟩
      · exact ⟨_, List.mem_cons_of_mem _ (List.mem_cons_self _ _), rfl⟩)
    rfl
    (by
      intro x hx _ i h1 h2
      have hi : i = 1 := by omega
      subst hi
      simp only [two_device_fabric, List.mem_cons, List.mem_singleton, List.not_mem_nil,
        or_false] at hx
      rcases hx with rfl | rfl <;> rfl)
    ⟨_, List.mem_cons_self _ _, rfl, rfl⟩

/-! ## fabric_t::count_hops -/

theorem count_hops_loop_sound (f : fabric_t) (right : entity_t) (fuel : Nat) (cur : entity_t)
    (hops n : Nat) (h : count_hops_loop f right fuel cur hops = some (Except.ok n)) :
    ∃ k, k < fuel ∧ n = hops + k ∧ reaches_in f right cur k := by
  induction fuel generalizing cur hops with
  | zero => cases h
  | succ fuel ih =>
    simp only [count_hops_loop] at h
    cases hcl : cur.lid with
    | error err => simp [hcl] at h
    | ok cl =>
      cases hrl : right.lid with
      | error err => simp [hcl, hrl] at h
      | ok rl =>
        simp only [hcl, hrl] at h
        by_cases hne : cl ≠ rl
        · simp only [hne, ne_eq, not_false_eq_true, if_true] at h
          cases hfw : cur.forward f right with
          | error err => simp [hfw] at h
          | ok next =>
            simp only [hfw] at h
            obtain ⟨k, hk, hn, ⟨d, l, hd, hdl, hrl2⟩, hmin⟩ := ih next (hops + 1) h
            refine ⟨k + 1, by omega, by omega, ⟨d, l, ?_, hdl, hrl2⟩, ?_⟩
            · simp only [forward_steps, hfw, hd]
            · intro j hj
              cases j with
              | zero => exact ⟨cur, cl, rl, rfl, hcl, hrl, hne⟩
              | succ j =>
                obtain ⟨d2, l2, r2, h1, h2, h3, h4⟩ := hmin j (by omega)
                exact ⟨d2, l2, r2, by simp only [forward_steps, hfw, h1], h2, h3, h4⟩
        · have heq : cl = rl := by
            by_contra hc
            exact hne hc
          simp only [heq, ne_eq, not_true_eq_false, if_false, Option.some.injEq,
            Except.ok.injEq] at h
          refine ⟨0, by omega, by omega, ⟨cur, cl, rfl, hcl, ?_⟩, ?_⟩
          · rw [hrl, heq]
          · intro j hj
            omega

theorem count_hops_loop_complete (f : fabric_t) (right : entity_t) (k : Nat) (cur : entity_t)
    (hops fuel : Nat) (hr : reaches_in f right cur k) (hk : k < fuel) :
    count_hops_loop f right fuel cur hops = some (Except.ok (hops + k)) := by
  induction k generalizing cur hops fuel with
  | zero =>
    obtain ⟨⟨d, l, hd, hdl, hrl⟩, _⟩ := hr
    simp only [forward_steps, Except.ok.injEq] at hd
    subst hd
    cases fuel with
    | zero => omega
    | succ fuel => simp [count_hops_loop, hdl, hrl]
  | succ k ih =>
    obtain ⟨⟨d, l, hd, hdl, hrl⟩, hmin⟩ := hr
    obtain ⟨d0, l0, r0, h1, h2, h3, h4⟩ := hmin 0 (by omega)
    simp only [forward_steps, Except.ok.injEq] at h1
    subst h1
    cases fuel with
    | zero => omega
    | succ fuel =>
      simp only [forward_steps] at hd
      cases hfw : cur.forward f right with
      | error err => simp [hfw] at hd
      | ok next =>
        simp only [hfw] at hd
        have hnext : reaches_in f right next k := by
          refine ⟨⟨d, l, hd, hdl, hrl⟩, ?_⟩
          intro j hj
          obtain ⟨d2, l2, r2, g1, g2, g3, g4⟩ := hmin (j + 1) (by omega)
          simp only [forward_steps, hfw] at g1
          exact ⟨d2, l2, r2, g1, g2, g3, g4⟩
        simp only [count_hops_loop, h2, h3, h4, ne_eq, not_false_eq_true, if_true, hfw]
        rw [ih next (hops + 1) fuel hnext (by omega)]
        congr 2
        omega

/-- C7: when `count_hops(start, end)` returns the count `n`, then `n` is 1 for a host-adapter
start, plus 1 for a host-adapter end, plus `k`, where `k` is the number of forwarding steps
from the effective start `left` after which the current device first has the lid of the
effective end `right`; the count does not depend on the fuel of the loop beyond `k`. -/
theorem count_hops_counts_steps (f : fabric_t) (fuel n : Nat) (start end_ : entity_t)
    (h : f.count_hops fuel start end_ = some (Except.ok n)) :
    ∃ left right k,
      (if start.type = type_t.HCA then f.first_port_peer start else Except.ok start) =
        Except.ok left ∧
      (if end_.type = type_t.HCA then f.first_port_peer end_ else Except.ok end_) =
        Except.ok right ∧
      n = (if start.type = type_t.HCA then 1 else 0) + (if end_.type = type_t.HCA then 1 else 0) + k ∧
      reaches_in f right left k ∧
      ∀ fuel2, k < fuel2 → f.count_hops fuel2 start end_ = some (Except.ok n) := by
  unfold fabric_t.count_hops at h
  cases hl : (if start.type = type_t.HCA then f.first_port_peer start else Except.ok start) with
  | error err => simp [hl] at h
  | ok left =>
    cases hr : (if end_.type = type_t.HCA then f.first_port_peer end_ else Except.ok end_) with
    | error err => simp [hl, hr] at h
    | ok right =>
      simp only [hl, hr] at h
      obtain ⟨k, _, hn, hreach⟩ := count_hops_loop_sound f right fuel left _ n h
      refine ⟨left, right, k, rfl, rfl, hn, hreach, ?_⟩
      intro fuel2 hk2
      unfold fabric_t.count_hops
      simp only [hl, hr]
      rw [count_hops_loop_complete f right k left _ fuel2 hreach hk2, hn]

theorem count_hops_counts_steps_witness :
    chain_fabric.count_hops 2 chain_hca1 chain_hca2 = some (Except.ok 3) ∧
    ∃ left right k,
      (if chain_hca1.type = type_t.HCA then chain_fabric.first_port_peer chain_hca1
        else Except.ok chain_hca1) = Except.ok left ∧
      (if chain_hca2.type = type_t.HCA then chain_fabric.first_port_peer chain_hca2
        else Except.ok chain_hca2) = Except.ok right ∧
      3 = (if chain_hca1.type = type_t.HCA then 1 else 0) +
        (if chain_hca2.type = type_t.HCA then 1 else 0) + k ∧
      reaches_in chain_fabric right left k ∧
      ∀ fuel2, k < fuel2 →
        chain_fabric.count_hops fuel2 chain_hca1 chain_hca2 = some (Except.ok 3) :=
  ⟨rfl, count_hops_counts_steps chain_fabric 2 3 chain_hca1 chain_hca2 rfl⟩

theorem first_port_peer_eq (f : fabric_t) (e S : entity_t) (p : port_t) (c : key_guid_port_t)
    (hp : e.get_first_port = some p) (hc : p.connection = some c)
    (hS : f.find_entity c.guid = some S) : f.first_port_peer e = Except.ok S := by
  unfold entity_t.get_first_port at hp
  unfold fabric_t.first_port_peer
  split at hp
  · cases hp
  · rename_i k q rest hports
    simp only [Option.some.injEq] at hp
    subst hp
    simp only [hports, hc, hS]

theorem count_hops_loop_same (f : fabric_t) (S : entity_t) (l fuel hops : Nat)
    (hl : S.lid = Except.ok l) (hf : 0 < fuel) :
    count_hops_loop f S fuel S hops = some (Except.ok hops) := by
  cases fuel with
  | zero => omega
  | succ fuel => simp [count_hops_loop, hl]

/-- C8 (amended): when the first ports of two host adapters `H1` and `H2` are each cabled to a
port of the same device `S` of the fabric, and the first port of `S` has a positive lid as in
the scenario (`S` lid 1, `H1` lid 2, `H2` lid 3), `count_hops(H1, H2)` returns 2, at the first
evaluation of the loop condition. -/
theorem count_hops_same_switch (f : fabric_t) (H1 H2 S : entity_t) (p1 p2 : port_t)
    (c1 c2 : key_guid_port_t) (l : Nat)
    (ht1 : H1.type = type_t.HCA) (ht2 : H2.type = type_t.HCA)
    (hp1 : H1.get_first_port = some p1) (hc1 : p1.connection = some c1)
    (hp2 : H2.get_first_port = some p2) (hc2 : p2.connection = some c2)
    (hg1 : c1.guid = S.guid) (hg2 : c2.guid = S.guid)
    (hS : f.find_entity S.guid = some S) (hl : S.lid = Except.ok l) :
    ∀ fuel, 0 < fuel → f.count_hops fuel H1 H2 = some (Except.ok 2) := by
  intro fuel hf
  have h1 := first_port_peer_eq f H1 S p1 c1 hp1 hc1 (by rw [hg1]; exact hS)
  have h2 := first_port_peer_eq f H2 S p2 c2 hp2 hc2 (by rw [hg2]; exact hS)
  unfold fabric_t.count_hops
  simp only [ht1, ht2, if_true, h1, h2]
  exact count_hops_loop_same f S l fuel 2 hl hf

theorem count_hops_same_switch_witness :
    (star_fabric 1).count_hops 1 (star_hca 2 2 1) (star_hca 3 3 2) = some (Except.ok 2) :=
  count_hops_same_switch (star_fabric 1) (star_hca 2 2 1) (star_hca 3 3 2) (star_switch 1)
    (sample_port type_t.HCA 2 1 2 (some { guid := 1, port := 1 }))
    (sample_port type_t.HCA 3 1 3 (some { guid := 1, port := 2 }))
    { guid := 1, port := 1 } { guid := 1, port := 2 } 1 rfl rfl rfl rfl rfl rfl rfl rfl rfl rfl
    1 (by decide)

/-- C9 (amended): for a device `d` that is not a host adapter and whose first port, the port
with the smallest port number, has a positive lid, `count_hops(d, d)` returns 0 at the first
evaluation of the loop condition, whatever `d.routes` and `d.uft` hold. -/
theorem count_hops_self (f : fabric_t) (d : entity_t) (l : Nat) (ht : d.type ≠ type_t.HCA)
    (hl : d.lid = Except.ok l) :
    ∀ fuel, 0 < fuel → f.count_hops fuel d d = some (Except.ok 0) := by
  intro fuel hf
  unfold fabric_t.count_hops
  simp only [ht, if_false]
  exact count_hops_loop_same f d l fuel _ hl hf

theorem count_hops_self_witness :
    chain_fabric.count_hops 1 { chain_switch1 with routes := [(7, [9])], uft := [(1, 2)] }
      { chain_switch1 with routes := [(7, [9])], uft := [(1, 2)] } = some (Except.ok 0) :=
  count_hops_self chain_fabric { chain_switch1 with routes := [(7, [9])], uft := [(1, 2)] } 1
    (by decide) rfl 1 (by decide)

/-- C10 (counterexample): in the star fabric whose switch `S` has lid 0, the host adapter `H1`
has its first port cabled to port 1 of `S`, and `count_hops(H1, S)` and `count_hops(S, H1)` end
in the assertion `port->lid > 0` of `entity_t::lid`; neither returns 1. -/
theorem count_hops_adjacent_zero_lid :
    (star_hca 2 2 1).type = type_t.HCA ∧ (star_switch 0).type = type_t.TCA ∧
    (star_fabric 0).first_port_peer (star_hca 2 2 1) = Except.ok (star_switch 0) ∧
    (∀ fuel, (star_fabric 0).count_hops (fuel + 1) (star_hca 2 2 1) (star_switch 0) =
      some (Except.error error_t.ZeroLid)) ∧
    (∀ fuel, (star_fabric 0).count_hops (fuel + 1) (star_switch 0) (star_hca 2 2 1) =
      some (Except.error error_t.ZeroLid)) ∧
    ¬ (∀ fuel, 0 < fuel →
      (star_fabric 0).count_hops fuel (star_hca 2 2 1) (star_switch 0) = some (Except.ok 1)) :=
  ⟨rfl, rfl, rfl, fun _ => rfl, fun _ => rfl, fun h => by
    have h1 := h 1 (by decide)
    have h2 : (star_fabric 0).count_hops 1 (star_hca 2 2 1) (star_switch 0) =
        some (Except.error error_t.ZeroLid) := rfl
    rw [h2] at h1
    cases h1⟩

/-- C10 (amended): for a host adapter `H` whose first port is cabled to a port of a switch `S`
of the fabric that has a positive lid, `count_hops(H, S)` and `count_hops(S, H)` return 1 at
the first evaluation of the loop condition, so that `forward` and the forwarding tables are
not consulted. -/
theorem count_hops_adjacent (f : fabric_t) (H S : entity_t) (p : port_t) (c : key_guid_port_t)
    (l : Nat) (htH : H.type = type_t.HCA) (htS : S.type = type_t.TCA)
    (hp : H.get_first_port = some p) (hc : p.connection = some c) (hg : c.guid = S.guid)
    (hS : f.find_entity S.guid = some S) (hl : S.lid = Except.ok l) :
    ∀ fuel, 0 < fuel →
      f.count_hops fuel H S = some (Except.ok 1) ∧ f.count_hops fuel S H = some (Except.ok 1) := by
  intro fuel hf
  have h1 := first_port_peer_eq f H S p c hp hc (by rw [hg]; exact hS)
  have hne : S.type ≠ type_t.HCA := by rw [htS]; decide
  unfold fabric_t.count_hops
  simp only [htH, hne, if_true, if_false, h1]
  exact ⟨count_hops_loop_same f S l fuel _ hl hf, count_hops_loop_same f S l fuel _ hl hf⟩

theorem count_hops_adjacent_witness :
    (star_fabric 1).count_hops 1 (star_hca 2 2 1) (star_switch 1) = some (Except.ok 1) ∧
    (star_fabric 1).count_hops 1 (star_switch 1) (star_hca 2 2 1) = some (Except.ok 1) :=
  count_hops_adjacent (star_fabric 1) (star_hca 2 2 1) (star_switch 1)
    (sample_port type_t.HCA 2 1 2 (some { guid := 1, port := 1 })) { guid := 1, port := 1 } 1
    rfl rfl rfl rfl rfl rfl rfl 1 (by decide)

/-! ## entity_t::forward and the failures of count_hops -/

/-- C13: for a target `t` with lid `tl`, `forward` ends in the assertion `NoRoute` when `d.uft`
has no entry for `tl`; when `d.uft` gives port number `pn`, that port is a port `p` of `d`,
`p` is cabled to the port with key `c` and the device with guid `c.guid` is `e2`, `forward`
returns `e2`; and whenever `forward` returns a device, it is the device of the peer of the
port that `d.uft` records for `tl`. -/
theorem forward_next_hop (d t : entity_t) (f : fabric_t) (tl : Nat) (ht : t.lid = Except.ok tl) :
    (map_find d.uft tl = none → d.forward f t = Except.error error_t.NoRoute) ∧
    (∀ pn p c e2, map_find d.uft tl = some pn → map_find d.ports pn = some p →
      p.connection = some c → f.find_entity c.guid = some e2 → d.forward f t = Except.ok e2) ∧
    (∀ e2, d.forward f t = Except.ok e2 →
      ∃ pn p c, map_find d.uft tl = some pn ∧ map_find d.ports pn = some p ∧
        p.connection = some c ∧ f.find_entity c.guid = some e2) := by
  refine ⟨?_, ?_, ?_⟩
  · intro h
    simp only [entity_t.forward, ht, h]
  · intro pn p c e2 h1 h2 h3 h4
    simp only [entity_t.forward, ht, h1, h2, h3, h4]
  · intro e2 h
    simp only [entity_t.forward, ht] at h
    cases h1 : map_find d.uft tl with
    | none => simp [h1] at h
    | some pn =>
      simp only [h1] at h
      cases h2 : map_find d.ports pn with
      | none => simp [h2] at h
      | some p =>
        simp only [h2] at h
        cases h3 : p.connection with
        | none => simp [h3] at h
        | some c =>
          simp only [h3] at h
          cases h4 : f.find_entity c.guid with
          | none => simp [h4] at h
          | some e3 =>
            simp only [h4, Except.ok.injEq] at h
            subst h
            exact ⟨pn, p, c, rfl, h2, h3, h4⟩

theorem forward_next_hop_witness :
    chain_switch1.forward chain_fabric chain_switch2 = Except.ok chain_switch2 ∧
    chain_switch1.forward chain_fabric (sample_entity type_t.TCA 9 9) =
      Except.error error_t.NoRoute :=
  ⟨(forward_next_hop chain_switch1 chain_switch2 chain_fabric 2 rfl).2.1 2
      (sample_port type_t.TCA 1 2 1 (some { guid := 2, port := 1 })) { guid := 2, port := 1 }
      chain_switch2 rfl rfl rfl rfl,
    (forward_next_hop chain_switch1 (sample_entity type_t.TCA 9 9) chain_fabric 9 rfl).1 rfl⟩

theorem count_hops_loop_error (f : fabric_t) (right : entity_t) (k : Nat) (cur d : entity_t)
    (hops fuel : Nat) (err : error_t)
    (hwalk : forward_steps f right k cur = Except.ok d)
    (hne : ∀ j, j ≤ k → ∃ dj l r, forward_steps f right j cur = Except.ok dj ∧
      dj.lid = Except.ok l ∧ right.lid = Except.ok r ∧ l ≠ r)
    (hfw : d.forward f right = Except.error err) (hk : k < fuel) :
    count_hops_loop f right fuel cur hops = some (Except.error err) := by
  induction k generalizing cur hops fuel with
  | zero =>
    obtain ⟨d0, l0, r0, h1, h2, h3, h4⟩ := hne 0 (Nat.le_refl _)
    simp only [forward_steps, Except.ok.injEq] at h1 hwalk
    subst h1
    subst hwalk
    cases fuel with
    | zero => omega
    | succ fuel =>
      simp only [count_hops_loop, h2, h3, h4, ne_eq, not_false_eq_true, if_true, hfw]
  | succ k ih =>
    obtain ⟨d0, l0, r0, h1, h2, h3, h4⟩ := hne 0 (by omega)
    simp only [forward_steps, Except.ok.injEq] at h1
    subst h1
    cases fuel with
    | zero => omega
    | succ fuel =>
      simp only [forward_steps] at hwalk
      cases hf : cur.forward f right with
      | error e2 => simp [hf] at hwalk
      | ok next =>
        simp only [hf] at hwalk
        simp only [count_hops_loop, h2, h3, h4, ne_eq, not_false_eq_true, if_true, hf]
        refine ih next (hops + 1) fuel hwalk ?_ (by omega)
        intro j hj
        obtain ⟨dj, l, r, g1, g2, g3, g4⟩ := hne (j + 1) (by omega)
        simp only [forward_steps, hf] at g1
        exact ⟨dj, l, r, g1, g2, g3, g4⟩

/-- C11: `count_hops` ends in an error, and in no count, (1) when the start is a host adapter
whose first port is dark, (2) when the end is one, and (3) when after `k` forwarding steps the
traversal is at a device `d` whose lid is not the target lid and on which `forward` fails: with
`NoRoute` when `d.uft` has no entry for the target lid, with `Unreachable` when the port that
`d.uft` gives is a dark port of `d`.  The error is the result for every fuel above `k`: the
loop takes no step after the failing one. -/
theorem count_hops_reports_error (f : fabric_t) (start end_ : entity_t) :
    (∀ p, start.type = type_t.HCA → start.get_first_port = some p → p.connection = none →
      ∀ fuel, f.count_hops fuel start end_ = some (Except.error error_t.Unreachable)) ∧
    (∀ left p,
      (if start.type = type_t.HCA then f.first_port_peer start else Except.ok start) =
        Except.ok left →
      end_.type = type_t.HCA → end_.get_first_port = some p → p.connection = none →
      ∀ fuel, f.count_hops fuel start end_ = some (Except.error error_t.Unreachable)) ∧
    (∀ left right k d tl,
      (if start.type = type_t.HCA then f.first_port_peer start else Except.ok start) =
        Except.ok left →
      (if end_.type = type_t.HCA then f.first_port_peer end_ else Except.ok end_) =
        Except.ok right →
      forward_steps f right k left = Except.ok d →
      (∀ j, j ≤ k → ∃ dj l r, forward_steps f right j left = Except.ok dj ∧
        dj.lid = Except.ok l ∧ right.lid = Except.ok r ∧ l ≠ r) →
      right.lid = Except.ok tl →
      (map_find d.uft tl = none →
        ∀ fuel, k < fuel → f.count_hops fuel start end_ = some (Except.error error_t.NoRoute)) ∧
      (∀ pn p, map_find d.uft tl = some pn → map_find d.ports pn = some p →
        p.connection = none →
        ∀ fuel, k < fuel →
          f.count_hops fuel start end_ = some (Except.error error_t.Unreachable))) := by
  have hdark : ∀ (e : entity_t) (p : port_t), e.get_first_port = some p → p.connection = none →
      f.first_port_peer e = Except.error error_t.Unreachable := by
    intro e p hp hc
    unfold entity_t.get_first_port at hp
    unfold fabric_t.first_port_peer
    split at hp
    · cases hp
    · rename_i n q rest hports
      simp only [Option.some.injEq] at hp
      subst hp
      simp only [hports, hc]
  refine ⟨?_, ?_, ?_⟩
  · intro p ht hp hc fuel
    simp only [fabric_t.count_hops, ht, if_true, hdark start p hp hc]
  · intro left p hl ht hp hc fuel
    simp only [fabric_t.count_hops, hl, ht, if_true, hdark end_ p hp hc]
  · intro left right k d tl hl hr hwalk hne htl
    refine ⟨?_, ?_⟩
    · intro hnone fuel hk
      have hfw : d.forward f right = Except.error error_t.NoRoute := by
        simp only [entity_t.forward, htl, hnone]
      simp only [fabric_t.count_hops, hl, hr]
      exact count_hops_loop_error f right k left d _ fuel _ hwalk hne hfw hk
    · intro pn p h1 h2 h3 fuel hk
      have hfw : d.forward f right = Except.error error_t.Unreachable := by
        simp only [entity_t.forward, htl, h1, h2, h3]
      simp only [fabric_t.count_hops, hl, hr]
      exact count_hops_loop_error f right k left d _ fuel _ hwalk hne hfw hk

theorem count_hops_reports_error_witness :
    chain_fabric.count_hops 1 (sample_entity type_t.HCA 7 7) chain_switch1 =
      some (Except.error error_t.Unreachable) ∧
    chain_fabric.count_hops 2 chain_hca1 (sample_entity type_t.TCA 9 9) =
      some (Except.error error_t.NoRoute) :=
  ⟨(count_hops_reports_error chain_fabric (sample_entity type_t.HCA 7 7) chain_switch1).1
      (sample_port type_t.HCA 7 1 7 none) rfl rfl rfl 1,
    ((count_hops_reports_error chain_fabric chain_hca1 (sample_entity type_t.TCA 9 9)).2.2
      chain_switch1 (sample_entity type_t.TCA 9 9) 0 chain_switch1 9 rfl rfl rfl
      (by
        intro j hj
        have hj0 : j = 0 := by omega
        subst hj0
        exact ⟨chain_switch1, 1, 9, rfl, rfl, rfl, by decide⟩)
      rfl).1 rfl 2 (by decide)⟩

theorem forward_steps_add (f : fabric_t) (right : entity_t) (a b : Nat) (e : entity_t) :
    forward_steps f right (a + b) e =
      match forward_steps f right a e with
      | Except.error err => Except.error err
      | Except.ok d => forward_steps f right b d := by
  induction a generalizing e with
  | zero => simp [forward_steps]
  | succ a ih =>
    have h : a + 1 + b = (a + b) + 1 := by omega
    rw [h]
    simp only [forward_steps]
    cases e.forward f right with
    | error err => rfl
    | ok next => exact ih next

theorem count_hops_loop_never (f : fabric_t) (right : entity_t) (fuel : Nat) (cur : entity_t)
    (hops : Nat)
    (hall : ∀ n, ∃ dn l r, forward_steps f right n cur = Except.ok dn ∧ dn.lid = Except.ok l ∧
      right.lid = Except.ok r ∧ l ≠ r) :
    count_hops_loop f right fuel cur hops = none := by
  induction fuel generalizing cur hops with
  | zero => rfl
  | succ fuel ih =>
    obtain ⟨d0, l0, r0, h1, h2, h3, h4⟩ := hall 0
    simp only [forward_steps, Except.ok.injEq] at h1
    subst h1
    obtain ⟨d1, l1, r1, g1, _, _, _⟩ := hall 1
    simp only [forward_steps] at g1
    cases hf : cur.forward f right with
    | error err => simp [hf] at g1
    | ok next =>
      simp only [count_hops_loop, h2, h3, h4, ne_eq, not_false_eq_true, if_true, hf]
      apply ih
      intro n
      obtain ⟨dn, l, r, k1, k2, k3, k4⟩ := hall (n + 1)
      simp only [forward_steps, hf] at k1
      exact ⟨dn, l, r, k1, k2, k3, k4⟩

theorem revisit_never_reaches (f : fabric_t) (right left d : entity_t) (i j : Nat) (hij : i < j)
    (hi : forward_steps f right i left = Except.ok d)
    (hj : forward_steps f right j left = Except.ok d)
    (hne : ∀ n, n < j → ∃ dn l r, forward_steps f right n left = Except.ok dn ∧
      dn.lid = Except.ok l ∧ right.lid = Except.ok r ∧ l ≠ r) :
    ∀ n, ∃ dn l r, forward_steps f right n left = Except.ok dn ∧ dn.lid = Except.ok l ∧
      right.lid = Except.ok r ∧ l ≠ r := by
  intro n
  induction n using Nat.strong_induction_on with
  | _ n ih =>
    by_cases hn : n < j
    · exact hne n hn
    · have h1 : n = j + (n - j) := by omega
      have h2 : forward_steps f right n left = forward_steps f right (i + (n - j)) left := by
        rw [forward_steps_add f right i (n - j) left, hi]
        conv_lhs => rw [h1]
        rw [forward_steps_add f right j (n - j) left, hj]
      rw [h2]
      exact ih (i + (n - j)) (by omega)

/-- C12 (counterexample): in the fabric of two switches that forward lid 3 to each other, the
traversal from switch 1 towards the switch with lid 3 is back at switch 1 after two steps, and
`count_hops` gives no result for any fuel: the loop never ends and no error is reported. -/
theorem count_hops_cycle_never_returns :
    forward_steps cycle_fabric (sample_entity type_t.TCA 3 3) 0 (cycle_switch 1 2) =
      Except.ok (cycle_switch 1 2) ∧
    forward_steps cycle_fabric (sample_entity type_t.TCA 3 3) 2 (cycle_switch 1 2) =
      Except.ok (cycle_switch 1 2) ∧
    (∀ fuel, cycle_fabric.count_hops fuel (cycle_switch 1 2) (sample_entity type_t.TCA 3 3) =
      none) ∧
    ¬ ∃ fuel err, cycle_fabric.count_hops fuel (cycle_switch 1 2) (sample_entity type_t.TCA 3 3) =
      some (Except.error err) := by
  have hall := revisit_never_reaches cycle_fabric (sample_entity type_t.TCA 3 3)
    (cycle_switch 1 2) (cycle_switch 1 2) 0 2 (by decide) rfl rfl (by
      intro n hn
      have h : n = 0 ∨ n = 1 := by omega
      rcases h with h | h
      · subst h
        exact ⟨cycle_switch 1 2, 1, 3, rfl, rfl, rfl, by decide⟩
      · subst h
        exact ⟨cycle_switch 2 1, 2, 3, rfl, rfl, rfl, by decide⟩)
  have hnone : ∀ fuel,
      cycle_fabric.count_hops fuel (cycle_switch 1 2) (sample_entity type_t.TCA 3 3) = none := by
    intro fuel
    exact count_hops_loop_never cycle_fabric (sample_entity type_t.TCA 3 3) fuel
      (cycle_switch 1 2) _ hall
  refine ⟨rfl, rfl, hnone, ?_⟩
  rintro ⟨fuel, err, h⟩
  rw [hnone fuel] at h
  cases h

/-- C12 (amended): `count_hops` has no cycle detection.  When the traversal from the effective
start `left` is at the same device `d` after `i` and after `j > i` forwarding steps, and at no
step before `j` the current lid is the target lid, then `count_hops` gives no result for any
fuel: the loop runs forever, and no error is reported. -/
theorem count_hops_cycle_diverges (f : fabric_t) (start end_ left right d : entity_t) (i j : Nat)
    (hl : (if start.type = type_t.HCA then f.first_port_peer start else Except.ok start) =
      Except.ok left)
    (hr : (if end_.type = type_t.HCA then f.first_port_peer end_ else Except.ok end_) =
      Except.ok right)
    (hij : i < j)
    (hi : forward_steps f right i left = Except.ok d)
    (hj : forward_steps f right j left = Except.ok d)
    (hne : ∀ n, n < j → ∃ dn l r, forward_steps f right n left = Except.ok dn ∧
      dn.lid = Except.ok l ∧ right.lid = Except.ok r ∧ l ≠ r) :
    ∀ fuel, f.count_hops fuel start end_ = none := by
  intro fuel
  simp only [fabric_t.count_hops, hl, hr]
  exact count_hops_loop_never f right fuel left _
    (revisit_never_reaches f right left d i j hij hi hj hne)

theorem count_hops_cycle_diverges_witness :
    cycle_fabric.count_hops 1000 (cycle_switch 1 2) (sample_entity type_t.TCA 3 3) = none :=
  count_hops_cycle_diverges cycle_fabric (cycle_switch 1 2) (sample_entity type_t.TCA 3 3)
    (cycle_switch 1 2) (sample_entity type_t.TCA 3 3) (cycle_switch 1 2) 0 2 rfl rfl
    (by decide) rfl rfl
    (by
      intro n hn
      have h : n = 0 ∨ n = 1 := by omega
      rcases h with h | h
      · subst h
        exact ⟨cycle_switch 1 2, 1, 3, rfl, rfl, rfl, by decide⟩
      · subst h
        exact ⟨cycle_switch 2 1, 2, 3, rfl, rfl, rfl, by decide⟩)
    1000

/-! ## Cabling: lemmas on the flat port index -/

theorem key_equiv_iff (a b : key_guid_port_t) :
    (!(a.lt b) && !(b.lt a)) = true ↔ a = b := by
  obtain ⟨g1, n1⟩ := a
  obtain ⟨g2, n2⟩ := b
  simp only [key_guid_port_t.lt, key_guid_port_t.mk.injEq, Bool.and_eq_true, Bool.not_eq_true']
  by_cases hg : g1 = g2
  · subst hg
    simp only [if_true, decide_eq_false_iff_not, true_and]
    omega
  · have hg2 : ¬ g2 = g1 := fun h => hg h.symm
    simp only [hg, hg2, if_false, decide_eq_false_iff_not, false_and, iff_false]
    omega

theorem pm_find_cons {V : Type} (k a : key_guid_port_t) (v : V)
    (m : List (key_guid_port_t × V)) :
    pm_find ((k, v) :: m) a = if k = a then some v else pm_find m a := by
  simp only [pm_find]
  by_cases h : k = a
  · have h2 : (!(k.lt a) && !(a.lt k)) = true := (key_equiv_iff k a).mpr h
    rw [if_pos h2, if_pos h]
  · have h2 : ¬ ((!(k.lt a) && !(a.lt k)) = true) := fun hc => h ((key_equiv_iff k a).mp hc)
    rw [if_neg h2, if_neg h]

theorem pm_find_place {V : Type} (m : List (key_guid_port_t × V)) (k : key_guid_port_t) (v : V)
    (a : key_guid_port_t) (hk : pm_find m k = none) :
    pm_find (pm_place m k v) a = if k = a then some v else pm_find m a := by
  induction m with
  | nil =>
    simp only [pm_place]
    rw [pm_find_cons]
  | cons x m ih =>
    obtain ⟨k1, v1⟩ := x
    rw [pm_find_cons] at hk
    by_cases h1 : k1 = k
    · simp [h1] at hk
    · simp only [h1, if_false] at hk
      simp only [pm_place]
      by_cases h2 : k.lt k1 = true
      · simp only [h2, if_true, pm_find_cons]
      · simp only [h2, Bool.false_eq_true, if_false, pm_find_cons, ih hk]
        by_cases h3 : k1 = a
        · have : ¬ k = a := fun h => h1 (h3.trans h.symm)
          simp [h3, this]
        · simp [h3]

theorem pm_find_insert {V : Type} (m : List (key_guid_port_t × V)) (k : key_guid_port_t) (v : V)
    (a : key_guid_port_t) :
    pm_find (pm_insert m k v) a =
      match pm_find m a with
      | some w => some w
      | none => if k = a then some v else none := by
  unfold pm_insert
  cases hk : pm_find m k with
  | some w =>
    simp only [Option.isSome_some, if_true]
    cases ha : pm_find m a with
    | some w2 => rfl
    | none =>
      have : ¬ k = a := by
        intro h
        rw [h] at hk
        rw [hk] at ha
        cases ha
      simp [this]
  | none =>
    simp only [Option.isSome_none, Bool.false_eq_true, if_false]
    rw [pm_find_place m k v a hk]
    by_cases h : k = a
    · subst h
      simp [hk]
    · simp only [h, if_false]
      cases pm_find m a <;> rfl

theorem map_find_mem {V : Type} (m : List (Nat × V)) (k : Nat) (v : V)
    (h : map_find m k = some v) : (k, v) ∈ m := by
  induction m with
  | nil => cases h
  | cons x m ih =>
    obtain ⟨k1, v1⟩ := x
    simp only [map_find] at h
    by_cases h1 : k1 = k
    · simp only [h1, if_true, Option.some.injEq] at h
      subst h1
      subst h
      exact List.mem_cons_self _ _
    · simp only [h1, if_false] at h
      exact List.mem_cons_of_mem _ (ih h)

theorem mem_map_place {V : Type} (m : List (Nat × V)) (k : Nat) (v : V) (x : Nat × V) :
    x ∈ map_place m k v ↔ x = (k, v) ∨ x ∈ m := by
  induction m with
  | nil => simp [map_place]
  | cons y m ih =>
    obtain ⟨k1, v1⟩ := y
    simp only [map_place]
    by_cases h : k < k1
    · simp only [h, if_true, List.mem_cons]
    · simp only [h, if_false, List.mem_cons, ih]
      constructor
      · rintro (h1 | h1 | h1)
        · exact Or.inr (Or.inl h1)
        · exact Or.inl h1
        · exact Or.inr (Or.inr h1)
      · rintro (h1 | h1 | h1)
        · exact Or.inr (Or.inl h1)
        · exact Or.inl h1
        · exact Or.inr (Or.inr h1)

theorem mem_map_insert {V : Type} (m : List (Nat × V)) (k : Nat) (v : V) (x : Nat × V)
    (h : x ∈ map_insert m k v) : x = (k, v) ∨ x ∈ m := by
  unfold map_insert at h
  split at h
  · exact Or.inr h
  · exact (mem_map_place m k v x).mp h

theorem sanity_check_ok (guid : Nat) (type : type_t) (ps : List (Nat × port_t))
    (h : ∀ x ∈ ps, x.2.guid = guid ∧ x.2.type = type) :
    sanity_check guid type ps = Except.ok () := by
  induction ps with
  | nil => rfl
  | cons x ps ih =>
    obtain ⟨n, p⟩ := x
    have hx := h (n, p) (List.mem_cons_self _ _)
    have h1 : p.guid = guid := hx.1
    have h2 : p.type = type := hx.2
    simp only [sanity_check, h1, h2, ne_eq, not_true_eq_false, if_false]
    exact ih (fun y hy => h y (List.mem_cons_of_mem _ hy))

theorem sanity_check_mem (guid : Nat) (type : type_t) (ps : List (Nat × port_t))
    (h : sanity_check guid type ps = Except.ok ()) :
    ∀ x ∈ ps, x.2.guid = guid ∧ x.2.type = type := by
  induction ps with
  | nil => intro x hx; cases hx
  | cons y ps ih =>
    obtain ⟨n, p⟩ := y
    simp only [sanity_check] at h
    split at h
    · cases h
    · split at h
      · cases h
      · rename_i h1 h2
        intro x hx
        rcases List.mem_cons.mp hx with e | hx
        · subst e
          exact ⟨not_not.mp h1, not_not.mp h2⟩
        · exact ih h x hx

theorem find_entity_create_cases (f : fabric_t) (g : Nat) (t : type_t) :
    (∃ err, f.find_entity_create g t = (f, Except.error err) ∧
      ((map_find f.entities g = none ∧ g = 0 ∧ err = error_t.ZeroGuid) ∨
       (map_find f.entities g = none ∧ g ≠ 0 ∧ t = type_t.UNKNOWN ∧
          err = error_t.DeviceClassMismatch) ∨
       (∃ e, map_find f.entities g = some e ∧ e.type ≠ t ∧
          err = error_t.DeviceClassMismatch))) ∨
    (∃ e, f.find_entity_create g t = (f, Except.ok e) ∧ map_find f.entities g = some e ∧
      e.type = t) ∨
    (f.find_entity_create g t =
        ({ f with entities := map_insert f.entities g (entity_t.new g t) },
          Except.ok (entity_t.new g t)) ∧
      map_find f.entities g = none ∧ g ≠ 0 ∧ t ≠ type_t.UNKNOWN) := by
  unfold fabric_t.find_entity_create
  cases h : map_find f.entities g with
  | none =>
    by_cases hg : g = 0
    · exact Or.inl ⟨_, by simp [hg], Or.inl ⟨rfl, hg, rfl⟩⟩
    · by_cases ht : t = type_t.UNKNOWN
      · exact Or.inl ⟨_, by simp [hg, ht], Or.inr (Or.inl ⟨rfl, hg, ht, rfl⟩)⟩
      · exact Or.inr (Or.inr ⟨by simp [hg, ht], rfl, hg, ht⟩)
  | some e =>
    by_cases ht : e.type = t
    · exact Or.inr (Or.inl ⟨e, by simp [ht], rfl, ht⟩)
    · exact Or.inl ⟨_, by simp [ht], Or.inr (Or.inr ⟨e, rfl, ht, rfl⟩)⟩

theorem entities_updated_assign (es : List (Nat × entity_t)) (g : Nat) (e : entity_t) :
    entities_updated es (map_assign es g e) g e := by
  intro g2
  exact map_find_assign es g e g2

theorem entities_updated_insert_assign (es : List (Nat × entity_t)) (g : Nat) (e0 e : entity_t) :
    entities_updated es (map_assign (map_insert es g e0) g e) g e := by
  intro g2
  rw [map_find_assign, map_find_insert]
  by_cases hg : g = g2
  · simp [hg]
  · simp only [hg, if_false]
    cases map_find es g2 <;> rfl

theorem attach_port_cases (f : fabric_t) (p : port_t) :
    ∃ f2 r, f.attach_port p = (f2, r) ∧ f2.lmc = f.lmc ∧ f2.lidmap = f.lidmap ∧
      ((f2 = f ∧ ∃ err, r = Except.error err ∧
          ((map_find f.entities p.guid = none ∧ (p.guid = 0 ∨ p.type = type_t.UNKNOWN)) ∨
           (∃ e, map_find f.entities p.guid = some e ∧ e.type ≠ p.type ∧
              err = error_t.DeviceClassMismatch))) ∨
       (∃ e0, located f p e0 ∧ f2.portmap = f.portmap ∧
          (map_find e0.ports p.port).isSome ∧ r = Except.error error_t.DuplicatePort ∧
          entities_updated f.entities f2.entities p.guid e0) ∨
       (∃ e0, located f p e0 ∧ f2.portmap = f.portmap ∧ map_find e0.ports p.port = none ∧
          entities_updated f.entities f2.entities p.guid
            { e0 with ports := map_insert e0.ports p.port p } ∧
          ((∃ err, sanity_check e0.guid e0.type (map_insert e0.ports p.port p) =
              Except.error err ∧ r = Except.error err) ∨
           (sanity_check e0.guid e0.type (map_insert e0.ports p.port p) = Except.ok () ∧
              (pm_find f.portmap p.key).isSome ∧ r = Except.error error_t.InsertFailed))) ∨
       (∃ e0, located f p e0 ∧ map_find e0.ports p.port = none ∧
          sanity_check e0.guid e0.type (map_insert e0.ports p.port p) = Except.ok () ∧
          pm_find f.portmap p.key = none ∧ r = Except.ok true ∧
          f2.portmap = pm_insert f.portmap p.key p ∧
          entities_updated f.entities f2.entities p.guid
            { e0 with ports := map_insert e0.ports p.port p })) := by
  have key : ∀ (f1 : fabric_t) (e0 : entity_t), located f p e0 →
      f.find_entity_create p.guid p.type = (f1, Except.ok e0) →
      f1.lmc = f.lmc → f1.lidmap = f.lidmap → f1.portmap = f.portmap →
      (∀ e, entities_updated f.entities (map_assign f1.entities p.guid e) p.guid e) →
      ∃ f2 r, f.attach_port p = (f2, r) ∧ f2.lmc = f.lmc ∧ f2.lidmap = f.lidmap ∧
      ((f2 = f ∧ ∃ err, r = Except.error err ∧
          ((map_find f.entities p.guid = none ∧ (p.guid = 0 ∨ p.type = type_t.UNKNOWN)) ∨
           (∃ e, map_find f.entities p.guid = some e ∧ e.type ≠ p.type ∧
              err = error_t.DeviceClassMismatch))) ∨
       (∃ e0, located f p e0 ∧ f2.portmap = f.portmap ∧
          (map_find e0.ports p.port).isSome ∧ r = Except.error error_t.DuplicatePort ∧
          entities_updated f.entities f2.entities p.guid e0) ∨
       (∃ e0, located f p e0 ∧ f2.portmap = f.portmap ∧ map_find e0.ports p.port = none ∧
          entities_updated f.entities f2.entities p.guid
            { e0 with ports := map_insert e0.ports p.port p } ∧
          ((∃ err, sanity_check e0.guid e0.type (map_insert e0.ports p.port p) =
              Except.error err ∧ r = Except.error err) ∨
           (sanity_check e0.guid e0.type (map_insert e0.ports p.port p) = Except.ok () ∧
              (pm_find f.portmap p.key).isSome ∧ r = Except.error error_t.InsertFailed))) ∨
       (∃ e0, located f p e0 ∧ map_find e0.ports p.port = none ∧
          sanity_check e0.guid e0.type (map_insert e0.ports p.port p) = Except.ok () ∧
          pm_find f.portmap p.key = none ∧ r = Except.ok true ∧
          f2.portmap = pm_insert f.portmap p.key p ∧
          entities_updated f.entities f2.entities p.guid
            { e0 with ports := map_insert e0.ports p.port p })) := by
    intro f1 e0 hloc hfe h1 h2 h3 hupd
    unfold fabric_t.attach_port
    simp only [hfe]
    unfold entity_t.add_port
    cases hdup : map_find e0.ports p.port with
    | some q =>
      simp only [Option.isSome_some, if_true]
      exact ⟨_, _, rfl, h1, h2, Or.inr (Or.inl ⟨e0, hloc, h3, by simp [hdup], rfl, hupd e0⟩)⟩
    | none =>
      simp only [Option.isSome_none, Bool.false_eq_true, if_false]
      cases hs : sanity_check e0.guid e0.type (map_insert e0.ports p.port p) with
      | error err =>
        simp only
        exact ⟨_, _, rfl, h1, h2, Or.inr (Or.inr (Or.inl
          ⟨e0, hloc, h3, hdup, hupd _, Or.inl ⟨err, hs, rfl⟩⟩))⟩
      | ok u =>
        simp only
        cases hk : pm_find f1.portmap p.key with
        | some q =>
          simp only [Option.isSome_some, if_true]
          refine ⟨_, _, rfl, h1, h2, Or.inr (Or.inr (Or.inl
            ⟨e0, hloc, h3, hdup, hupd _, Or.inr ⟨hs, ?_, rfl⟩⟩))⟩
          rw [← h3, hk]
          rfl
        | none =>
          simp only [Option.isSome_none, Bool.false_eq_true, if_false]
          refine ⟨_, _, rfl, h1, h2, Or.inr (Or.inr (Or.inr
            ⟨e0, hloc, hdup, hs, ?_, rfl, ?_, hupd _⟩))⟩
          · rw [← h3, hk]
          · simp only [h3]
  rcases find_entity_create_cases f p.guid p.type with
    ⟨err, hfe, hwhy⟩ | ⟨e, hfe, hfind, hty⟩ | ⟨hfe, hnone, hg, ht⟩
  · refine ⟨f, Except.error err, ?_, rfl, rfl, Or.inl ⟨rfl, err, rfl, ?_⟩⟩
    · unfold fabric_t.attach_port
      simp only [hfe]
    · rcases hwhy with ⟨h1, h2, _⟩ | ⟨h1, _, h2, _⟩ | ⟨e, h1, h2, h3⟩
      · exact Or.inl ⟨h1, Or.inl h2⟩
      · exact Or.inl ⟨h1, Or.inr h2⟩
      · exact Or.inr ⟨e, h1, h2, h3⟩
  · exact key f e (Or.inl ⟨hfind, hty⟩) hfe rfl rfl rfl
      (fun e2 => entities_updated_assign f.entities p.guid e2)
  · exact key _ _ (Or.inr ⟨hnone, rfl, hg, ht⟩) hfe rfl rfl rfl
      (fun e2 => entities_updated_insert_assign f.entities p.guid _ e2)

theorem located_facts (f : fabric_t) (p : port_t) (e0 : entity_t) (hinv : fabric_inv f)
    (hloc : located f p e0) :
    e0.guid = p.guid ∧ e0.type = p.type ∧ e0.type ≠ type_t.UNKNOWN ∧
    (∀ x ∈ e0.ports, x.2.guid = p.guid ∧ x.2.type = e0.type) ∧
    (∀ n q, map_find e0.ports n = some q →
      q.port = n ∧ pm_find f.portmap { guid := p.guid, port := n } = some q) := by
  rcases hloc with ⟨hfind, hty⟩ | ⟨_, he, _, ht⟩
  · obtain ⟨h1, h2, h3, h4⟩ := hinv.1 p.guid e0 hfind
    exact ⟨h1, hty, h2, h3, h4⟩
  · subst he
    refine ⟨rfl, rfl, ht, ?_, ?_⟩
    · intro x hx
      cases hx
    · intro n q hq
      cases hq

theorem attach_port_inv (f : fabric_t) (p : port_t) (hinv : fabric_inv f) :
    fabric_inv (f.attach_port p).1 := by
  obtain ⟨f2, r, hrun, _, _, hcase⟩ := attach_port_cases f p
  rw [hrun]
  show fabric_inv f2
  rcases hcase with ⟨h, _⟩ | ⟨e0, hloc, hpm, hdup, _, hupd⟩ |
    ⟨e0, hloc, hpm, hdup, hupd, hbad⟩ | ⟨e0, hloc, hdup, hs, hnone, _, hpm, hupd⟩
  · rw [h]
    exact hinv
  · -- the port number is taken: the located entity is an old one and nothing changes
    have hsame : ∀ g, map_find f2.entities g = map_find f.entities g := by
      intro g
      rw [hupd g]
      by_cases hg : p.guid = g
      · subst hg
        rcases hloc with ⟨hfind, _⟩ | ⟨_, he, _, _⟩
        · simp [hfind]
        · subst he
          simp [entity_t.new, map_find] at hdup
      · simp [hg]
    refine ⟨?_, ?_⟩
    · intro g e he
      rw [hsame g] at he
      rw [hpm]
      exact hinv.1 g e he
    · intro k q hq
      rw [hpm] at hq
      rw [hsame k.guid]
      exact hinv.2 k q hq
  · -- neither the sanity loop nor the insertion can fail on a fabric in agreement
    exfalso
    obtain ⟨hg, hty, _, hports, _⟩ := located_facts f p e0 hinv hloc
    have hok : sanity_check e0.guid e0.type (map_insert e0.ports p.port p) = Except.ok () := by
      apply sanity_check_ok
      intro x hx
      rcases mem_map_insert _ _ _ _ hx with e | hx
      · subst e
        exact ⟨hg.symm, hty.symm⟩
      · rw [hg]
        exact hports x hx
    rcases hbad with ⟨err, herr, _⟩ | ⟨_, hknown, _⟩
    · rw [hok] at herr
      cases herr
    · cases hk : pm_find f.portmap p.key with
      | none => simp [hk] at hknown
      | some q =>
        obtain ⟨e, he, hep⟩ := hinv.2 p.key q hk
        rcases hloc with ⟨hfind, _⟩ | ⟨hnone, _, _, _⟩
        · have : e = e0 := by
            have h2 : map_find f.entities p.guid = some e := he
            rw [hfind] at h2
            cases h2
            rfl
          subst this
          have h3 : map_find e.ports p.port = some q := hep
          rw [hdup] at h3
          cases h3
        · have h2 : map_find f.entities p.guid = some e := he
          rw [hnone] at h2
          cases h2
  · obtain ⟨hg, hty, hknownty, hports, hfinds⟩ := located_facts f p e0 hinv hloc
    have hnone2 : pm_find f.portmap { guid := p.guid, port := p.port } = none := hnone
    refine ⟨?_, ?_⟩
    · intro g e he
      rw [hupd g] at he
      rw [hpm]
      by_cases hgg : p.guid = g
      · subst hgg
        simp only [if_true, Option.some.injEq] at he
        subst he
        refine ⟨hg, hknownty, ?_, ?_⟩
        · intro x hx
          rcases mem_map_insert _ _ _ _ hx with e | hx
          · subst e
            exact ⟨rfl, hty.symm⟩
          · exact hports x hx
        · intro n q hq
          have hq2 : map_find (map_insert e0.ports p.port p) n = some q := hq
          rw [map_find_insert] at hq2
          rw [pm_find_insert]
          cases hold : map_find e0.ports n with
          | some w =>
            simp only [hold, Option.some.injEq] at hq2
            subst hq2
            obtain ⟨h1, h2⟩ := hfinds n w hold
            exact ⟨h1, by simp [h2]⟩
          | none =>
            simp only [hold] at hq2
            by_cases hn : p.port = n
            · simp only [hn, if_true, Option.some.injEq] at hq2
              subst hq2
              subst hn
              refine ⟨rfl, ?_⟩
              simp only [hnone2]
              simp [port_t.key]
            · simp [hn] at hq2
      · simp only [hgg, if_false] at he
        obtain ⟨h1, h2, h3, h4⟩ := hinv.1 g e he
        refine ⟨h1, h2, h3, ?_⟩
        intro n q hq
        obtain ⟨h5, h6⟩ := h4 n q hq
        refine ⟨h5, ?_⟩
        rw [pm_find_insert, h6]
    · intro k q hq
      rw [hpm, pm_find_insert] at hq
      rw [hupd k.guid]
      cases hold : pm_find f.portmap k with
      | some w =>
        simp only [hold, Option.some.injEq] at hq
        subst hq
        obtain ⟨e, he, hep⟩ := hinv.2 k w hold
        by_cases hgg : p.guid = k.guid
        · simp only [hgg, if_true]
          rcases hloc with ⟨hfind, _⟩ | ⟨hnone3, _, _, _⟩
          · rw [hgg, he] at hfind
            simp only [Option.some.injEq] at hfind
            subst hfind
            refine ⟨_, rfl, ?_⟩
            show map_find (map_insert e.ports p.port p) k.port = some w
            rw [map_find_insert, hep]
          · rw [hgg, he] at hnone3
            cases hnone3
        · simp only [hgg, if_false]
          exact ⟨e, he, hep⟩
      | none =>
        simp only [hold] at hq
        by_cases hk : p.key = k
        · simp only [hk, if_true, Option.some.injEq] at hq
          subst hq
          subst hk
          simp only [port_t.key, if_true]
          refine ⟨_, rfl, ?_⟩
          show map_find (map_insert e0.ports p.port p) p.port = some p
          rw [map_find_insert, hdup]
          simp
        · simp [hk] at hq

theorem add_cable_inv (f : fabric_t) (p1 : port_t) (p2 : Option port_t) (hinv : fabric_inv f) :
    fabric_inv (f.add_cable p1 p2).1 := by
  unfold fabric_t.add_cable
  cases add_cable_check f p1 p2 with
  | error err => exact hinv
  | ok u =>
    simp only
    by_cases hk : (pm_find f.portmap p1.key).isSome = true
    · simp only [hk, if_true]
      exact hinv
    · simp only [hk, Bool.false_eq_true, if_false]
      have hinv1 := attach_port_inv f p1 hinv
      rcases h1 : f.attach_port p1 with ⟨f1, r1⟩
      rw [h1] at hinv1
      cases r1 with
      | error err => exact hinv1
      | ok b =>
        cases b with
        | false => exact hinv1
        | true =>
          cases p2 with
          | none => exact hinv1
          | some q => exact attach_port_inv f1 q hinv1

theorem add_cables_loop_rel (R : fabric_t → fabric_t → Prop) (hrefl : ∀ f, R f f)
    (htrans : ∀ a b c, R a b → R b c → R a c)
    (hstep : ∀ f p1 p2, R f (f.add_cable p1 p2).1)
    (objs : List (key_guid_port_t × Option port_t)) (peers : List (key_guid_port_t × port_t))
    (ks : List key_guid_port_t) (f : fabric_t)
    (pend : List (key_guid_port_t × Option port_t)) :
    R f (add_cables_loop objs peers ks f pend).1 := by
  induction ks generalizing f pend with
  | nil => exact hrefl f
  | cons k ks ih =>
    simp only [add_cables_loop]
    split
    · rename_i p hp
      split
      · exact hrefl f
      · split
        · have h1 := hstep f p none
          split
          · rename_i f1 heq
            rw [heq] at h1
            exact htrans _ _ _ h1 (ih f1 _)
          · rename_i f1 heq
            rw [heq] at h1
            exact h1
          · rename_i f1 err heq
            rw [heq] at h1
            exact h1
        · rename_i c hc
          split
          · exact hrefl f
          · rename_i q hq
            have h1 := hstep f p (some q)
            split
            · rename_i f1 heq
              rw [heq] at h1
              split
              · exact htrans _ _ _ h1 (ih f1 _)
              · exact h1
            · rename_i f1 heq
              rw [heq] at h1
              exact h1
            · rename_i f1 err heq
              rw [heq] at h1
              exact h1
    · exact ih f pend

theorem add_cables_rel (R : fabric_t → fabric_t → Prop) (hrefl : ∀ f, R f f)
    (htrans : ∀ a b c, R a b → R b c → R a c)
    (hstep : ∀ f p1 p2, R f (f.add_cable p1 p2).1)
    (f : fabric_t) (pending : List (key_guid_port_t × Option port_t))
    (peers : List (key_guid_port_t × port_t)) :
    R f (f.add_cables pending peers).fabric := by
  have h := add_cables_loop_rel R hrefl htrans hstep pending peers (pending.map Prod.fst) f
    pending
  unfold fabric_t.add_cables
  split
  · rename_i f1 pend heq
    rw [heq] at h
    exact h
  · rename_i f1 pend heq
    rw [heq] at h
    exact h
  · rename_i f1 pend err heq
    rw [heq] at h
    exact h

theorem add_cables_loop_inv (objs : List (key_guid_port_t × Option port_t))
    (peers : List (key_guid_port_t × port_t))
    (ks : List key_guid_port_t) (f : fabric_t) (pend : List (key_guid_port_t × Option port_t))
    (hinv : fabric_inv f) : fabric_inv (add_cables_loop objs peers ks f pend).1 :=
  add_cables_loop_rel (fun a b => fabric_inv a → fabric_inv b) (fun _ h => h)
    (fun _ _ _ hab hbc h => hbc (hab h)) (fun f0 p1 p2 h => add_cable_inv f0 p1 p2 h)
    objs peers ks f pend hinv

theorem add_cables_inv (f : fabric_t) (pending : List (key_guid_port_t × Option port_t))
    (peers : List (key_guid_port_t × port_t))
    (hinv : fabric_inv f) : fabric_inv (f.add_cables pending peers).fabric :=
  add_cables_rel (fun a b => fabric_inv a → fabric_inv b) (fun _ h => h)
    (fun _ _ _ hab hbc h => hbc (hab h)) (fun f0 p1 p2 h => add_cable_inv f0 p1 p2 h)
    f pending peers hinv

/-- A pending map that holds one end of a cable only, the other end being a port outside the
map: `add_cable` is called for the port and its peer and attaches both, and `add_cables` then
ends in the assertion `itr2 != _portmap.end()`, the pending map not cleared. -/
theorem add_cables_peer_outside_map :
    (fabric_t.empty.add_cables
      [({ guid := 1, port := 1 }, some (sample_tca_port (some { guid := 2, port := 1 })))]
      [({ guid := 2, port := 1 }, sample_hca_port (some { guid := 1, port := 1 }))]).result =
      Except.error error_t.DanglingPeer ∧
    (fabric_t.empty.add_cables
      [({ guid := 1, port := 1 }, some (sample_tca_port (some { guid := 2, port := 1 })))]
      [({ guid := 2, port := 1 }, sample_hca_port (some { guid := 1, port := 1 }))]).fabric =
      sample_pair_fabric ∧
    (fabric_t.empty.add_cables
      [({ guid := 1, port := 1 }, some (sample_tca_port (some { guid := 2, port := 1 })))]
      [({ guid := 2, port := 1 }, sample_hca_port (some { guid := 1, port := 1 }))]).portmap =
      [({ guid := 1, port := 1 }, some (sample_tca_port (some { guid := 2, port := 1 })))] :=
  ⟨rfl, rfl, rfl⟩

theorem fabric_inv_empty : fabric_inv fabric_t.empty := by
  refine ⟨?_, ?_⟩
  · intro g e h
    cases h
  · intro k p h
    cases h

theorem cabled_inv (f : fabric_t) (h : cabled f) : fabric_inv f := by
  induction h with
  | empty => exact fabric_inv_empty
  | add_cable f p1 p2 _ ih => exact add_cable_inv f p1 p2 ih
  | add_cables f pending peers _ ih => exact add_cables_inv f pending peers ih

/-- C20: in every fabric that calls of `add_cable` and `add_cables` build from the empty
fabric, whether the calls return or end in an assertion, the flat port index holds the port
`p` under the key `(g, n)` exactly when the device with guid `g` exists and holds `p` under
port number `n`; such a port carries the guid `g` and the port number `n`. -/
theorem flat_index_agrees (f : fabric_t) (h : cabled f) (g n : Nat) (p : port_t) :
    (pm_find f.portmap { guid := g, port := n } = some p ↔
      ∃ e, map_find f.entities g = some e ∧ map_find e.ports n = some p) ∧
    (pm_find f.portmap { guid := g, port := n } = some p → p.guid = g ∧ p.port = n) := by
  have hinv := cabled_inv f h
  have hback : (∃ e, map_find f.entities g = some e ∧ map_find e.ports n = some p) →
      pm_find f.portmap { guid := g, port := n } = some p := by
    rintro ⟨e, he, hep⟩
    exact ((hinv.1 g e he).2.2.2 n p hep).2
  refine ⟨⟨fun hp => hinv.2 _ p hp, hback⟩, ?_⟩
  intro hp
  obtain ⟨e, he, hep⟩ := hinv.2 _ p hp
  obtain ⟨_, _, h3, h4⟩ := hinv.1 g e he
  exact ⟨(h3 (n, p) (map_find_mem _ _ _ hep)).1, (h4 n p hep).1⟩

theorem updated_frame (f : fabric_t) (p : port_t) (e0 x : entity_t)
    (es2 : List (Nat × entity_t)) (hloc : located f p e0)
    (hx : x = e0 ∨ x = { e0 with ports := map_insert e0.ports p.port p })
    (hupd : entities_updated f.entities es2 p.guid x) :
    (∀ g e, map_find f.entities g = some e →
      ∃ e2, map_find es2 g = some e2 ∧ e2.guid = e.guid ∧ e2.type = e.type ∧
        e2.routes = e.routes ∧ e2.uft = e.uft ∧
        (∀ n q, map_find e.ports n = some q → map_find e2.ports n = some q) ∧
        (g ≠ p.guid → e2 = e)) ∧
    (∀ g e2, map_find f.entities g = none → map_find es2 g = some e2 →
      g = p.guid ∧ e2.type = p.type ∧ e2.type ≠ type_t.UNKNOWN) := by
  refine ⟨?_, ?_⟩
  · intro g e he
    rw [hupd g]
    by_cases hg : p.guid = g
    · simp only [hg, if_true]
      rcases hloc with ⟨hfind, _⟩ | ⟨hnone, _, _, _⟩
      · rw [hg, he] at hfind
        simp only [Option.some.injEq] at hfind
        subst hfind
        rcases hx with hx | hx
        · subst hx
          exact ⟨_, rfl, rfl, rfl, rfl, rfl, fun _ _ h => h, fun _ => rfl⟩
        · subst hx
          refine ⟨_, rfl, rfl, rfl, rfl, rfl, ?_, fun h => absurd rfl h⟩
          intro n q hq
          show map_find (map_insert e.ports p.port p) n = some q
          rw [map_find_insert, hq]
      · rw [hg, he] at hnone
        cases hnone
    · simp only [hg, if_false]
      exact ⟨e, he, rfl, rfl, rfl, rfl, fun _ _ h => h, fun _ => rfl⟩
  · intro g e2 hnone he2
    rw [hupd g] at he2
    by_cases hg : p.guid = g
    · simp only [hg, if_true, Option.some.injEq] at he2
      rcases hloc with ⟨hfind, _⟩ | ⟨_, he0, _, ht⟩
      · rw [hg, hnone] at hfind
        cases hfind
      · subst he0
        rcases hx with hx | hx
        · subst hx
          subst he2
          exact ⟨hg.symm, rfl, ht⟩
        · subst hx
          subst he2
          exact ⟨hg.symm, rfl, ht⟩
    · simp only [hg, if_false] at he2
      rw [hnone] at he2
      cases he2

theorem attach_port_frame (f f2 : fabric_t) (p : port_t) (r : Except error_t Bool)
    (h : f.attach_port p = (f2, r)) :
    f2.lmc = f.lmc ∧ f2.lidmap = f.lidmap ∧
    (r = Except.ok true ∨ ∃ err, r = Except.error err) ∧
    (∀ k q, pm_find f.portmap k = some q → pm_find f2.portmap k = some q) ∧
    (∀ k q, pm_find f2.portmap k = some q →
      pm_find f.portmap k = some q ∨ (k = p.key ∧ q = p ∧ r = Except.ok true)) ∧
    (∀ g e, map_find f.entities g = some e →
      ∃ e2, map_find f2.entities g = some e2 ∧ e2.guid = e.guid ∧ e2.type = e.type ∧
        e2.routes = e.routes ∧ e2.uft = e.uft ∧
        (∀ n q, map_find e.ports n = some q → map_find e2.ports n = some q) ∧
        (g ≠ p.guid → e2 = e)) ∧
    (∀ g e2, map_find f.entities g = none → map_find f2.entities g = some e2 →
      g = p.guid ∧ e2.type = p.type ∧ e2.type ≠ type_t.UNKNOWN) := by
  obtain ⟨f3, r3, hrun, hlmc, hlid, hcase⟩ := attach_port_cases f p
  rw [h] at hrun
  simp only [Prod.mk.injEq] at hrun
  obtain ⟨hf, hr⟩ := hrun
  subst hf
  subst hr
  refine ⟨hlmc, hlid, ?_⟩
  rcases hcase with ⟨h1, err, herr, _⟩ | ⟨e0, hloc, hpm, _, hr, hupd⟩ |
    ⟨e0, hloc, hpm, _, hupd, hbad⟩ | ⟨e0, hloc, _, _, hnone, hr, hpm, hupd⟩
  · subst h1
    refine ⟨Or.inr ⟨err, herr⟩, fun _ _ hq => hq, fun _ _ hq => Or.inl hq, ?_, ?_⟩
    · intro g e he
      exact ⟨e, he, rfl, rfl, rfl, rfl, fun _ _ hq => hq, fun _ => rfl⟩
    · intro g e2 hn he2
      rw [hn] at he2
      cases he2
  · obtain ⟨h1, h2⟩ := updated_frame f p e0 e0 f2.entities hloc (Or.inl rfl) hupd
    rw [hpm]
    exact ⟨Or.inr ⟨_, hr⟩, fun _ _ hq => hq, fun _ _ hq => Or.inl hq, h1, h2⟩
  · obtain ⟨h1, h2⟩ := updated_frame f p e0 _ f2.entities hloc (Or.inr rfl) hupd
    rw [hpm]
    refine ⟨?_, fun _ _ hq => hq, fun _ _ hq => Or.inl hq, h1, h2⟩
    rcases hbad with ⟨err, _, hr⟩ | ⟨_, _, hr⟩
    · exact Or.inr ⟨err, hr⟩
    · exact Or.inr ⟨_, hr⟩
  · obtain ⟨h1, h2⟩ := updated_frame f p e0 _ f2.entities hloc (Or.inr rfl) hupd
    rw [hpm]
    refine ⟨Or.inl hr, ?_, ?_, h1, h2⟩
    · intro k q hq
      rw [pm_find_insert, hq]
    · intro k q hq
      rw [pm_find_insert] at hq
      cases hold : pm_find f.portmap k with
      | some w =>
        simp only [hold, Option.some.injEq] at hq
        exact Or.inl (by rw [hq])
      | none =>
        simp only [hold] at hq
        by_cases hk : p.key = k
        · simp only [hk, if_true, Option.some.injEq] at hq
          exact Or.inr ⟨hk.symm, hq.symm, hr⟩
        · simp [hk] at hq

theorem attach_port_ok (f f2 : fabric_t) (p : port_t)
    (h : f.attach_port p = (f2, Except.ok true)) :
    pm_find f.portmap p.key = none ∧ pm_find f2.portmap p.key = some p ∧
    (∃ e0, located f p e0) ∧
    ∃ e2, map_find f2.entities p.guid = some e2 ∧ map_find e2.ports p.port = some p ∧
      e2.type = p.type := by
  obtain ⟨f3, r3, hrun, _, _, hcase⟩ := attach_port_cases f p
  rw [h] at hrun
  simp only [Prod.mk.injEq] at hrun
  obtain ⟨hf, hr⟩ := hrun
  subst hf
  subst hr
  rcases hcase with ⟨_, err, herr, _⟩ | ⟨e0, _, _, _, hr, _⟩ |
    ⟨e0, _, _, _, _, hbad⟩ | ⟨e0, hloc, hdup, _, hnone, _, hpm, hupd⟩
  · cases herr
  · cases hr
  · rcases hbad with ⟨err, _, hr⟩ | ⟨_, _, hr⟩ <;> cases hr
  · refine ⟨hnone, ?_, ⟨e0, hloc⟩, ?_⟩
    · rw [hpm, pm_find_insert, hnone]
      simp
    · refine ⟨{ e0 with ports := map_insert e0.ports p.port p }, ?_, ?_, ?_⟩
      · rw [hupd p.guid]
        simp
      · show map_find (map_insert e0.ports p.port p) p.port = some p
        rw [map_find_insert, hdup]
        simp
      · rcases hloc with ⟨_, hty⟩ | ⟨_, he0, _, _⟩
        · exact hty
        · subst he0
          rfl

theorem add_cable_ok (f f2 : fabric_t) (p1 : port_t) (p2 : Option port_t)
    (h : f.add_cable p1 p2 = (f2, Except.ok true)) :
    add_cable_check f p1 p2 = Except.ok () ∧ pm_find f.portmap p1.key = none ∧
    ∃ f1, f.attach_port p1 = (f1, Except.ok true) ∧
      ((p2 = none ∧ f2 = f1) ∨ ∃ q, p2 = some q ∧ f1.attach_port q = (f2, Except.ok true)) := by
  unfold fabric_t.add_cable at h
  cases hc : add_cable_check f p1 p2 with
  | error err => simp [hc] at h
  | ok u =>
    simp only [hc] at h
    cases hk : pm_find f.portmap p1.key with
    | some w => simp [hk] at h
    | none =>
      simp only [hk, Option.isSome_none, Bool.false_eq_true, if_false] at h
      refine ⟨rfl, rfl, ?_⟩
      rcases h1 : f.attach_port p1 with ⟨f1, r1⟩
      rw [h1] at h
      cases r1 with
      | error err => simp at h
      | ok b =>
        cases b with
        | false => simp at h
        | true =>
          simp only at h
          refine ⟨f1, rfl, ?_⟩
          cases p2 with
          | none =>
            simp only [Prod.mk.injEq, and_true] at h
            exact Or.inl ⟨rfl, h.symm⟩
          | some q => exact Or.inr ⟨q, rfl, h⟩

theorem add_cable_ok_frame (f f2 : fabric_t) (port1 : port_t) (port2 : Option port_t)
    (h : f.add_cable port1 port2 = (f2, Except.ok true)) :
    pm_find f2.portmap port1.key = some port1 ∧
    (∀ q, port2 = some q → pm_find f2.portmap q.key = some q) ∧
    (∃ e, map_find f2.entities port1.guid = some e ∧ map_find e.ports port1.port = some port1) ∧
    (∀ q, port2 = some q →
      ∃ e, map_find f2.entities q.guid = some e ∧ map_find e.ports q.port = some q) ∧
    (∀ g e, map_find f.entities g = none → map_find f2.entities g = some e →
      (g = port1.guid ∧ e.type = port1.type) ∨
        ∃ q, port2 = some q ∧ g = q.guid ∧ e.type = q.type) ∧
    (∀ k p, pm_find f.portmap k = some p → pm_find f2.portmap k = some p) ∧
    (∀ k p, pm_find f2.portmap k = some p →
      pm_find f.portmap k = some p ∨ (k = port1.key ∧ p = port1) ∨
        ∃ q, port2 = some q ∧ k = q.key ∧ p = q) ∧
    (∀ g e, map_find f.entities g = some e →
      ∃ e2, map_find f2.entities g = some e2 ∧ e2.guid = e.guid ∧ e2.type = e.type ∧
        e2.routes = e.routes ∧ e2.uft = e.uft ∧
        (∀ n p, map_find e.ports n = some p → map_find e2.ports n = some p) ∧
        (g ≠ port1.guid → (∀ q, port2 = some q → g ≠ q.guid) → e2 = e)) ∧
    f2.lmc = f.lmc ∧ f2.lidmap = f.lidmap := by
  obtain ⟨_, _, f1, h1, hrest⟩ := add_cable_ok f f2 port1 port2 h
  obtain ⟨a1, a2, _, a4, a5, a6, a7⟩ := attach_port_frame f f1 port1 _ h1
  obtain ⟨_, b2, _, e1, b3, b4, _⟩ := attach_port_ok f f1 port1 h1
  rcases hrest with ⟨hp2, hf⟩ | ⟨q, hp2, h2⟩
  · subst hp2
    subst hf
    refine ⟨b2, (fun q hq => by cases hq), ⟨e1, b3, b4⟩, (fun q hq => by cases hq), ?_, a4, ?_, ?_,
      a1, a2⟩
    · intro g e hn he
      exact Or.inl ⟨(a7 g e hn he).1, (a7 g e hn he).2.1⟩
    · intro k p hp
      rcases a5 k p hp with h3 | ⟨h3, h4, _⟩
      · exact Or.inl h3
      · exact Or.inr (Or.inl ⟨h3, h4⟩)
    · intro g e he
      obtain ⟨e2, c1, c2, c3, c4, c5, c6, c7⟩ := a6 g e he
      exact ⟨e2, c1, c2, c3, c4, c5, c6, fun hg _ => c7 hg⟩
  · subst hp2
    obtain ⟨d1, d2, _, d4, d5, d6, d7⟩ := attach_port_frame f1 f2 q _ h2
    obtain ⟨_, g2, _, e2, g3, g4, _⟩ := attach_port_ok f1 f2 q h2
    refine ⟨d4 _ _ b2, ?_, ?_, ?_, ?_, fun k p hp => d4 k p (a4 k p hp), ?_, ?_,
      d1.trans a1, d2.trans a2⟩
    · intro q2 hq2
      cases hq2
      exact g2
    · obtain ⟨e3, c1, _, _, _, _, c6, _⟩ := d6 port1.guid e1 b3
      exact ⟨e3, c1, c6 _ _ b4⟩
    · intro q2 hq2
      cases hq2
      exact ⟨e2, g3, g4⟩
    · intro g e hn he
      cases hmid : map_find f1.entities g with
      | none =>
        obtain ⟨c1, c2, _⟩ := d7 g e hmid he
        exact Or.inr ⟨q, rfl, c1, c2⟩
      | some em =>
        obtain ⟨c1, c2, _⟩ := a7 g em hn hmid
        obtain ⟨e3, c4, _, c5, _⟩ := d6 g em hmid
        rw [he] at c4
        cases c4
        exact Or.inl ⟨c1, c5.trans c2⟩
    · intro k p hp
      rcases d5 k p hp with h3 | ⟨h3, h4, _⟩
      · rcases a5 k p h3 with h5 | ⟨h5, h6, _⟩
        · exact Or.inl h5
        · exact Or.inr (Or.inl ⟨h5, h6⟩)
      · exact Or.inr (Or.inr ⟨q, rfl, h3, h4⟩)
    · intro g e he
      obtain ⟨em, c1, c2, c3, c4, c5, c6, c7⟩ := a6 g e he
      obtain ⟨e3, k1, k2, k3, k4, k5, k6, k7⟩ := d6 g em c1
      refine ⟨e3, k1, k2.trans c2, k3.trans c3, k4.trans c4, k5.trans c5,
        fun n p hp => k6 n p (c6 n p hp), ?_⟩
      intro hg1 hg2
      rw [k7 (hg2 q rfl), c7 hg1]

theorem add_cable_check_ok_iff (f : fabric_t) (p1 : port_t) (p2 : Option port_t) :
    add_cable_check f p1 p2 = Except.ok () ↔
      p1.guid ≠ 0 ∧ p1.port ≠ 0 ∧
      ∀ q, p2 = some q →
        p1.connection = some q.key ∧ q.connection = some p1.key ∧ q.guid ≠ 0 ∧ q.port ≠ 0 ∧
        ¬ (p1.guid = q.guid ∧ p1.port = q.port) ∧
        (pm_find f.portmap q.key).isSome = (pm_find f.portmap p1.key).isSome := by
  unfold add_cable_check
  by_cases h1 : p1.guid = 0
  · simp [h1]
  by_cases h2 : p1.port = 0
  · simp [h1, h2]
  simp only [h1, h2, if_false, ne_eq, not_false_eq_true, true_and]
  cases p2 with
  | none => simp
  | some q =>
    simp only [Option.some.injEq, forall_eq']
    by_cases h3 : p1.connection = some q.key
    · by_cases h4 : q.connection = some p1.key
      · by_cases h5 : q.guid = 0
        · simp [h3, h4, h5]
        · by_cases h6 : q.port = 0
          · simp [h3, h4, h5, h6]
          · by_cases h7 : p1.guid = q.guid ∧ p1.port = q.port
            · simp [h3, h4, h5, h6, h7]
            · by_cases h8 : (pm_find f.portmap q.key).isSome = (pm_find f.portmap p1.key).isSome
              · simp only [h3, h4, h5, h6, h7, h8, not_true_eq_false, if_false,
                  not_false_eq_true, and_self]
              · simp only [h3, h4, h5, h6, h7, h8, not_true_eq_false, if_false,
                  not_false_eq_true, if_true, and_false, reduceCtorEq]
      · simp [h3, h4]
    · simp [h3]

theorem add_cable_check_error (f : fabric_t) (p1 : port_t) (p2 : Option port_t)
    (h : add_cable_check f p1 p2 ≠ Except.ok ()) :
    ∃ err, add_cable_check f p1 p2 = Except.error err := by
  cases hc : add_cable_check f p1 p2 with
  | error err => exact ⟨err, rfl⟩
  | ok u => exact absurd hc h

theorem add_cable_of_check_error (f : fabric_t) (p1 : port_t) (p2 : Option port_t)
    (err : error_t) (h : add_cable_check f p1 p2 = Except.error err) :
    f.add_cable p1 p2 = (f, Except.error err) := by
  unfold fabric_t.add_cable
  simp only [h]

theorem add_cable_of_known (f : fabric_t) (p1 : port_t) (p2 : Option port_t)
    (hc : add_cable_check f p1 p2 = Except.ok ())
    (hk : (pm_find f.portmap p1.key).isSome = true) :
    f.add_cable p1 p2 = (f, Except.error error_t.AlreadyKnown) := by
  unfold fabric_t.add_cable
  simp only [hc, hk, if_true]

/-- C16: with both ports given, `add_cable` ends in an assertion and leaves the fabric as it
was when the two ports have the same guid and the same port number, and when a peer link
disagrees (`port1.connection` is not the key of `port2`, or `port2.connection` is not the key
of `port1`; the assertion is `PeerMismatch` when the guid and port number of `port1` are not
zero); a loopback cable between two different port numbers of one device, with non-zero guid
and port numbers, peer links set to each other and both ports known or both unknown, passes
every assertion of the validation. -/
theorem add_cable_validation (f : fabric_t) (port1 port2 : port_t) :
    (port1.guid = port2.guid ∧ port1.port = port2.port →
      ∃ err, f.add_cable port1 (some port2) = (f, Except.error err)) ∧
    (port1.connection ≠ some port2.key ∨ port2.connection ≠ some port1.key →
      (∃ err, f.add_cable port1 (some port2) = (f, Except.error err)) ∧
      (port1.guid ≠ 0 → port1.port ≠ 0 →
        f.add_cable port1 (some port2) = (f, Except.error error_t.PeerMismatch))) ∧
    (port1.guid = port2.guid → port1.port ≠ port2.port → port1.guid ≠ 0 → port1.port ≠ 0 →
      port2.port ≠ 0 → port1.connection = some port2.key →
      port2.connection = some port1.key →
      (pm_find f.portmap port2.key).isSome = (pm_find f.portmap port1.key).isSome →
      add_cable_check f port1 (some port2) = Except.ok ()) := by
  refine ⟨?_, ?_, ?_⟩
  · intro hsame
    have hne : add_cable_check f port1 (some port2) ≠ Except.ok () := by
      intro hc
      have := ((add_cable_check_ok_iff f port1 (some port2)).mp hc).2.2 port2 rfl
      exact this.2.2.2.2.1 hsame
    obtain ⟨err, herr⟩ := add_cable_check_error f port1 (some port2) hne
    exact ⟨err, add_cable_of_check_error f port1 (some port2) err herr⟩
  · intro hdis
    have hne : add_cable_check f port1 (some port2) ≠ Except.ok () := by
      intro hc
      have := ((add_cable_check_ok_iff f port1 (some port2)).mp hc).2.2 port2 rfl
      rcases hdis with h | h
      · exact h this.1
      · exact h this.2.1
    obtain ⟨err, herr⟩ := add_cable_check_error f port1 (some port2) hne
    refine ⟨⟨err, add_cable_of_check_error f port1 (some port2) err herr⟩, ?_⟩
    intro hg hp
    apply add_cable_of_check_error
    unfold add_cable_check
    simp only [hg, hp, if_false]
    rcases hdis with h | h
    · simp [h]
    · by_cases h3 : port1.connection = some port2.key
      · simp [h3, h]
      · simp [h3]
  · intro hg hp h1 h2 h3 h4 h5 h6
    apply (add_cable_check_ok_iff f port1 (some port2)).mpr
    refine ⟨h1, h2, ?_⟩
    intro q hq
    cases hq
    exact ⟨h4, h5, by rw [← hg]; exact h1, h3, fun hc => hp hc.2, h6⟩

/-- C15: when the key of `port1` is in the flat port index, `add_cable` ends in an assertion
and leaves the fabric (devices, their port maps, the flat index) as it was; the assertion is
`AlreadyKnown` when the cable passes the validation that comes first.  In particular, after a
call that returned true, the same call again ends in `AlreadyKnown` and leaves the fabric the
first call built. -/
theorem add_cable_already_known (f : fabric_t) (port1 : port_t) (port2 : Option port_t)
    (hk : (pm_find f.portmap port1.key).isSome = true) :
    (∃ err, f.add_cable port1 port2 = (f, Except.error err)) ∧
    (add_cable_check f port1 port2 = Except.ok () →
      f.add_cable port1 port2 = (f, Except.error error_t.AlreadyKnown)) ∧
    (∀ f0 : fabric_t, f0.add_cable port1 port2 = (f, Except.ok true) →
      f.add_cable port1 port2 = (f, Except.error error_t.AlreadyKnown)) := by
  refine ⟨?_, fun hc => add_cable_of_known f port1 port2 hc hk, ?_⟩
  · cases hc : add_cable_check f port1 port2 with
    | error err => exact ⟨err, add_cable_of_check_error f port1 port2 err hc⟩
    | ok u => exact ⟨_, add_cable_of_known f port1 port2 hc hk⟩
  · intro f0 h0
    obtain ⟨hc0, _, _⟩ := add_cable_ok f0 f port1 port2 h0
    obtain ⟨s1, s2, _⟩ := add_cable_ok_frame f0 f port1 port2 h0
    have hc : add_cable_check f port1 port2 = Except.ok () := by
      obtain ⟨c1, c2, c3⟩ := (add_cable_check_ok_iff f0 port1 port2).mp hc0
      apply (add_cable_check_ok_iff f port1 port2).mpr
      refine ⟨c1, c2, ?_⟩
      intro q hq
      obtain ⟨d1, d2, d3, d4, d5, _⟩ := c3 q hq
      refine ⟨d1, d2, d3, d4, d5, ?_⟩
      rw [s1, s2 q hq]
      rfl
    exact add_cable_of_known f port1 port2 hc hk

theorem updated_ports_back (f : fabric_t) (p : port_t) (e0 x : entity_t)
    (es2 : List (Nat × entity_t)) (hloc : located f p e0)
    (hx : x = e0 ∨ x = { e0 with ports := map_insert e0.ports p.port p })
    (hupd : entities_updated f.entities es2 p.guid x) :
    (∀ g e e2, map_find f.entities g = some e → map_find es2 g = some e2 →
      ∀ n q, map_find e2.ports n = some q →
        map_find e.ports n = some q ∨ (g = p.guid ∧ n = p.port ∧ q = p)) ∧
    (∀ g e2, map_find f.entities g = none → map_find es2 g = some e2 →
      ∀ n q, map_find e2.ports n = some q → g = p.guid ∧ n = p.port ∧ q = p) := by
  have hins : ∀ (m : List (Nat × port_t)) n q,
      map_find (map_insert m p.port p) n = some q →
        map_find m n = some q ∨ (n = p.port ∧ q = p) := by
    intro m n q hq
    rw [map_find_insert] at hq
    cases hold : map_find m n with
    | some w =>
      simp only [hold, Option.some.injEq] at hq
      exact Or.inl (by rw [hq])
    | none =>
      simp only [hold] at hq
      by_cases hk : p.port = n
      · simp only [hk, if_true, Option.some.injEq] at hq
        exact Or.inr ⟨hk.symm, hq.symm⟩
      · simp [hk] at hq
  refine ⟨?_, ?_⟩
  · intro g e e2 he he2 n q hq
    rw [hupd g] at he2
    by_cases hg : p.guid = g
    · simp only [hg, if_true, Option.some.injEq] at he2
      rcases hloc with ⟨hfind, _⟩ | ⟨hnone, _, _, _⟩
      · rw [hg, he] at hfind
        simp only [Option.some.injEq] at hfind
        subst hfind
        rcases hx with hx | hx
        · subst hx
          subst he2
          exact Or.inl hq
        · subst hx
          subst he2
          rcases hins e.ports n q hq with h1 | ⟨h1, h2⟩
          · exact Or.inl h1
          · exact Or.inr ⟨hg.symm, h1, h2⟩
      · rw [hg, he] at hnone
        cases hnone
    · simp only [hg, if_false] at he2
      rw [he] at he2
      cases he2
      exact Or.inl hq
  · intro g e2 hnone he2 n q hq
    rw [hupd g] at he2
    by_cases hg : p.guid = g
    · simp only [hg, if_true, Option.some.injEq] at he2
      rcases hloc with ⟨hfind, _⟩ | ⟨_, he0, _, _⟩
      · rw [hg, hnone] at hfind
        cases hfind
      · subst he0
        rcases hx with hx | hx
        · subst hx
          subst he2
          cases hq
        · subst hx
          subst he2
          rcases hins (entity_t.new p.guid p.type).ports n q hq with h1 | ⟨h1, h2⟩
          · cases h1
          · exact ⟨hg.symm, h1, h2⟩
    · simp only [hg, if_false] at he2
      rw [hnone] at he2
      cases he2

theorem attach_port_ports_back (f f2 : fabric_t) (p : port_t) (r : Except error_t Bool)
    (h : f.attach_port p = (f2, r)) :
    (∀ g e e2, map_find f.entities g = some e → map_find f2.entities g = some e2 →
      ∀ n q, map_find e2.ports n = some q →
        map_find e.ports n = some q ∨ (g = p.guid ∧ n = p.port ∧ q = p)) ∧
    (∀ g e2, map_find f.entities g = none → map_find f2.entities g = some e2 →
      ∀ n q, map_find e2.ports n = some q → g = p.guid ∧ n = p.port ∧ q = p) := by
  obtain ⟨f3, r3, hrun, _, _, hcase⟩ := attach_port_cases f p
  rw [h] at hrun
  simp only [Prod.mk.injEq] at hrun
  obtain ⟨hf, hr⟩ := hrun
  subst hf
  subst hr
  rcases hcase with ⟨h1, _⟩ | ⟨e0, hloc, _, _, _, hupd⟩ |
    ⟨e0, hloc, _, _, hupd, _⟩ | ⟨e0, hloc, _, _, _, _, _, hupd⟩
  · subst h1
    refine ⟨?_, ?_⟩
    · intro g e e2 he he2 n q hq
      rw [he] at he2
      cases he2
      exact Or.inl hq
    · intro g e2 hn he2
      rw [hn] at he2
      cases he2
  · exact updated_ports_back f p e0 e0 f2.entities hloc (Or.inl rfl) hupd
  · exact updated_ports_back f p e0 _ f2.entities hloc (Or.inr rfl) hupd
  · exact updated_ports_back f p e0 _ f2.entities hloc (Or.inr rfl) hupd

theorem add_cable_ports_back (f f2 : fabric_t) (port1 : port_t) (port2 : Option port_t)
    (h : f.add_cable port1 port2 = (f2, Except.ok true)) :
    (∀ g e e2, map_find f.entities g = some e → map_find f2.entities g = some e2 →
      ∀ n p, map_find e2.ports n = some p →
        map_find e.ports n = some p ∨ (g = port1.guid ∧ n = port1.port ∧ p = port1) ∨
          ∃ q, port2 = some q ∧ g = q.guid ∧ n = q.port ∧ p = q) ∧
    (∀ g e2, map_find f.entities g = none → map_find f2.entities g = some e2 →
      ∀ n p, map_find e2.ports n = some p →
        (g = port1.guid ∧ n = port1.port ∧ p = port1) ∨
          ∃ q, port2 = some q ∧ g = q.guid ∧ n = q.port ∧ p = q) := by
  obtain ⟨_, _, f1, h1, hrest⟩ := add_cable_ok f f2 port1 port2 h
  obtain ⟨a1, a2⟩ := attach_port_ports_back f f1 port1 _ h1
  rcases hrest with ⟨hp2, hf⟩ | ⟨q, hp2, h2⟩
  · subst hp2
    subst hf
    refine ⟨?_, ?_⟩
    · intro g e e2 he he2 n p hp
      rcases a1 g e e2 he he2 n p hp with h3 | h3
      · exact Or.inl h3
      · exact Or.inr (Or.inl h3)
    · intro g e2 hn he2 n p hp
      exact Or.inl (a2 g e2 hn he2 n p hp)
  · subst hp2
    obtain ⟨d1, d2⟩ := attach_port_ports_back f1 f2 q _ h2
    obtain ⟨_, _, _, _, _, a6, _⟩ := attach_port_frame f f1 port1 _ h1
    refine ⟨?_, ?_⟩
    · intro g e e2 he he2 n p hp
      obtain ⟨em, c1, _⟩ := a6 g e he
      rcases d1 g em e2 c1 he2 n p hp with h3 | h3
      · rcases a1 g e em he c1 n p h3 with h4 | h4
        · exact Or.inl h4
        · exact Or.inr (Or.inl h4)
      · exact Or.inr (Or.inr ⟨q, rfl, h3⟩)
    · intro g e2 hn he2 n p hp
      cases hmid : map_find f1.entities g with
      | none => exact Or.inr ⟨q, rfl, d2 g e2 hmid he2 n p hp⟩
      | some em =>
        rcases d1 g em e2 hmid he2 n p hp with h3 | h3
        · exact Or.inl (a2 g em hn hmid n p h3)
        · exact Or.inr ⟨q, rfl, h3⟩

/-- C14: when `add_cable(port1, port2)` returns true, the flat port index holds `port1` under
its key (and `port2` under its key when it is given), each of them is in the port map of the
device with its guid under its port number, a device that the call created has the class of
the port of the call that carries its guid, and what existed before is kept: every entry of
the flat index, and for every device its guid, class, routes, forwarding table and the ports
it held (a device of another guid is unchanged as a whole); the index gains no other key,
`lmc` and the lid map are unchanged, and the port map of a device, kept or created, gains
no port other than the ports of the call. -/
theorem add_cable_success (f f2 : fabric_t) (port1 : port_t) (port2 : Option port_t)
    (h : f.add_cable port1 port2 = (f2, Except.ok true)) :
    (pm_find f2.portmap port1.key = some port1 ∧
    (∀ q, port2 = some q → pm_find f2.portmap q.key = some q) ∧
    (∃ e, map_find f2.entities port1.guid = some e ∧ map_find e.ports port1.port = some port1) ∧
    (∀ q, port2 = some q →
      ∃ e, map_find f2.entities q.guid = some e ∧ map_find e.ports q.port = some q) ∧
    (∀ g e, map_find f.entities g = none → map_find f2.entities g = some e →
      (g = port1.guid ∧ e.type = port1.type) ∨
        ∃ q, port2 = some q ∧ g = q.guid ∧ e.type = q.type) ∧
    (∀ k p, pm_find f.portmap k = some p → pm_find f2.portmap k = some p) ∧
    (∀ k p, pm_find f2.portmap k = some p →
      pm_find f.portmap k = some p ∨ (k = port1.key ∧ p = port1) ∨
        ∃ q, port2 = some q ∧ k = q.key ∧ p = q) ∧
    (∀ g e, map_find f.entities g = some e →
      ∃ e2, map_find f2.entities g = some e2 ∧ e2.guid = e.guid ∧ e2.type = e.type ∧
        e2.routes = e.routes ∧ e2.uft = e.uft ∧
        (∀ n p, map_find e.ports n = some p → map_find e2.ports n = some p) ∧
        (g ≠ port1.guid → (∀ q, port2 = some q → g ≠ q.guid) → e2 = e)) ∧
    f2.lmc = f.lmc ∧ f2.lidmap = f.lidmap) ∧
    (∀ g e e2, map_find f.entities g = some e → map_find f2.entities g = some e2 →
      ∀ n p, map_find e2.ports n = some p →
        map_find e.ports n = some p ∨ (g = port1.guid ∧ n = port1.port ∧ p = port1) ∨
          ∃ q, port2 = some q ∧ g = q.guid ∧ n = q.port ∧ p = q) ∧
    (∀ g e2, map_find f.entities g = none → map_find f2.entities g = some e2 →
      ∀ n p, map_find e2.ports n = some p →
        (g = port1.guid ∧ n = port1.port ∧ p = port1) ∨
          ∃ q, port2 = some q ∧ g = q.guid ∧ n = q.port ∧ p = q) :=
  ⟨add_cable_ok_frame f f2 port1 port2 h, add_cable_ports_back f f2 port1 port2 h⟩

theorem sanity_ok_of_inv (f : fabric_t) (p : port_t) (e0 : entity_t) (hinv : fabric_inv f)
    (hloc : located f p e0) :
    sanity_check e0.guid e0.type (map_insert e0.ports p.port p) = Except.ok () := by
  obtain ⟨hg, hty, _, hports, _⟩ := located_facts f p e0 hinv hloc
  apply sanity_check_ok
  intro x hx
  rcases mem_map_insert _ _ _ _ hx with e | hx
  · subst e
    exact ⟨hg.symm, hty.symm⟩
  · rw [hg]
    exact hports x hx

theorem attach_port_succeeds (f : fabric_t) (p : port_t) (hinv : fabric_inv f)
    (hg : p.guid ≠ 0) (hu : pm_find f.portmap p.key = none)
    (hc : ∀ e, map_find f.entities p.guid = some e → e.type = p.type)
    (hn : map_find f.entities p.guid = none → p.type ≠ type_t.UNKNOWN) :
    ∃ f2, f.attach_port p = (f2, Except.ok true) := by
  obtain ⟨f2, r, hrun, _, _, hcase⟩ := attach_port_cases f p
  rcases hcase with ⟨_, err, _, hwhy⟩ | ⟨e0, hloc, _, hdup, _, _⟩ |
    ⟨e0, hloc, _, _, _, hbad⟩ | ⟨e0, _, _, _, _, hr, _, _⟩
  · exfalso
    rcases hwhy with ⟨h1, h2 | h2⟩ | ⟨e, h1, h2, _⟩
    · exact hg h2
    · exact hn h1 h2
    · exact h2 (hc e h1)
  · exfalso
    rcases hloc with ⟨hfind, _⟩ | ⟨_, he0, _, _⟩
    · cases hq : map_find e0.ports p.port with
      | none => simp [hq] at hdup
      | some q =>
        have := ((hinv.1 p.guid e0 hfind).2.2.2 p.port q hq).2
        have hu2 : pm_find f.portmap { guid := p.guid, port := p.port } = none := hu
        rw [hu2] at this
        cases this
    · subst he0
      simp [entity_t.new, map_find] at hdup
  · exfalso
    have hok := sanity_ok_of_inv f p e0 hinv hloc
    rcases hbad with ⟨err, herr, _⟩ | ⟨_, hknown, _⟩
    · rw [hok] at herr
      cases herr
    · rw [hu] at hknown
      cases hknown
  · subst hr
    exact ⟨f2, hrun⟩

theorem attach_port_mismatch (f : fabric_t) (p : port_t) (hg : p.guid ≠ 0)
    (h : (∃ e, map_find f.entities p.guid = some e ∧ e.type ≠ p.type) ∨
      (map_find f.entities p.guid = none ∧ p.type = type_t.UNKNOWN)) :
    f.attach_port p = (f, Except.error error_t.DeviceClassMismatch) := by
  unfold fabric_t.attach_port fabric_t.find_entity_create
  rcases h with ⟨e, h1, h2⟩ | ⟨h1, h2⟩
  · simp [h1, h2]
  · simp [h1, h2, hg]

theorem add_cable_frame (f f2 : fabric_t) (p1 : port_t) (p2 : Option port_t)
    (r : Except error_t Bool) (h : f.add_cable p1 p2 = (f2, r)) :
    (r = Except.ok true ∨ ∃ err, r = Except.error err) ∧
    f2.lmc = f.lmc ∧ f2.lidmap = f.lidmap ∧
    (∀ k q, pm_find f.portmap k = some q → pm_find f2.portmap k = some q) ∧
    (∀ g e, map_find f.entities g = some e →
      ∃ e2, map_find f2.entities g = some e2 ∧ e2.guid = e.guid ∧ e2.type = e.type ∧
        e2.routes = e.routes ∧ e2.uft = e.uft ∧
        (∀ n q, map_find e.ports n = some q → map_find e2.ports n = some q)) ∧
    (∀ g e2, map_find f.entities g = none → map_find f2.entities g = some e2 →
      e2.type ≠ type_t.UNKNOWN) := by
  have hid : (∀ k q, pm_find f.portmap k = some q → pm_find f.portmap k = some q) ∧
      (∀ g e, map_find f.entities g = some e →
        ∃ e2, map_find f.entities g = some e2 ∧ e2.guid = e.guid ∧ e2.type = e.type ∧
          e2.routes = e.routes ∧ e2.uft = e.uft ∧
          (∀ n q, map_find e.ports n = some q → map_find e2.ports n = some q)) ∧
      (∀ g e2, map_find f.entities g = none → map_find f.entities g = some e2 →
        e2.type ≠ type_t.UNKNOWN) :=
    ⟨fun _ _ hq => hq, fun g e he => ⟨e, he, rfl, rfl, rfl, rfl, fun _ _ hq => hq⟩,
      fun g e2 hn he => by rw [hn] at he; cases he⟩
  unfold fabric_t.add_cable at h
  cases hc : add_cable_check f p1 p2 with
  | error err =>
    simp only [hc, Prod.mk.injEq] at h
    obtain ⟨hf, hr⟩ := h
    subst hf
    subst hr
    exact ⟨Or.inr ⟨err, rfl⟩, rfl, rfl, hid⟩
  | ok u =>
    simp only [hc] at h
    by_cases hk : (pm_find f.portmap p1.key).isSome = true
    · simp only [hk, if_true, Prod.mk.injEq] at h
      obtain ⟨hf, hr⟩ := h
      subst hf
      subst hr
      exact ⟨Or.inr ⟨_, rfl⟩, rfl, rfl, hid⟩
    · simp only [hk, Bool.false_eq_true, if_false] at h
      rcases h1 : f.attach_port p1 with ⟨f1, r1⟩
      rw [h1] at h
      obtain ⟨a1, a2, a3, a4, _, a6, a7⟩ := attach_port_frame f f1 p1 r1 h1
      have hstep1 : (∀ k q, pm_find f.portmap k = some q → pm_find f1.portmap k = some q) ∧
          (∀ g e, map_find f.entities g = some e →
            ∃ e2, map_find f1.entities g = some e2 ∧ e2.guid = e.guid ∧ e2.type = e.type ∧
              e2.routes = e.routes ∧ e2.uft = e.uft ∧
              (∀ n q, map_find e.ports n = some q → map_find e2.ports n = some q)) ∧
          (∀ g e2, map_find f.entities g = none → map_find f1.entities g = some e2 →
            e2.type ≠ type_t.UNKNOWN) := by
        refine ⟨a4, ?_, fun g e2 hn he => (a7 g e2 hn he).2.2⟩
        intro g e he
        obtain ⟨e2, c1, c2, c3, c4, c5, c6, _⟩ := a6 g e he
        exact ⟨e2, c1, c2, c3, c4, c5, c6⟩
      rcases a3 with hr1 | ⟨err, hr1⟩
      · subst hr1
        simp only at h
        cases p2 with
        | none =>
          simp only [Prod.mk.injEq] at h
          obtain ⟨hf, hr⟩ := h
          subst hf
          subst hr
          exact ⟨Or.inl rfl, a1, a2, hstep1⟩
        | some q =>
          simp only at h
          obtain ⟨d1, d2, d3, d4, _, d6, d7⟩ := attach_port_frame f1 f2 q r h
          refine ⟨d3, d1.trans a1, d2.trans a2, fun k x hx => d4 k x (a4 k x hx), ?_, ?_⟩
          · intro g e he
            obtain ⟨em, c1, c2, c3, c4, c5, c6⟩ := hstep1.2.1 g e he
            obtain ⟨e3, k1, k2, k3, k4, k5, k6, _⟩ := d6 g em c1
            exact ⟨e3, k1, k2.trans c2, k3.trans c3, k4.trans c4, k5.trans c5,
              fun n x hx => k6 n x (c6 n x hx)⟩
          · intro g e2 hn he
            cases hmid : map_find f1.entities g with
            | none => exact (d7 g e2 hmid he).2.2
            | some em =>
              obtain ⟨e3, k1, _, k3, _⟩ := d6 g em hmid
              rw [he] at k1
              cases k1
              rw [k3]
              exact hstep1.2.2 g em hn hmid
      · subst hr1
        simp only [Prod.mk.injEq] at h
        obtain ⟨hf, hr⟩ := h
        subst hf
        subst hr
        exact ⟨Or.inr ⟨err, rfl⟩, a1, a2, hstep1⟩

theorem add_cable_ok_types (f f2 : fabric_t) (p1 : port_t) (p2 : Option port_t)
    (h : f.add_cable p1 p2 = (f2, Except.ok true)) :
    (∃ e, map_find f2.entities p1.guid = some e ∧ e.type = p1.type) ∧
    (∀ q, p2 = some q → ∃ e, map_find f2.entities q.guid = some e ∧ e.type = q.type) := by
  obtain ⟨_, _, f1, h1, hrest⟩ := add_cable_ok f f2 p1 p2 h
  obtain ⟨_, _, _, e1, b3, _, b5⟩ := attach_port_ok f f1 p1 h1
  rcases hrest with ⟨hp2, hf⟩ | ⟨q, hp2, h2⟩
  · subst hp2
    subst hf
    exact ⟨⟨e1, b3, b5⟩, fun q hq => by cases hq⟩
  · subst hp2
    obtain ⟨_, _, _, _, _, d6, _⟩ := attach_port_frame f1 f2 q _ h2
    obtain ⟨_, _, _, e2, g3, _, g5⟩ := attach_port_ok f1 f2 q h2
    obtain ⟨e3, c1, _, c3, _⟩ := d6 p1.guid e1 b3
    refine ⟨⟨e3, c1, c3.trans b5⟩, ?_⟩
    intro q2 hq2
    cases hq2
    exact ⟨e2, g3, g5⟩

theorem add_cable_success_witness :
    fabric_t.empty.add_cable (sample_hca_port (some { guid := 1, port := 1 }))
        (some (sample_tca_port (some { guid := 2, port := 1 }))) =
      (sample_pair_fabric, Except.ok true) ∧
    pm_find sample_pair_fabric.portmap (sample_hca_port (some { guid := 1, port := 1 })).key =
      some (sample_hca_port (some { guid := 1, port := 1 })) :=
  ⟨rfl, (add_cable_success fabric_t.empty sample_pair_fabric
    (sample_hca_port (some { guid := 1, port := 1 }))
    (some (sample_tca_port (some { guid := 2, port := 1 }))) rfl).1.1⟩

theorem add_cable_already_known_witness :
    sample_pair_fabric.add_cable (sample_hca_port (some { guid := 1, port := 1 }))
        (some (sample_tca_port (some { guid := 2, port := 1 }))) =
      (sample_pair_fabric, Except.error error_t.AlreadyKnown) :=
  (add_cable_already_known sample_pair_fabric (sample_hca_port (some { guid := 1, port := 1 }))
    (some (sample_tca_port (some { guid := 2, port := 1 }))) rfl).2.2 fabric_t.empty rfl

theorem add_cable_validation_witness :
    (∃ err, fabric_t.empty.add_cable (sample_tca_port (some { guid := 1, port := 1 }))
        (some (sample_tca_port (some { guid := 1, port := 1 }))) =
      (fabric_t.empty, Except.error err)) ∧
    fabric_t.empty.add_cable (sample_hca_port (some { guid := 9, port := 9 }))
        (some (sample_tca_port (some { guid := 2, port := 1 }))) =
      (fabric_t.empty, Except.error error_t.PeerMismatch) ∧
    add_cable_check fabric_t.empty (sample_port type_t.TCA 1 1 1 (some { guid := 1, port := 2 }))
        (some (sample_port type_t.TCA 1 2 1 (some { guid := 1, port := 1 }))) = Except.ok () ∧
    (fabric_t.empty.add_cable (sample_port type_t.TCA 1 1 1 (some { guid := 1, port := 2 }))
        (some (sample_port type_t.TCA 1 2 1 (some { guid := 1, port := 1 })))).2 =
      Except.ok true :=
  ⟨(add_cable_validation fabric_t.empty (sample_tca_port (some { guid := 1, port := 1 }))
      (sample_tca_port (some { guid := 1, port := 1 }))).1 ⟨rfl, rfl⟩,
    ((add_cable_validation fabric_t.empty (sample_hca_port (some { guid := 9, port := 9 }))
      (sample_tca_port (some { guid := 2, port := 1 }))).2.1 (Or.inl (by decide))).2
      (by decide) (by decide),
    (add_cable_validation fabric_t.empty
      (sample_port type_t.TCA 1 1 1 (some { guid := 1, port := 2 }))
      (sample_port type_t.TCA 1 2 1 (some { guid := 1, port := 1 }))).2.2 rfl (by decide)
      (by decide) (by decide) (by decide) rfl rfl rfl,
    rfl⟩

/-- C17 (counterexample): on the empty fabric, the cable between port 1 of the host adapter with
guid 2 and port 1 of the switch with guid 1, both with no peer link, ends in the assertion
`port1->connection == port2` and attaches nothing; the same two ports linked to each other
are attached. -/
theorem add_cable_unset_links_rejected :
    (sample_hca_port none).connection = none ∧ (sample_tca_port none).connection = none ∧
    fabric_t.empty.add_cable (sample_hca_port none) (some (sample_tca_port none)) =
      (fabric_t.empty, Except.error error_t.PeerMismatch) ∧
    (fabric_t.empty.add_cable (sample_hca_port (some { guid := 1, port := 1 }))
      (some (sample_tca_port (some { guid := 2, port := 1 })))).2 = Except.ok true :=
  ⟨rfl, rfl, rfl, rfl⟩

/-- C17 (amended): on a fabric whose flat index agrees with its devices, for two ports with
non-zero guid and port number and different keys, both unknown to the fabric, each of a class
that is the class of its device, or a known class when its device is yet to be created (the
same class when both have one guid): with both peer links unset the call ends in the assertion
`PeerMismatch` and leaves the fabric as it was; with each peer link set to the key of the
other port the call returns true and both ports are in the flat index. -/
theorem add_cable_linked_pair (f : fabric_t) (port1 port2 : port_t) (hinv : fabric_inv f)
    (hg1 : port1.guid ≠ 0) (hn1 : port1.port ≠ 0) (hg2 : port2.guid ≠ 0) (hn2 : port2.port ≠ 0)
    (hkey : ¬ (port1.guid = port2.guid ∧ port1.port = port2.port))
    (hu1 : pm_find f.portmap port1.key = none) (hu2 : pm_find f.portmap port2.key = none)
    (hc1 : ∀ e, map_find f.entities port1.guid = some e → e.type = port1.type)
    (hk1 : map_find f.entities port1.guid = none → port1.type ≠ type_t.UNKNOWN)
    (hc2 : ∀ e, map_find f.entities port2.guid = some e → e.type = port2.type)
    (hk2 : map_find f.entities port2.guid = none → port2.type ≠ type_t.UNKNOWN)
    (hloop : port1.guid = port2.guid → port1.type = port2.type) :
    (port1.connection = none → port2.connection = none →
      f.add_cable port1 (some port2) = (f, Except.error error_t.PeerMismatch)) ∧
    (port1.connection = some port2.key → port2.connection = some port1.key →
      ∃ f2, f.add_cable port1 (some port2) = (f2, Except.ok true) ∧
        pm_find f2.portmap port1.key = some port1 ∧
        pm_find f2.portmap port2.key = some port2) := by
  refine ⟨?_, ?_⟩
  · intro h1 _
    apply add_cable_of_check_error
    unfold add_cable_check
    simp [hg1, hn1, h1]
  · intro h1 h2
    have hc : add_cable_check f port1 (some port2) = Except.ok () := by
      apply (add_cable_check_ok_iff f port1 (some port2)).mpr
      refine ⟨hg1, hn1, ?_⟩
      intro q hq
      cases hq
      exact ⟨h1, h2, hg2, hn2, hkey, by rw [hu1, hu2]⟩
    obtain ⟨f1, hf1⟩ := attach_port_succeeds f port1 hinv hg1 hu1 hc1 hk1
    have hinv1 : fabric_inv f1 := by
      have := attach_port_inv f port1 hinv
      rw [hf1] at this
      exact this
    obtain ⟨_, _, _, _, a5, a6, a7⟩ := attach_port_frame f f1 port1 _ hf1
    have hne : ¬ port2.key = port1.key := by
      intro he
      have h3 : port2.guid = port1.guid := congrArg key_guid_port_t.guid he
      have h4 : port2.port = port1.port := congrArg key_guid_port_t.port he
      exact hkey ⟨h3.symm, h4.symm⟩
    have hu2b : pm_find f1.portmap port2.key = none := by
      cases hq : pm_find f1.portmap port2.key with
      | none => rfl
      | some q =>
        rcases a5 _ q hq with h3 | ⟨h3, _, _⟩
        · rw [hu2] at h3
          cases h3
        · exact absurd h3 hne
    have hc2b : ∀ e, map_find f1.entities port2.guid = some e → e.type = port2.type := by
      intro e he
      cases hold : map_find f.entities port2.guid with
      | some e0 =>
        obtain ⟨e2, c1, _, c3, _⟩ := a6 _ e0 hold
        rw [he] at c1
        cases c1
        rw [c3]
        exact hc2 e0 hold
      | none =>
        obtain ⟨c1, c2, _⟩ := a7 _ e hold he
        rw [c2]
        exact hloop c1.symm
    have hk2b : map_find f1.entities port2.guid = none → port2.type ≠ type_t.UNKNOWN := by
      intro hn
      apply hk2
      cases hold : map_find f.entities port2.guid with
      | none => rfl
      | some e0 =>
        obtain ⟨e2, c1, _⟩ := a6 _ e0 hold
        rw [hn] at c1
        cases c1
    obtain ⟨f2, hf2⟩ := attach_port_succeeds f1 port2 hinv1 hg2 hu2b hc2b hk2b
    have hrun : f.add_cable port1 (some port2) = (f2, Except.ok true) := by
      unfold fabric_t.add_cable
      simp only [hc, hu1, Option.isSome_none, Bool.false_eq_true, if_false, hf1, hf2]
    obtain ⟨s1, s2, _⟩ := add_cable_ok_frame f f2 port1 (some port2) hrun
    exact ⟨f2, hrun, s1, s2 port2 rfl⟩

theorem add_cable_linked_pair_witness :
    fabric_t.empty.add_cable (sample_hca_port none) (some (sample_tca_port none)) =
      (fabric_t.empty, Except.error error_t.PeerMismatch) ∧
    ∃ f2, fabric_t.empty.add_cable (sample_hca_port (some { guid := 1, port := 1 }))
        (some (sample_tca_port (some { guid := 2, port := 1 }))) = (f2, Except.ok true) ∧
      pm_find f2.portmap (sample_hca_port (some { guid := 1, port := 1 })).key =
        some (sample_hca_port (some { guid := 1, port := 1 })) ∧
      pm_find f2.portmap (sample_tca_port (some { guid := 2, port := 1 })).key =
        some (sample_tca_port (some { guid := 2, port := 1 })) :=
  ⟨(add_cable_linked_pair fabric_t.empty (sample_hca_port none) (sample_tca_port none)
      fabric_inv_empty (by decide) (by decide) (by decide) (by decide) (by decide) rfl rfl
      (fun e he => by cases he) (fun _ => by decide) (fun e he => by cases he)
      (fun _ => by decide) (fun h => absurd h (by decide))).1 rfl rfl,
    (add_cable_linked_pair fabric_t.empty (sample_hca_port (some { guid := 1, port := 1 }))
      (sample_tca_port (some { guid := 2, port := 1 }))
      fabric_inv_empty (by decide) (by decide) (by decide) (by decide) (by decide) rfl rfl
      (fun e he => by cases he) (fun _ => by decide) (fun e he => by cases he)
      (fun _ => by decide) (fun h => absurd h (by decide))).2 rfl rfl⟩

/-- C18: `add_cable` ends in an assertion whenever one of its ports carries the guid of an
existing device of another class, and whenever a port of class `UNKNOWN` has no device yet.
The assertion is `DeviceClassMismatch`, with the fabric as it was, when the cable passes the
validation and `port1`, unknown to the flat index, is the port at fault; and with the fabric as
the attachment of `port1` left it when `port2` is the port at fault.  Whatever the outcome,
every device that existed keeps its class. -/
theorem add_cable_class_mismatch (f : fabric_t) (port1 : port_t) (port2 : Option port_t) :
    ((∃ e, map_find f.entities port1.guid = some e ∧ e.type ≠ port1.type) ∨
        (∃ q e, port2 = some q ∧ map_find f.entities q.guid = some e ∧ e.type ≠ q.type) ∨
        (map_find f.entities port1.guid = none ∧ port1.type = type_t.UNKNOWN) ∨
        (∃ q, port2 = some q ∧ map_find f.entities q.guid = none ∧ q.type = type_t.UNKNOWN) →
      ∃ err, (f.add_cable port1 port2).2 = Except.error err) ∧
    (add_cable_check f port1 port2 = Except.ok () → pm_find f.portmap port1.key = none →
      (∃ e, map_find f.entities port1.guid = some e ∧ e.type ≠ port1.type) ∨
        (map_find f.entities port1.guid = none ∧ port1.type = type_t.UNKNOWN) →
      f.add_cable port1 port2 = (f, Except.error error_t.DeviceClassMismatch)) ∧
    (∀ q f1, port2 = some q → add_cable_check f port1 port2 = Except.ok () →
      pm_find f.portmap port1.key = none → f.attach_port port1 = (f1, Except.ok true) →
      (∃ e, map_find f.entities q.guid = some e ∧ e.type ≠ q.type) ∨
        (map_find f.entities q.guid = none ∧ q.type = type_t.UNKNOWN) →
      f.add_cable port1 port2 = (f1, Except.error error_t.DeviceClassMismatch)) ∧
    (∀ g e, map_find f.entities g = some e →
      ∃ e2, map_find (f.add_cable port1 port2).1.entities g = some e2 ∧ e2.type = e.type) := by
  refine ⟨?_, ?_, ?_, ?_⟩
  · intro hbad
    rcases hrun : f.add_cable port1 port2 with ⟨f2, r⟩
    obtain ⟨a1, _, _, _, a5, a6⟩ := add_cable_frame f f2 port1 port2 r hrun
    rcases a1 with hr | ⟨err, hr⟩
    · exfalso
      subst hr
      obtain ⟨⟨e1, t1, t2⟩, t3⟩ := add_cable_ok_types f f2 port1 port2 hrun
      rcases hbad with ⟨e, h1, h2⟩ | ⟨q, e, hq, h1, h2⟩ | ⟨h1, h2⟩ | ⟨q, hq, h1, h2⟩
      · obtain ⟨e2, c1, _, c3, _⟩ := a5 _ e h1
        rw [t1] at c1
        cases c1
        exact h2 (c3.symm.trans t2)
      · obtain ⟨e3, u1, u2⟩ := t3 q hq
        obtain ⟨e2, c1, _, c3, _⟩ := a5 _ e h1
        rw [u1] at c1
        cases c1
        exact h2 (c3.symm.trans u2)
      · exact a6 _ e1 h1 t1 (t2.trans h2)
      · obtain ⟨e3, u1, u2⟩ := t3 q hq
        exact a6 _ e3 h1 u1 (u2.trans h2)
    · exact ⟨err, hr⟩
  · intro hc hu hbad
    have hg := ((add_cable_check_ok_iff f port1 port2).mp hc).1
    unfold fabric_t.add_cable
    simp only [hc, hu, Option.isSome_none, Bool.false_eq_true, if_false,
      attach_port_mismatch f port1 hg hbad]
  · intro q f1 hq hc hu h1 hbad
    subst hq
    have hgq := (((add_cable_check_ok_iff f port1 (some q)).mp hc).2.2 q rfl).2.2.1
    obtain ⟨_, _, _, _, _, a6, a7⟩ := attach_port_frame f f1 port1 _ h1
    have hbad1 : (∃ e, map_find f1.entities q.guid = some e ∧ e.type ≠ q.type) ∨
        (map_find f1.entities q.guid = none ∧ q.type = type_t.UNKNOWN) := by
      rcases hbad with ⟨e, k1, k2⟩ | ⟨k1, k2⟩
      · obtain ⟨e2, c1, _, c3, _⟩ := a6 _ e k1
        exact Or.inl ⟨e2, c1, by rw [c3]; exact k2⟩
      · cases hmid : map_find f1.entities q.guid with
        | none => exact Or.inr ⟨rfl, k2⟩
        | some em =>
          refine Or.inl ⟨em, rfl, ?_⟩
          rw [k2]
          exact (a7 _ em k1 hmid).2.2
    unfold fabric_t.add_cable
    simp only [hc, hu, Option.isSome_none, Bool.false_eq_true, if_false, h1,
      attach_port_mismatch f1 q hgq hbad1]
  · intro g e he
    rcases hrun : f.add_cable port1 port2 with ⟨f2, r⟩
    obtain ⟨_, _, _, _, a5, _⟩ := add_cable_frame f f2 port1 port2 r hrun
    obtain ⟨e2, c1, _, c3, _⟩ := a5 g e he
    exact ⟨e2, c1, c3⟩

theorem add_cable_class_mismatch_witness :
    sample_pair_fabric.add_cable (sample_port type_t.HCA 1 2 1 none) none =
      (sample_pair_fabric, Except.error error_t.DeviceClassMismatch) ∧
    fabric_t.empty.add_cable (sample_port type_t.UNKNOWN 5 1 5 none) none =
      (fabric_t.empty, Except.error error_t.DeviceClassMismatch) :=
  ⟨(add_cable_class_mismatch sample_pair_fabric (sample_port type_t.HCA 1 2 1 none) none).2.1
      rfl rfl (Or.inl ⟨_, rfl, by decide⟩),
    (add_cable_class_mismatch fabric_t.empty (sample_port type_t.UNKNOWN 5 1 5 none) none).2.1
      rfl rfl (Or.inr ⟨rfl, rfl⟩)⟩

/-- C19 (the code at the failing input): on the empty fabric, `add_cable(port1, NULL)` for a port
whose `connection` points at the port with key `(1, 1)` returns true; the flat port index then
holds `port1`, whose peer key `(1, 1)` is not in the index. -/
theorem add_cable_dark_keeps_peer_link :
    (fabric_t.empty.add_cable (sample_hca_port (some { guid := 1, port := 1 })) none).2 =
      Except.ok true ∧
    pm_find (fabric_t.empty.add_cable (sample_hca_port (some { guid := 1, port := 1 })) none).1.portmap
      { guid := 2, port := 1 } = some (sample_hca_port (some { guid := 1, port := 1 })) ∧
    (sample_hca_port (some { guid := 1, port := 1 })).connection = some { guid := 1, port := 1 } ∧
    pm_find (fabric_t.empty.add_cable (sample_hca_port (some { guid := 1, port := 1 })) none).1.portmap
      { guid := 1, port := 1 } = none ∧
    cabled (fabric_t.empty.add_cable (sample_hca_port (some { guid := 1, port := 1 })) none).1 :=
  ⟨rfl, rfl, rfl, rfl, cabled.add_cable _ _ _ cabled.empty⟩

theorem flat_index_agrees_witness :
    (pm_find sample_pair_fabric.portmap { guid := 2, port := 1 } =
        some (sample_hca_port (some { guid := 1, port := 1 })) ↔
      ∃ e, map_find sample_pair_fabric.entities 2 = some e ∧
        map_find e.ports 1 = some (sample_hca_port (some { guid := 1, port := 1 }))) ∧
    pm_find sample_pair_fabric.portmap { guid := 2, port := 1 } =
      some (sample_hca_port (some { guid := 1, port := 1 })) :=
  ⟨(flat_index_agrees sample_pair_fabric (cabled.add_cable _ _ _ cabled.empty) 2 1
      (sample_hca_port (some { guid := 1, port := 1 }))).1, rfl⟩

theorem mem_set_insert (s : List Nat) (a x : Nat) : x ∈ set_insert s a ↔ x = a ∨ x ∈ s := by
  induction s with
  | nil => simp [set_insert]
  | cons y s ih =>
    unfold set_insert
    by_cases h1 : a < y
    · simp [h1]
    · by_cases h2 : a = y
      · subst h2
        simp
      · simp only [h1, h2, if_false, List.mem_cons, ih]
        tauto

theorem set_insert_idem (s : List Nat) (a : Nat) :
    set_insert (set_insert s a) a = set_insert s a := by
  induction s with
  | nil => simp [set_insert]
  | cons y s ih =>
    by_cases h1 : a < y
    · simp [set_insert, h1]
    · by_cases h2 : a = y
      · subst h2
        simp [set_insert]
      · simp [set_insert, h1, h2, ih]

theorem map_assign_assign {V : Type} (m : List (Nat × V)) (k : Nat) (v w : V) :
    map_assign (map_assign m k v) k w = map_assign m k w := by
  induction m with
  | nil => simp [map_assign]
  | cons x m ih =>
    obtain ⟨k1, v1⟩ := x
    by_cases h1 : k < k1
    · simp [map_assign, h1]
    · by_cases h2 : k = k1
      · subst h2
        simp [map_assign]
      · simp [map_assign, h1, h2, ih]

/-- C26: `entity_t::add_route(p, a)` returns true exactly when `a` is not in the destination
set of `p` (the set `routes` holds under `p`, empty when it holds none); afterwards the set of
`p` is the old set with `a`, the set of every other port is as before, the other fields of the
entity are unchanged, and a second call returns false and leaves the entity as it is. -/
theorem add_route_inserts (e : entity_t) (p a : Nat) :
    ((e.add_route p a).2 = true ↔ a ∉ (map_find e.routes p).getD []) ∧
    (∃ s, map_find (e.add_route p a).1.routes p = some s ∧ a ∈ s ∧
      ∀ x, x ∈ s ↔ x = a ∨ x ∈ (map_find e.routes p).getD []) ∧
    (∀ q, q ≠ p → map_find (e.add_route p a).1.routes q = map_find e.routes q) ∧
    (e.add_route p a).1.add_route p a = ((e.add_route p a).1, false) ∧
    (e.add_route p a).1.guid = e.guid ∧ (e.add_route p a).1.type = e.type ∧
    (e.add_route p a).1.ports = e.ports ∧ (e.add_route p a).1.uft = e.uft := by
  refine ⟨?_, ?_, ?_, ?_, rfl, rfl, rfl, rfl⟩
  · simp [entity_t.add_route]
  · refine ⟨set_insert ((map_find e.routes p).getD []) a, ?_, ?_, ?_⟩
    · simp [entity_t.add_route, map_find_assign]
    · exact (mem_set_insert _ _ _).mpr (Or.inl rfl)
    · intro x
      exact mem_set_insert _ _ _
  · intro q hq
    simp only [entity_t.add_route, map_find_assign]
    rw [if_neg (fun h => hq h.symm)]
  · have hfind : map_find (e.add_route p a).1.routes p =
        some (set_insert ((map_find e.routes p).getD []) a) := by
      simp [entity_t.add_route, map_find_assign]
    have hmem : a ∈ set_insert ((map_find e.routes p).getD []) a :=
      (mem_set_insert _ _ _).mpr (Or.inl rfl)
    unfold entity_t.add_route
    unfold entity_t.add_route at hfind
    simp only [hfind, Option.getD_some, set_insert_idem, map_assign_assign, hmem,
      not_true_eq_false, decide_False]

theorem add_route_inserts_witness :
    (tie_break_entity.add_route 3 9).2 = true ∧ (tie_break_entity.add_route 1 9).2 = false := by
  refine ⟨((add_route_inserts tie_break_entity 3 9).1).mpr (by decide), ?_⟩
  have h := (add_route_inserts tie_break_entity 1 9).1
  cases hb : (tie_break_entity.add_route 1 9).2 with
  | false => rfl
  | true => exact absurd (h.mp hb) (by decide)

theorem sanity_check_error (guid : Nat) (type : type_t) (ps : List (Nat × port_t))
    (h : sanity_check guid type ps ≠ Except.ok ()) :
    (sanity_check guid type ps = Except.error error_t.GuidMismatch ∨
      sanity_check guid type ps = Except.error error_t.DeviceClassMismatch) ∧
    ∃ x ∈ ps, x.2.guid ≠ guid ∨ x.2.type ≠ type := by
  induction ps with
  | nil => exact absurd rfl h
  | cons x ps ih =>
    obtain ⟨n, p⟩ := x
    unfold sanity_check at h ⊢
    by_cases h1 : p.guid ≠ guid
    · rw [if_pos h1]
      exact ⟨Or.inl rfl, (n, p), List.mem_cons_self _ _, Or.inl h1⟩
    · by_cases h2 : p.type ≠ type
      · rw [if_neg h1, if_pos h2]
        exact ⟨Or.inr rfl, (n, p), List.mem_cons_self _ _, Or.inr h2⟩
      · rw [if_neg h1, if_neg h2] at h ⊢
        obtain ⟨a, y, hy, b⟩ := ih h
        exact ⟨a, y, List.mem_cons_of_mem _ hy, b⟩

/-- C27 (counterexample): `add_port` on the new switch with guid 1, for port 1 of a device
with guid 2, ends in the sanity assertion `port->guid == guid` after the insertion: the call
fails and the port map holds the port. -/
theorem add_port_failure_keeps_port :
    (entity_t.new 1 type_t.TCA).ports = [] ∧
    ((entity_t.new 1 type_t.TCA).add_port (sample_port type_t.TCA 2 1 1 none)).2 =
      Except.error error_t.GuidMismatch ∧
    ((entity_t.new 1 type_t.TCA).add_port (sample_port type_t.TCA 2 1 1 none)).1.ports =
      [(1, sample_port type_t.TCA 2 1 1 none)] :=
  ⟨rfl, rfl, rfl⟩

/-- C27 (amended): `entity_t::add_port` ends in `DuplicatePort` exactly when the device has a
port with the port number of `port`, and then the device is unchanged.  Otherwise the port is
stored under its port number and every other entry of the port map is unchanged; the call
returns true when every port of the device, the new one included, carries the guid and the
class of the device, and otherwise ends in the sanity assertion (`GuidMismatch` or
`DeviceClassMismatch`) with the port stored. -/
theorem add_port_outcomes (e : entity_t) (port : port_t) :
    ((e.add_port port).2 = Except.error error_t.DuplicatePort ↔
      (map_find e.ports port.port).isSome = true) ∧
    ((e.add_port port).2 = Except.error error_t.DuplicatePort → (e.add_port port).1 = e) ∧
    ((map_find e.ports port.port).isSome = false →
      (∀ n, map_find (e.add_port port).1.ports n =
        if port.port = n then some port else map_find e.ports n) ∧
      (e.add_port port).1.guid = e.guid ∧ (e.add_port port).1.type = e.type ∧
      (e.add_port port).1.routes = e.routes ∧ (e.add_port port).1.uft = e.uft ∧
      ((e.add_port port).2 = Except.ok true ↔
        ∀ x ∈ (e.add_port port).1.ports, x.2.guid = e.guid ∧ x.2.type = e.type) ∧
      ((e.add_port port).2 = Except.ok true ∨
        (e.add_port port).2 = Except.error error_t.GuidMismatch ∨
        (e.add_port port).2 = Except.error error_t.DeviceClassMismatch)) := by
  cases hdup : (map_find e.ports port.port).isSome with
  | true =>
    have h : e.add_port port = (e, Except.error error_t.DuplicatePort) := by
      simp [entity_t.add_port, hdup]
    rw [h]
    simp
  | false =>
    have hnone : map_find e.ports port.port = none := by
      cases h : map_find e.ports port.port with
      | none => rfl
      | some w => simp [h] at hdup
    have hfind : ∀ n, map_find (map_insert e.ports port.port port) n =
        if port.port = n then some port else map_find e.ports n := by
      intro n
      rw [map_find_insert]
      by_cases hn : port.port = n
      · subst hn
        simp [hnone]
      · cases h : map_find e.ports n <;> simp [hn]
    cases hs : sanity_check e.guid e.type (map_insert e.ports port.port port) with
    | ok u =>
      have h : e.add_port port =
          ({ e with ports := map_insert e.ports port.port port }, Except.ok true) := by
        simp [entity_t.add_port, hdup, hs]
      rw [h]
      refine ⟨by simp, by simp, fun _ => ⟨hfind, rfl, rfl, rfl, rfl, ?_, Or.inl rfl⟩⟩
      simp only [true_iff]
      intro x hx
      exact sanity_check_mem _ _ _ hs x hx
    | error err =>
      have h : e.add_port port =
          ({ e with ports := map_insert e.ports port.port port }, Except.error err) := by
        simp [entity_t.add_port, hdup, hs]
      have hne : sanity_check e.guid e.type (map_insert e.ports port.port port) ≠
          Except.ok () := by
        rw [hs]
        simp
      obtain ⟨hkind, x, hx, hbad⟩ := sanity_check_error _ _ _ hne
      rw [hs] at hkind
      have herr : err = error_t.GuidMismatch ∨ err = error_t.DeviceClassMismatch := by
        rcases hkind with hk | hk
        · exact Or.inl (by simpa using hk)
        · exact Or.inr (by simpa using hk)
      rw [h]
      refine ⟨?_, ?_, fun _ => ⟨hfind, rfl, rfl, rfl, rfl, ?_, ?_⟩⟩
      · rcases herr with he | he <;> subst he <;> simp
      · rcases herr with he | he <;> subst he <;> simp
      · constructor
        · intro hr
          cases hr
        · intro hall
          have := hall x hx
          rcases hbad with hb | hb
          · exact absurd this.1 hb
          · exact absurd this.2 hb
      · rcases herr with he | he
        · exact Or.inr (Or.inl (by rw [he]))
        · exact Or.inr (Or.inr (by rw [he]))

theorem add_port_outcomes_witness :
    (map_find (sample_entity type_t.TCA 1 1).ports 1).isSome = true ∧
    ((sample_entity type_t.TCA 1 1).add_port (sample_port type_t.TCA 1 1 9 none)).2 =
      Except.error error_t.DuplicatePort ∧
    (map_find (sample_entity type_t.TCA 1 1).ports 2).isSome = false ∧
    ((sample_entity type_t.TCA 1 1).add_port (sample_port type_t.TCA 1 2 1 none)).1.type =
      type_t.TCA :=
  ⟨rfl, (add_port_outcomes (sample_entity type_t.TCA 1 1)
      (sample_port type_t.TCA 1 1 9 none)).1.mpr rfl,
    rfl, ((add_port_outcomes (sample_entity type_t.TCA 1 1)
      (sample_port type_t.TCA 1 2 1 none)).2.2 rfl).2.2.1⟩

theorem clear_routes_loop_eq (es : List (Nat × entity_t)) :
    clear_routes_loop es =
      (es.map (fun x => (x.1, { x.2 with routes := [] })), true) := by
  induction es with
  | nil => rfl
  | cons x es ih =>
    obtain ⟨g, e⟩ := x
    simp [clear_routes_loop, entity_t.clear_routes, ih]

theorem map_find_map_values {V W : Type} (h : V → W) (m : List (Nat × V)) (a : Nat) :
    map_find (m.map (fun x => (x.1, h x.2))) a = (map_find m a).map h := by
  induction m with
  | nil => rfl
  | cons x m ih =>
    obtain ⟨k, v⟩ := x
    by_cases hk : k = a
    · simp [map_find, hk]
    · simp [map_find, hk, ih]

/-- C28: `entity_t::clear_routes` returns true and leaves the routing table empty and the
other fields as they were; `fabric_t::clear_routes` returns true, every device it leaves is
the device of before with an empty routing table (so no port map changes), and `lmc`, the
flat port index and the lid map are unchanged. -/
theorem clear_routes_empties (e : entity_t) (f : fabric_t) :
    (e.clear_routes.2 = true ∧ e.clear_routes.1.routes = [] ∧
      e.clear_routes.1.ports = e.ports ∧ e.clear_routes.1.guid = e.guid ∧
      e.clear_routes.1.type = e.type ∧ e.clear_routes.1.uft = e.uft) ∧
    f.clear_routes.2 = true ∧
    (∀ x ∈ f.clear_routes.1.entities, x.2.routes = []) ∧
    (∀ g, map_find f.clear_routes.1.entities g =
      (map_find f.entities g).map (fun d => { d with routes := [] })) ∧
    (∀ g d, map_find f.entities g = some d →
      ∃ d2, map_find f.clear_routes.1.entities g = some d2 ∧ d2.ports = d.ports ∧
        d2.routes = []) ∧
    f.clear_routes.1.portmap = f.portmap ∧ f.clear_routes.1.lidmap = f.lidmap ∧
    f.clear_routes.1.lmc = f.lmc := by
  refine ⟨⟨rfl, rfl, rfl, rfl, rfl, rfl⟩, ?_, ?_, ?_, ?_, rfl, rfl, rfl⟩
  · simp [fabric_t.clear_routes, clear_routes_loop_eq]
  · intro x hx
    simp only [fabric_t.clear_routes, clear_routes_loop_eq, List.mem_map] at hx
    obtain ⟨y, _, hy⟩ := hx
    rw [← hy]
  · intro g
    simp only [fabric_t.clear_routes, clear_routes_loop_eq]
    exact map_find_map_values (fun d => { d with routes := [] }) f.entities g
  · intro g d hd
    refine ⟨{ d with routes := [] }, ?_, rfl, rfl⟩
    simp only [fabric_t.clear_routes, clear_routes_loop_eq]
    have h := map_find_map_values (fun d : entity_t => { d with routes := [] }) f.entities g
    rw [hd] at h
    exact h

/-- C30: `find_entity(guid, UNKNOWN, true)` for a guid without a device ends in an assertion of
the `entity_t` constructor (`DeviceClassMismatch`, the assertion `type != UNKNOWN`, when the
guid is not zero) and leaves the fabric as it was; and whatever the arguments of
`find_entity(guid, type, true)`, a device the call leaves is a device of before or has a
class other than `UNKNOWN`. -/
theorem find_entity_create_unknown (f : fabric_t) (guid : Nat)
    (h : map_find f.entities guid = none) :
    (∃ err, f.find_entity_create guid type_t.UNKNOWN = (f, Except.error err)) ∧
    (guid ≠ 0 →
      f.find_entity_create guid type_t.UNKNOWN = (f, Except.error error_t.DeviceClassMismatch)) ∧
    (∀ (t : type_t) (g : Nat) (e : entity_t),
      map_find (f.find_entity_create guid t).1.entities g = some e →
        map_find f.entities g = some e ∨ (g = guid ∧ e.type = t ∧ e.type ≠ type_t.UNKNOWN)) := by
  refine ⟨?_, ?_, ?_⟩
  · unfold fabric_t.find_entity_create
    rw [h]
    by_cases hg : guid = 0
    · exact ⟨error_t.ZeroGuid, by simp [hg]⟩
    · exact ⟨error_t.DeviceClassMismatch, by simp [hg]⟩
  · intro hg
    simp [fabric_t.find_entity_create, h, hg]
  · intro t g e he
    rcases find_entity_create_cases f guid t with ⟨err, hrun, _⟩ | ⟨e0, hrun, _⟩ |
      ⟨hrun, _, hg, ht⟩
    · rw [hrun] at he
      exact Or.inl he
    · rw [hrun] at he
      exact Or.inl he
    · rw [hrun] at he
      simp only at he
      rw [map_find_insert] at he
      cases hold : map_find f.entities g with
      | some w =>
        simp only [hold, Option.some.injEq] at he
        exact Or.inl (by rw [he])
      | none =>
        simp only [hold] at he
        by_cases hk : guid = g
        · simp only [hk, if_true, Option.some.injEq] at he
          subst he
          exact Or.inr ⟨hk.symm, rfl, ht⟩
        · simp [hk] at he

theorem find_entity_create_unknown_witness :
    fabric_t.empty.find_entity_create 4 type_t.UNKNOWN =
      (fabric_t.empty, Except.error error_t.DeviceClassMismatch) :=
  (find_entity_create_unknown fabric_t.empty 4 rfl).2.1 (by decide)

theorem map_find_of_mem_sorted {V : Type} (m : List (Nat × V)) (hs : map_sorted m) (k : Nat)
    (v : V) (h : (k, v) ∈ m) : map_find m k = some v := by
  induction m with
  | nil => cases h
  | cons x m ih =>
    obtain ⟨k1, v1⟩ := x
    have hp := List.pairwise_cons.mp hs
    rcases List.mem_cons.mp h with heq | hin
    · cases heq
      simp [map_find]
    · have hlt : k1 < k := hp.1 (k, v) hin
      have hne : k1 ≠ k := by omega
      simp only [map_find, hne, if_false]
      exact ih hp.2 hin

theorem build_lid_map_result (f f2 : fabric_t) (d : Bool)
    (h : f.build_lid_map d = Except.ok f2) :
    f2.entities = f.entities ∧ f2.portmap = f.portmap ∧
    walk_entities (max_lmc_lid f2.lmc) [] f.entities = Except.ok f2.lidmap ∧
    (d = false → f2.lmc = f.lmc) ∧ (d = true → f2.lmc ≤ MAX_LMC_VALUE) := by
  unfold fabric_t.build_lid_map at h
  cases hp : f.build_lid_map_pass with
  | error err => simp [hp] at h
  | ok f1 =>
    obtain ⟨a1, a2, a3, a4⟩ := build_lid_map_pass_frame f f1 hp
    simp only [hp] at h
    cases d with
    | false =>
      simp only [Bool.false_eq_true, if_false, Except.ok.injEq] at h
      subst h
      rw [a1]
      exact ⟨a2, a3, a4, fun _ => rfl, fun hd => by cases hd⟩
    | true =>
      simp only [if_true] at h
      cases hdet : f1.determine_max_lmc_lid with
      | error err => simp [hdet] at h
      | ok maxoff =>
        simp only [hdet] at h
        by_cases hle : lmc_of_max_lmc_lid maxoff ≤ MAX_LMC_VALUE
        · simp only [hle, if_true] at h
          by_cases hne : f.lmc ≠ lmc_of_max_lmc_lid maxoff
          · rw [if_pos hne] at h
            obtain ⟨c1, c2, c3, c4⟩ := build_lid_map_pass_frame _ f2 h
            rw [c1]
            refine ⟨c2.trans a2, c3.trans a3, ?_, (fun hd => by cases hd), fun _ => hle⟩
            rw [← a2]
            exact c4
          · rw [if_neg hne] at h
            simp only [Except.ok.injEq] at h
            subst h
            have heq : f.lmc = lmc_of_max_lmc_lid maxoff := not_not.mp hne
            refine ⟨a2, a3, ?_, (fun hd => by cases hd), fun _ => hle⟩
            show walk_entities (max_lmc_lid (lmc_of_max_lmc_lid maxoff)) [] f.entities =
              Except.ok f1.lidmap
            rw [← heq]
            exact a4
        · simp [hle] at h

/-- C22 (counterexample): on the fabric of the host adapter with guid 1 at lid `2 ^ 64 - 1` and
the switch with guid 2 at lid 1, `build_lid_map(true)` from multiplier 0 succeeds with
multiplier 1; the 64-bit sum `base + 1` of the host adapter is 0, and the lid map assigns the
address 0 to the host adapter, below its base address. -/
theorem lid_block_wraps :
    (two_device_fabric 0 type_t.HCA 18446744073709551615 type_t.TCA 1).build_lid_map true =
      Except.ok { two_device_fabric 0 type_t.HCA 18446744073709551615 type_t.TCA 1 with
        lmc := 1, lidmap := [(0, 1), (1, 2), (18446744073709551615, 1)] } ∧
    map_find [(0, 1), (1, 2), (18446744073709551615, 1)] 0 = some 1 ∧
    map_find (two_device_fabric 0 type_t.HCA 18446744073709551615 type_t.TCA 1).entities 1 =
      some (sample_entity type_t.HCA 1 18446744073709551615) ∧
    (sample_entity type_t.HCA 1 18446744073709551615).lid = Except.ok 18446744073709551615 ∧
    ¬ (18446744073709551615 ≤ 0) :=
  ⟨rfl, rfl, rfl, rfl, by decide⟩

/-- C22 (amended): after a successful `build_lid_map` that leaves the multiplier `m <= 7`, every
device has a base address `b`; the addresses that the lid map assigns to a host adapter are
exactly the 64-bit sums `b + i` for `i` in `0 .. 2 ^ m - 1`, which are `2 ^ m` distinct
addresses, and the one address of a switch is `b`; every value of the lid map is a device, and
two devices with different guids claim no common address.  When `b + 2 ^ m - 1` does not
exceed the largest `lid_t`, every address `a` of the device satisfies
`b <= a <= b + 2 ^ m - 1`. -/
theorem lid_map_blocks (f f2 : fabric_t) (d : Bool) (h : f.build_lid_map d = Except.ok f2)
    (hm : f2.lmc ≤ MAX_LMC_VALUE) (hs : map_sorted f.entities) :
    (∀ g e, map_find f2.entities g = some e →
      ∃ b, e.lid = Except.ok b ∧
        (∀ a, map_find f2.lidmap a = some g ↔
          (e.type = type_t.HCA ∧ ∃ i, i ≤ 2 ^ f2.lmc - 1 ∧ a = lid_add b i) ∨
            (e.type = type_t.TCA ∧ a = b)) ∧
        (e.type = type_t.HCA → Set.ncard {a | map_find f2.lidmap a = some g} = 2 ^ f2.lmc) ∧
        (e.type = type_t.TCA → Set.ncard {a | map_find f2.lidmap a = some g} = 1) ∧
        (e.type = type_t.HCA ∨ e.type = type_t.TCA) ∧
        (b + (2 ^ f2.lmc - 1) < 2 ^ 64 →
          ∀ a, map_find f2.lidmap a = some g → b ≤ a ∧ a ≤ b + (2 ^ f2.lmc - 1))) ∧
    (∀ a g, map_find f2.lidmap a = some g → ∃ e, map_find f2.entities g = some e) ∧
    (∀ g1 e1 g2 e2 a, map_find f2.entities g1 = some e1 → map_find f2.entities g2 = some e2 →
      g1 ≠ g2 → claims_address (2 ^ f2.lmc - 1) e1 a → ¬ claims_address (2 ^ f2.lmc - 1) e2 a) := by
  obtain ⟨hent, _, hwalk, _, _⟩ := build_lid_map_result f f2 d h
  have hm7 : f2.lmc ≤ 7 := hm
  rw [max_lmc_lid_eq f2.lmc hm7] at hwalk
  have hfind : ∀ a g, map_find f2.lidmap a = some g ↔
      ∃ e, (g, e) ∈ f.entities ∧ claims_address (2 ^ f2.lmc - 1) e a := by
    intro a g
    have := walk_entities_find _ _ _ _ hwalk a g
    simpa [map_find] using this
  have hknown := walk_entities_ok_known _ _ _ _ hwalk
  have hdev : ∀ g e, map_find f2.entities g = some e → (g, e) ∈ f.entities := by
    intro g e he
    rw [hent] at he
    exact map_find_mem _ _ _ he
  have huniq : ∀ g e e2, map_find f2.entities g = some e → (g, e2) ∈ f.entities → e2 = e := by
    intro g e e2 he h2
    rw [hent] at he
    have := map_find_of_mem_sorted _ hs g e2 h2
    rw [he] at this
    exact (Option.some.inj this).symm
  have hpow : 1 ≤ 2 ^ f2.lmc := Nat.one_le_two_pow
  have hpow2 : 2 ^ f2.lmc ≤ 2 ^ 7 := Nat.pow_le_pow_right (by norm_num) hm7
  refine ⟨?_, ?_, ?_⟩
  · intro g e he
    obtain ⟨⟨b, hb⟩, hty⟩ := hknown (g, e) (hdev g e he)
    have hchar : ∀ a, map_find f2.lidmap a = some g ↔
        (e.type = type_t.HCA ∧ ∃ i, i ≤ 2 ^ f2.lmc - 1 ∧ a = lid_add b i) ∨
          (e.type = type_t.TCA ∧ a = b) := by
      intro a
      rw [hfind]
      constructor
      · rintro ⟨e2, h2, b2, hb2, hc⟩
        have := huniq g e e2 he h2
        subst this
        rw [hb] at hb2
        cases hb2
        exact hc
      · intro hc
        exact ⟨e, hdev g e he, b, hb, hc⟩
    have hclass : e.type = type_t.HCA ∨ e.type = type_t.TCA := by
      cases ht : e.type with
      | UNKNOWN => exact absurd ht hty
      | HCA => exact Or.inl rfl
      | TCA => exact Or.inr rfl
    refine ⟨b, hb, hchar, ?_, ?_, hclass, ?_⟩
    · intro hh
      have hset : {a | map_find f2.lidmap a = some g} =
          ((Finset.range (2 ^ f2.lmc)).image (lid_add b) : Finset Nat) := by
        ext a
        simp only [Set.mem_setOf_eq, Finset.coe_image, Finset.coe_range, Set.mem_image,
          Set.mem_Iio]
        rw [hchar]
        constructor
        · rintro (⟨_, i, hi, ha⟩ | ⟨ht, _⟩)
          · exact ⟨i, by omega, ha.symm⟩
          · rw [hh] at ht
            cases ht
        · rintro ⟨i, hi, ha⟩
          exact Or.inl ⟨hh, i, by omega, ha.symm⟩
      rw [hset, Set.ncard_coe_Finset, Finset.card_image_of_injOn, Finset.card_range]
      intro i hi j hj hij
      simp only [Finset.coe_range, Set.mem_Iio] at hi hj
      have h64 : (2 : Nat) ^ 7 < 2 ^ 64 := by norm_num
      exact lid_add_injective b i j (by omega) (by omega) hij
    · intro hh
      have hset : {a | map_find f2.lidmap a = some g} = {b} := by
        ext a
        simp only [Set.mem_setOf_eq, Set.mem_singleton_iff]
        rw [hchar]
        constructor
        · rintro (⟨ht, _⟩ | ⟨_, ha⟩)
          · rw [hh] at ht
            cases ht
          · exact ha
        · intro ha
          exact Or.inr ⟨hh, ha⟩
      rw [hset, Set.ncard_singleton]
    · intro hfit a ha
      rcases (hchar a).mp ha with ⟨_, i, hi, hai⟩ | ⟨_, hab⟩
      · have : lid_add b i = b + i := by
          unfold lid_add
          exact Nat.mod_eq_of_lt (by omega)
        rw [hai, this]
        omega
      · rw [hab]
        omega
  · intro a g ha
    obtain ⟨e, he, _⟩ := (hfind a g).mp ha
    refine ⟨e, ?_⟩
    rw [hent]
    exact map_find_of_mem_sorted _ hs g e he
  · intro g1 e1 g2 e2 a h1 h2 hne c1 c2
    have f1 := (hfind a g1).mpr ⟨e1, hdev g1 e1 h1, c1⟩
    have f2' := (hfind a g2).mpr ⟨e2, hdev g2 e2 h2, c2⟩
    rw [f1] at f2'
    exact hne (Option.some.inj f2')

theorem lid_map_blocks_witness :
    Set.ncard {a | map_find
      ({ two_device_fabric 1 type_t.HCA 10 type_t.TCA 20 with
          lidmap := [(10, 1), (11, 1), (20, 2)] } : fabric_t).lidmap a = some 1} = 2 ^ 1 := by
  obtain ⟨b, _, _, hc, _⟩ := (lid_map_blocks (two_device_fabric 1 type_t.HCA 10 type_t.TCA 20)
    { two_device_fabric 1 type_t.HCA 10 type_t.TCA 20 with
      lidmap := [(10, 1), (11, 1), (20, 2)] } false rfl (by decide)
    (by simp [map_sorted, two_device_fabric])).1 1 (sample_entity type_t.HCA 1 10) rfl
  exact hc rfl

theorem build_forwarding_table_loop_eq (es : List (Nat × entity_t)) :
    build_forwarding_table_loop es = es.map (fun x => (x.1, x.2.build_forwarding_table)) := by
  induction es with
  | nil => rfl
  | cons x es ih =>
    obtain ⟨g, e⟩ := x
    simp [build_forwarding_table_loop, ih]

theorem fabric_inv_of_ports (f f2 : fabric_t) (hinv : fabric_inv f) (hpm : f2.portmap = f.portmap)
    (h1 : ∀ g e2, map_find f2.entities g = some e2 →
      ∃ e, map_find f.entities g = some e ∧ e2.guid = e.guid ∧ e2.type = e.type ∧
        e2.ports = e.ports)
    (h2 : ∀ g e, map_find f.entities g = some e →
      ∃ e2, map_find f2.entities g = some e2 ∧ e2.ports = e.ports) : fabric_inv f2 := by
  refine ⟨?_, ?_⟩
  · intro g e2 he2
    obtain ⟨e, he, hg, ht, hp⟩ := h1 g e2 he2
    obtain ⟨a1, a2, a3, a4⟩ := hinv.1 g e he
    rw [hg, ht, hp, hpm]
    exact ⟨a1, a2, a3, a4⟩
  · intro k p hk
    rw [hpm] at hk
    obtain ⟨e, he, hp⟩ := hinv.2 k p hk
    obtain ⟨e2, he2, hports⟩ := h2 k.guid e he
    exact ⟨e2, he2, by rw [hports]; exact hp⟩

theorem fabric_step_inv (f f2 : fabric_t) (hs : fabric_step f f2) (hinv : fabric_inv f) :
    fabric_inv f2 := by
  cases hs with
  | add_cable port1 port2 => exact add_cable_inv f port1 port2 hinv
  | add_cables pending peers => exact add_cables_inv f pending peers hinv
  | find_entity guid type =>
    rcases find_entity_create_cases f guid type with ⟨err, hrun, _⟩ | ⟨e0, hrun, _⟩ |
      ⟨hrun, hnone, hg, ht⟩
    · rw [hrun]
      exact hinv
    · rw [hrun]
      exact hinv
    · rw [hrun]
      have hfind : ∀ g2, map_find (map_insert f.entities guid (entity_t.new guid type)) g2 =
          if guid = g2 then some (entity_t.new guid type) else map_find f.entities g2 := by
        intro g2
        rw [map_find_insert]
        by_cases hk : guid = g2
        · subst hk
          simp [hnone]
        · cases h : map_find f.entities g2 <;> simp [hk]
      refine ⟨?_, ?_⟩
      · intro g e2 he2
        simp only [hfind] at he2
        by_cases hk : guid = g
        · simp only [hk, if_true, Option.some.injEq] at he2
          subst he2
          refine ⟨rfl, ht, ?_, ?_⟩
          · intro x hx
            cases hx
          · intro n p hp
            cases hp
        · simp only [hk, if_false] at he2
          exact hinv.1 g e2 he2
      · intro k p hk
        obtain ⟨e, he, hp⟩ := hinv.2 k p hk
        refine ⟨e, ?_, hp⟩
        simp only [hfind]
        by_cases hg2 : guid = k.guid
        · rw [hg2, he] at hnone
          cases hnone
        · simp only [hg2, if_false]
          exact he
  | lid_map _ he hp =>
    exact fabric_inv_of_ports f f2 hinv hp
      (fun g e2 h => ⟨e2, by rw [← he]; exact h, rfl, rfl, rfl⟩)
      (fun g e h => ⟨e, by rw [he]; exact h, rfl⟩)
  | add_route guid port lid =>
    unfold fabric_t.add_route
    by_cases h1 : guid = 0
    · simp only [h1, if_true]
      exact hinv
    by_cases h2 : port = 0
    · simp only [h1, h2, if_true, if_false]
      exact hinv
    by_cases h3 : lid = 0
    · simp only [h1, h2, h3, if_true, if_false]
      exact hinv
    by_cases h4 : f.lidmap.length = 0
    · simp only [h1, h2, h3, h4, if_true, if_false]
      exact hinv
    simp only [h1, h2, h3, h4, if_false]
    cases he : map_find f.entities guid with
    | none => exact hinv
    | some e =>
      simp only
      refine fabric_inv_of_ports f _ hinv ?_ ?_ ?_
      · rfl
      · intro g e2 he2
        simp only [map_find_assign] at he2
        by_cases hk : guid = g
        · simp only [hk, if_true, Option.some.injEq] at he2
          subst he2
          exact ⟨e, by rw [← hk]; exact he, rfl, rfl, rfl⟩
        · simp only [hk, if_false] at he2
          exact ⟨e2, he2, rfl, rfl, rfl⟩
      · intro g e0 he0
        simp only [map_find_assign]
        by_cases hk : guid = g
        · simp only [hk, if_true]
          rw [hk, he0] at he
          cases he
          exact ⟨_, rfl, rfl⟩
        · simp only [hk, if_false]
          exact ⟨e0, he0, rfl⟩
  | clear_routes =>
    refine fabric_inv_of_ports f _ hinv ?_ ?_ ?_
    · rfl
    · intro g e2 he2
      simp only [fabric_t.clear_routes, clear_routes_loop_eq] at he2
      have h := map_find_map_values (fun d : entity_t => { d with routes := [] }) f.entities g
      rw [h] at he2
      cases hf : map_find f.entities g with
      | none => simp [hf] at he2
      | some e =>
        simp only [hf, Option.map_some', Option.some.injEq] at he2
        subst he2
        exact ⟨e, rfl, rfl, rfl, rfl⟩
    · intro g e he
      refine ⟨{ e with routes := [] }, ?_, rfl⟩
      simp only [fabric_t.clear_routes, clear_routes_loop_eq]
      have h := map_find_map_values (fun d : entity_t => { d with routes := [] }) f.entities g
      rw [he] at h
      exact h
  | build_forwarding_table =>
    refine fabric_inv_of_ports f _ hinv ?_ ?_ ?_
    · rfl
    · intro g e2 he2
      simp only [fabric_t.build_forwarding_table, build_forwarding_table_loop_eq] at he2
      have h := map_find_map_values entity_t.build_forwarding_table f.entities g
      rw [h] at he2
      cases hf : map_find f.entities g with
      | none => simp [hf] at he2
      | some e =>
        simp only [hf, Option.map_some', Option.some.injEq] at he2
        subst he2
        exact ⟨e, rfl, rfl, rfl, rfl⟩
    · intro g e he
      refine ⟨e.build_forwarding_table, ?_, rfl⟩
      simp only [fabric_t.build_forwarding_table, build_forwarding_table_loop_eq]
      have h := map_find_map_values entity_t.build_forwarding_table f.entities g
      rw [he] at h
      exact h

theorem fabric_step_class (f f2 : fabric_t) (hs : fabric_step f f2) :
    ∀ g e, map_find f.entities g = some e →
      ∃ e2, map_find f2.entities g = some e2 ∧ e2.type = e.type ∧ e2.guid = e.guid := by
  have hcable : ∀ (f0 : fabric_t) (p1 : port_t) (p2 : Option port_t),
      ∀ g e, map_find f0.entities g = some e →
        ∃ e2, map_find (f0.add_cable p1 p2).1.entities g = some e2 ∧ e2.type = e.type ∧
          e2.guid = e.guid := by
    intro f0 p1 p2 g e he
    obtain ⟨_, _, _, _, a5, _⟩ := add_cable_frame f0 (f0.add_cable p1 p2).1 p1 p2
      (f0.add_cable p1 p2).2 rfl
    obtain ⟨e2, c1, c2, c3, _⟩ := a5 g e he
    exact ⟨e2, c1, c3, c2⟩
  cases hs with
  | add_cable port1 port2 => exact hcable f port1 port2
  | add_cables pending peers =>
    exact add_cables_rel
      (fun a b => ∀ g e, map_find a.entities g = some e →
        ∃ e2, map_find b.entities g = some e2 ∧ e2.type = e.type ∧ e2.guid = e.guid)
      (fun a g e he => ⟨e, he, rfl, rfl⟩)
      (fun a b c hab hbc g e he => by
        obtain ⟨e1, h1, t1, g1⟩ := hab g e he
        obtain ⟨e2, h2, t2, g2⟩ := hbc g e1 h1
        exact ⟨e2, h2, t2.trans t1, g2.trans g1⟩)
      hcable f pending peers
  | find_entity guid type =>
    intro g e he
    rcases find_entity_create_cases f guid type with ⟨err, hrun, _⟩ | ⟨e0, hrun, _⟩ |
      ⟨hrun, hnone, hg, ht⟩
    · rw [hrun]
      exact ⟨e, he, rfl, rfl⟩
    · rw [hrun]
      exact ⟨e, he, rfl, rfl⟩
    · rw [hrun]
      refine ⟨e, ?_, rfl, rfl⟩
      simp only
      rw [map_find_insert, he]
  | lid_map _ he hp =>
    intro g e h
    exact ⟨e, by rw [he]; exact h, rfl, rfl⟩
  | add_route guid port lid =>
    intro g e0 he0
    unfold fabric_t.add_route
    by_cases h1 : guid = 0
    · simp only [h1, if_true]
      exact ⟨e0, he0, rfl, rfl⟩
    by_cases h2 : port = 0
    · simp only [h1, h2, if_true, if_false]
      exact ⟨e0, he0, rfl, rfl⟩
    by_cases h3 : lid = 0
    · simp only [h1, h2, h3, if_true, if_false]
      exact ⟨e0, he0, rfl, rfl⟩
    by_cases h4 : f.lidmap.length = 0
    · simp only [h1, h2, h3, h4, if_true, if_false]
      exact ⟨e0, he0, rfl, rfl⟩
    simp only [h1, h2, h3, h4, if_false]
    cases he : map_find f.entities guid with
    | none => exact ⟨e0, he0, rfl, rfl⟩
    | some e =>
      simp only [map_find_assign]
      by_cases hk : guid = g
      · simp only [hk, if_true]
        rw [hk, he0] at he
        cases he
        exact ⟨_, rfl, rfl, rfl⟩
      · simp only [hk, if_false]
        exact ⟨e0, he0, rfl, rfl⟩
  | clear_routes =>
    intro g e he
    refine ⟨{ e with routes := [] }, ?_, rfl, rfl⟩
    simp only [fabric_t.clear_routes, clear_routes_loop_eq]
    have h := map_find_map_values (fun d : entity_t => { d with routes := [] }) f.entities g
    rw [he] at h
    exact h
  | build_forwarding_table =>
    intro g e he
    refine ⟨e.build_forwarding_table, ?_, rfl, rfl⟩
    simp only [fabric_t.build_forwarding_table, build_forwarding_table_loop_eq]
    have h := map_find_map_values entity_t.build_forwarding_table f.entities g
    rw [he] at h
    exact h

theorem reachable_inv (f0 f : fabric_t) (h : reachable_from f0 f) (hinv : fabric_inv f0) :
    fabric_inv f := by
  induction h with
  | refl => exact hinv
  | step f1 f2 _ hs ih => exact fabric_step_inv f1 f2 hs ih

theorem reachable_class (f0 f : fabric_t) (h : reachable_from f0 f) :
    ∀ g e, map_find f0.entities g = some e →
      ∃ e2, map_find f.entities g = some e2 ∧ e2.type = e.type ∧ e2.guid = e.guid := by
  induction h with
  | refl => exact fun g e he => ⟨e, he, rfl, rfl⟩
  | step f1 f2 _ hs ih =>
    intro g e he
    obtain ⟨e1, h1, t1, g1⟩ := ih g e he
    obtain ⟨e2, h2, t2, g2⟩ := fabric_step_class f1 f2 hs g e1 h1
    exact ⟨e2, h2, t2.trans t1, g2.trans g1⟩

theorem build_lid_map_step (f f2 : fabric_t) (d : Bool) (h : f.build_lid_map d = Except.ok f2) :
    fabric_step f f2 := by
  obtain ⟨h1, h2, _⟩ := build_lid_map_result f f2 d h
  exact fabric_step.lid_map f f2 h1 h2

/-- C21: in every fabric that calls of the writing methods of `fabric_t` (`add_cable`,
`add_cables`, `find_entity` with `create`, `build_lid_map`, `clear_lidmap`, `add_route`,
`clear_routes`, `build_forwarding_table`), whatever their outcome, build from the fabric of
the constructor, every device is stored under its guid and has a class other than `UNKNOWN`,
every port of its port map carries its guid and its class, and in every fabric that further
calls build from it the device is still there with the same class. -/
theorem device_class_fixed (f : fabric_t) (h : reachable_from fabric_t.empty f) :
    (∀ g e, map_find f.entities g = some e →
      e.guid = g ∧ e.type ≠ type_t.UNKNOWN ∧
      ∀ n p, map_find e.ports n = some p → p.guid = e.guid ∧ p.type = e.type) ∧
    (∀ f2, reachable_from f f2 → ∀ g e, map_find f.entities g = some e →
      ∃ e2, map_find f2.entities g = some e2 ∧ e2.type = e.type) := by
  have hinv := reachable_inv fabric_t.empty f h fabric_inv_empty
  refine ⟨?_, ?_⟩
  · intro g e he
    obtain ⟨a1, a2, a3, _⟩ := hinv.1 g e he
    refine ⟨a1, a2, ?_⟩
    intro n p hp
    have := a3 (n, p) (map_find_mem _ _ _ hp)
    exact ⟨this.1.trans a1.symm, this.2⟩
  · intro f2 h2 g e he
    obtain ⟨e2, c1, c2, _⟩ := reachable_class f f2 h2 g e he
    exact ⟨e2, c1, c2⟩

theorem device_class_fixed_witness :
    ∃ e2, map_find (sample_pair_fabric.add_cable (sample_port type_t.HCA 2 2 2 none)
        none).1.entities 2 = some e2 ∧ e2.type = type_t.HCA :=
  (device_class_fixed sample_pair_fabric
    (reachable_from.step _ _ reachable_from.refl (fabric_step.add_cable _ _ _))).2 _
    (reachable_from.step _ _ reachable_from.refl (fabric_step.add_cable _ _ _)) 2
    (star_hca 2 2 1) rfl

theorem pm_find_mem {V : Type} (m : List (key_guid_port_t × V)) (k : key_guid_port_t) (v : V)
    (h : pm_find m k = some v) : (k, v) ∈ m := by
  induction m with
  | nil => cases h
  | cons x m ih =>
    obtain ⟨k1, v1⟩ := x
    rw [pm_find_cons] at h
    by_cases hk : k1 = k
    · rw [if_pos hk] at h
      cases h
      rw [hk]
      exact List.mem_cons_self _ _
    · rw [if_neg hk] at h
      exact List.mem_cons_of_mem _ (ih h)

theorem pm_find_of_mem {V : Type} (m : List (key_guid_port_t × V))
    (hn : (m.map Prod.fst).Nodup) (k : key_guid_port_t) (v : V) (h : (k, v) ∈ m) :
    pm_find m k = some v := by
  induction m with
  | nil => cases h
  | cons x m ih =>
    obtain ⟨k1, v1⟩ := x
    simp only [List.map_cons, List.nodup_cons] at hn
    rw [pm_find_cons]
    rcases List.mem_cons.mp h with heq | hin
    · cases heq
      rw [if_pos rfl]
    · have hne : k1 ≠ k := by
        intro hk
        apply hn.1
        rw [hk]
        exact List.mem_map.mpr ⟨(k, v), hin, rfl⟩
      rw [if_neg hne]
      exact ih hn.2 hin

theorem pm_find_null (m : List (key_guid_port_t × Option port_t)) (k a : key_guid_port_t) :
    pm_find (pm_null m k) a =
      if k = a then (pm_find m a).map (fun _ => none) else pm_find m a := by
  induction m with
  | nil =>
    simp [pm_null, pm_find]
  | cons x m ih =>
    obtain ⟨k1, v1⟩ := x
    unfold pm_null at ih ⊢
    rw [List.map_cons]
    by_cases h1 : k1 = k
    · have hb : (!(k1.lt k) && !(k.lt k1)) = true := (key_equiv_iff k1 k).mpr h1
      simp only [hb, if_true]
      rw [pm_find_cons, pm_find_cons, ih]
      by_cases h2 : k = a
      · have h3 : k1 = a := h1.trans h2
        simp [h2, h3]
      · have h3 : k1 ≠ a := fun h => h2 (h1.symm.trans h)
        simp [h2, h3]
    · have hb : ¬ ((!(k1.lt k) && !(k.lt k1)) = true) := fun h => h1 ((key_equiv_iff k1 k).mp h)
      simp only [hb, if_false]
      rw [pm_find_cons, pm_find_cons, ih]
      by_cases h2 : k = a
      · have h3 : k1 ≠ a := fun h => h1 (h.trans h2.symm)
        simp [h2, h3]
      · simp [h2]

theorem cable_ends_cons (p : port_t) (o : Option port_t) (cs : List (port_t × Option port_t)) :
    cable_ends ((p, o) :: cs) = p :: (o.toList ++ cable_ends cs) := by
  cases o <;> rfl

theorem add_cable_ok_index (f f1 : fabric_t) (p : port_t) (o : Option port_t)
    (h : f.add_cable p o = (f1, Except.ok true)) :
    pm_find f.portmap p.key = none ∧
    (∀ q, o = some q → pm_find f.portmap q.key = none ∧ q.key ≠ p.key ∧
      p.connection = some q.key ∧ q.connection = some p.key) ∧
    (∀ k v, pm_find f1.portmap k = some v ↔
      pm_find f.portmap k = some v ∨ (v ∈ p :: o.toList ∧ k = v.key)) := by
  obtain ⟨hcheck, hnone, _⟩ := add_cable_ok f f1 p o h
  obtain ⟨a1, a2, _, _, _, a6, a7, _⟩ := add_cable_ok_frame f f1 p o h
  obtain ⟨_, _, hq⟩ := (add_cable_check_ok_iff f p o).mp hcheck
  refine ⟨hnone, ?_, ?_⟩
  · intro q ho
    obtain ⟨c1, c2, _, _, c5, c6⟩ := hq q ho
    refine ⟨?_, ?_, c1, c2⟩
    · rw [hnone] at c6
      cases hf : pm_find f.portmap q.key with
      | none => rfl
      | some w => simp [hf] at c6
    · intro hk
      apply c5
      unfold port_t.key at hk
      simp only [key_guid_port_t.mk.injEq] at hk
      exact ⟨hk.1.symm, hk.2.symm⟩
  · intro k v
    constructor
    · intro hv
      rcases a7 k v hv with h1 | ⟨h1, h2⟩ | ⟨q, h1, h2, h3⟩
      · exact Or.inl h1
      · exact Or.inr ⟨by rw [h2]; exact List.mem_cons_self _ _, by rw [h1, h2]⟩
      · refine Or.inr ⟨?_, by rw [h2, h3]⟩
        rw [h3, h1]
        simp
    · rintro (hv | ⟨hv, hk⟩)
      · exact a6 k v hv
      · rcases List.mem_cons.mp hv with h1 | h1
        · rw [hk, h1]
          exact a1
        · cases o with
          | none => cases h1
          | some q =>
            simp only [Option.toList_some, List.mem_singleton] at h1
            rw [hk, h1]
            exact a2 q rfl

theorem pm_null_sub (m : List (key_guid_port_t × Option port_t)) (k a : key_guid_port_t)
    (v : port_t) (h : pm_find (pm_null m k) a = some (some v)) :
    pm_find m a = some (some v) ∧ k ≠ a := by
  rw [pm_find_null] at h
  by_cases hk : k = a
  · rw [if_pos hk] at h
    cases hf : pm_find m a with
    | none => simp [hf] at h
    | some w => simp [hf] at h
  · rw [if_neg hk] at h
    exact ⟨h, hk⟩

theorem cable_step_combine (f f1 f2 : fabric_t) (p : port_t) (o : Option port_t)
    (cs : List (port_t × Option port_t))
    (h : f.add_cable p o = (f1, Except.ok true))
    (hB : ∀ k v, pm_find f2.portmap k = some v ↔
      pm_find f1.portmap k = some v ∨ (v ∈ cable_ends cs ∧ k = v.key))
    (hC : ∀ v ∈ cable_ends cs, pm_find f1.portmap v.key = none)
    (hD : (cable_ends cs).Pairwise (fun a b => a.key ≠ b.key)) :
    (∀ k v, pm_find f2.portmap k = some v ↔
      pm_find f.portmap k = some v ∨ (v ∈ cable_ends ((p, o) :: cs) ∧ k = v.key)) ∧
    (∀ v ∈ cable_ends ((p, o) :: cs), pm_find f.portmap v.key = none) ∧
    (cable_ends ((p, o) :: cs)).Pairwise (fun a b => a.key ≠ b.key) := by
  obtain ⟨a, b, c⟩ := add_cable_ok_index f f1 p o h
  have hnew : ∀ x ∈ p :: o.toList, pm_find f1.portmap x.key = some x :=
    fun x hx => (c x.key x).mpr (Or.inr ⟨hx, rfl⟩)
  have hsep : ∀ x ∈ p :: o.toList, ∀ v ∈ cable_ends cs, x.key ≠ v.key := by
    intro x hx v hv hk
    have h1 := hnew x hx
    rw [hk, hC v hv] at h1
    cases h1
  rw [cable_ends_cons]
  refine ⟨?_, ?_, ?_⟩
  · intro k v
    rw [hB, c]
    constructor
    · rintro ((h1 | ⟨h1, h2⟩) | ⟨h1, h2⟩)
      · exact Or.inl h1
      · refine Or.inr ⟨?_, h2⟩
        rcases List.mem_cons.mp h1 with h3 | h3
        · rw [h3]
          exact List.mem_cons_self _ _
        · exact List.mem_cons_of_mem _ (List.mem_append_left _ h3)
      · exact Or.inr ⟨List.mem_cons_of_mem _ (List.mem_append_right _ h1), h2⟩
    · rintro (h1 | ⟨h1, h2⟩)
      · exact Or.inl (Or.inl h1)
      · rcases List.mem_cons.mp h1 with h3 | h3
        · exact Or.inl (Or.inr ⟨by rw [h3]; exact List.mem_cons_self _ _, h2⟩)
        · rcases List.mem_append.mp h3 with h4 | h4
          · exact Or.inl (Or.inr ⟨List.mem_cons_of_mem _ h4, h2⟩)
          · exact Or.inr ⟨h4, h2⟩
  · intro v hv
    rcases List.mem_cons.mp hv with h3 | h3
    · rw [h3]
      exact a
    · rcases List.mem_append.mp h3 with h4 | h4
      · cases o with
        | none => cases h4
        | some q =>
          simp only [Option.toList_some, List.mem_singleton] at h4
          rw [h4]
          exact (b q rfl).1
      · cases hf : pm_find f.portmap v.key with
        | none => rfl
        | some w =>
          have h1 := (c v.key w).mpr (Or.inl hf)
          rw [hC v h4] at h1
          cases h1
  · rw [List.pairwise_cons, List.pairwise_append]
    refine ⟨?_, ?_, hD, ?_⟩
    · intro v hv
      rcases List.mem_append.mp hv with h4 | h4
      · cases o with
        | none => cases h4
        | some q =>
          simp only [Option.toList_some, List.mem_singleton] at h4
          rw [h4]
          exact fun hk => (b q rfl).2.1 hk.symm
      · exact hsep p (List.mem_cons_self _ _) v h4
    · cases o with
      | none => exact List.Pairwise.nil
      | some q => exact List.pairwise_singleton _ _
    · intro x hx v hv
      exact hsep x (List.mem_cons_of_mem _ hx) v hv

theorem add_cables_loop_calls (objs : List (key_guid_port_t × Option port_t))
    (peers : List (key_guid_port_t × port_t))
    (hown : pending_keyed objs)
    (hpeers : ∀ k p c, pm_find objs k = some (some p) → p.connection = some c →
      (∃ q, pm_find objs c = some (some q)) ∨ pm_find peers c = none)
    (ks : List key_guid_port_t) (hks : ks.Nodup) :
    ∀ (f f2 : fabric_t) (pend pend2 : List (key_guid_port_t × Option port_t)),
    (∀ k v, pm_find pend k = some (some v) → pm_find objs k = some (some v)) →
    add_cables_loop objs peers ks f pend = (f2, pend2, cables_end.completed) →
    (∀ c ∈ add_cables_calls objs peers ks f pend,
      pm_find objs c.1.key = some (some c.1) ∧
      ((c.2 = none ∧ c.1.connection = none) ∨
        ∃ q, c.2 = some q ∧ pm_find objs q.key = some (some q) ∧
          c.1.connection = some q.key ∧ q.connection = some c.1.key)) ∧
    (∀ k v, pm_find f2.portmap k = some v ↔
      pm_find f.portmap k = some v ∨
        (v ∈ cable_ends (add_cables_calls objs peers ks f pend) ∧ k = v.key)) ∧
    (∀ v ∈ cable_ends (add_cables_calls objs peers ks f pend), pm_find f.portmap v.key = none) ∧
    (cable_ends (add_cables_calls objs peers ks f pend)).Pairwise (fun a b => a.key ≠ b.key) ∧
    (∀ k ∈ ks, ∀ v, pm_find pend k = some (some v) →
      v ∈ cable_ends (add_cables_calls objs peers ks f pend)) := by
  have hkey : ∀ k v, pm_find objs k = some (some v) → v.key = k := by
    intro k v h
    exact hown (k, some v) (pm_find_mem _ _ _ h) v rfl
  induction ks with
  | nil =>
    intro f f2 pend pend2 _ h
    simp only [add_cables_loop, Prod.mk.injEq] at h
    obtain ⟨hf, _⟩ := h
    subst hf
    simp [add_cables_calls, cable_ends]
  | cons k ks ih =>
    intro f f2 pend pend2 hsub h
    obtain ⟨hk, hks2⟩ := List.nodup_cons.mp hks
    have hskip : (∀ v, pm_find pend k ≠ some (some v)) →
        add_cables_loop objs peers (k :: ks) f pend = add_cables_loop objs peers ks f pend ∧
        add_cables_calls objs peers (k :: ks) f pend = add_cables_calls objs peers ks f pend := by
      intro hne
      cases hfind : pm_find pend k with
      | none => simp [add_cables_loop, add_cables_calls, hfind]
      | some o =>
        cases o with
        | none => simp [add_cables_loop, add_cables_calls, hfind]
        | some p => exact absurd hfind (hne p)
    by_cases hex : ∃ p, pm_find pend k = some (some p)
    · obtain ⟨p, hfind⟩ := hex
      have hpk : p.key = k := hkey k p (hsub k p hfind)
      have hobj : pm_find objs p.key = some (some p) := by
        rw [hpk]
        exact hsub k p hfind
      by_cases hself : p.connection = some p.key
      · simp [add_cables_loop, hfind, hself] at h
      cases hconn : p.connection with
      | none =>
        rcases hcab : f.add_cable p none with ⟨f1, r⟩
        have hr : r = Except.ok true := by
          cases r with
          | error err => simp [add_cables_loop, hfind, hconn, hcab] at h
          | ok b =>
            cases b with
            | false => simp [add_cables_loop, hfind, hconn, hcab] at h
            | true => rfl
        subst hr
        have hl : add_cables_loop objs peers ks f1 (pm_null pend k) =
            (f2, pend2, cables_end.completed) := by
          simpa [add_cables_loop, hfind, hconn, hcab] using h
        have hc : add_cables_calls objs peers (k :: ks) f pend =
            (p, none) :: add_cables_calls objs peers ks f1 (pm_null pend k) := by
          simp [add_cables_calls, hfind, hconn, hcab]
        have hsub2 : ∀ k2 v, pm_find (pm_null pend k) k2 = some (some v) →
            pm_find objs k2 = some (some v) :=
          fun k2 v hv => hsub k2 v (pm_null_sub _ _ _ _ hv).1
        obtain ⟨A, B, C, D, E⟩ := ih hks2 f1 f2 _ pend2 hsub2 hl
        obtain ⟨B2, C2, D2⟩ := cable_step_combine f f1 f2 p none _ hcab B C D
        rw [hc]
        refine ⟨?_, B2, C2, D2, ?_⟩
        · intro c hcm
          rcases List.mem_cons.mp hcm with heq | hin
          · rw [heq]
            exact ⟨hobj, Or.inl ⟨rfl, hconn⟩⟩
          · exact A c hin
        · intro k2 hk2 v hv
          rw [cable_ends_cons]
          rcases List.mem_cons.mp hk2 with heq | hin
          · rw [heq, hfind] at hv
            cases hv
            exact List.mem_cons_self _ _
          · have hne : k ≠ k2 := fun hkk => hk (hkk ▸ hin)
            refine List.mem_cons_of_mem _ (List.mem_append_right _ (E k2 hin v ?_))
            rw [pm_find_null, if_neg hne]
            exact hv
      | some c =>
        have hck : ¬ (c = p.key) := by
          intro hcp
          apply hself
          rw [hconn, hcp]
        have hnopeer : (∀ q, pm_find objs c ≠ some (some q)) → peer_of objs peers c = none := by
          intro hno
          have hp0 : pm_find peers c = none := by
            rcases hpeers k p c (hsub k p hfind) hconn with ⟨q, h1⟩ | h1
            · exact absurd h1 (hno q)
            · exact h1
          unfold peer_of
          split
          · rename_i q hq0
            exact absurd hq0 (hno q)
          · exact hp0
        cases hq : pm_find objs c with
        | none =>
          have hpo := hnopeer (fun q hq0 => by rw [hq] at hq0; cases hq0)
          simp [add_cables_loop, hfind, hconn, hpo, hck] at h
        | some oq =>
          cases oq with
          | none =>
            have hpo := hnopeer (fun q hq0 => by rw [hq] at hq0; cases hq0)
            simp [add_cables_loop, hfind, hconn, hpo, hck] at h
          | some q =>
            have hpo : peer_of objs peers c = some q := by
              unfold peer_of
              rw [hq]
            have hqk : q.key = c := hkey c q hq
            rcases hcab : f.add_cable p (some q) with ⟨f1, r⟩
            have hr : r = Except.ok true := by
              cases r with
              | error err => simp [add_cables_loop, hfind, hconn, hpo, hck, hcab] at h
              | ok b =>
                cases b with
                | false => simp [add_cables_loop, hfind, hconn, hpo, hck, hcab] at h
                | true => rfl
            subst hr
            have hpc : ∃ o, pm_find pend c = some o := by
              cases hpc0 : pm_find pend c with
              | none => simp [add_cables_loop, hfind, hconn, hpo, hck, hcab, hpc0] at h
              | some o => exact ⟨o, rfl⟩
            obtain ⟨o, hpc⟩ := hpc
            have hl : add_cables_loop objs peers ks f1 (pm_null (pm_null pend c) k) =
                (f2, pend2, cables_end.completed) := by
              simpa [add_cables_loop, hfind, hconn, hpo, hck, hcab, hpc] using h
            have hc : add_cables_calls objs peers (k :: ks) f pend =
                (p, some q) :: add_cables_calls objs peers ks f1 (pm_null (pm_null pend c) k) := by
              simp [add_cables_calls, hfind, hconn, hpo, hck, hcab, hpc]
            have hsub2 : ∀ k2 v, pm_find (pm_null (pm_null pend c) k) k2 = some (some v) →
                pm_find objs k2 = some (some v) :=
              fun k2 v hv =>
                hsub k2 v (pm_null_sub _ _ _ _ (pm_null_sub _ _ _ _ hv).1).1
            obtain ⟨A, B, C, D, E⟩ := ih hks2 f1 f2 _ pend2 hsub2 hl
            obtain ⟨B2, C2, D2⟩ := cable_step_combine f f1 f2 p (some q) _ hcab B C D
            obtain ⟨_, hb, _⟩ := add_cable_ok_index f f1 p (some q) hcab
            obtain ⟨_, _, b3, b4⟩ := hb q rfl
            rw [hc]
            refine ⟨?_, B2, C2, D2, ?_⟩
            · intro c0 hcm
              rcases List.mem_cons.mp hcm with heq | hin
              · rw [heq]
                refine ⟨hobj, Or.inr ⟨q, rfl, ?_, b3, b4⟩⟩
                rw [hqk]
                exact hq
              · exact A c0 hin
            · intro k2 hk2 v hv
              rw [cable_ends_cons]
              rcases List.mem_cons.mp hk2 with heq | hin
              · rw [heq, hfind] at hv
                cases hv
                exact List.mem_cons_self _ _
              · have hne : k ≠ k2 := fun hkk => hk (hkk ▸ hin)
                by_cases hc2 : c = k2
                · have h1 := hsub k2 v hv
                  rw [← hc2, hq] at h1
                  cases h1
                  exact List.mem_cons_of_mem _ (List.mem_append_left _ (by simp))
                · refine List.mem_cons_of_mem _ (List.mem_append_right _ (E k2 hin v ?_))
                  rw [pm_find_null, if_neg hne, pm_find_null, if_neg hc2]
                  exact hv
    · have hne : ∀ v, pm_find pend k ≠ some (some v) := fun v hv => hex ⟨v, hv⟩
      obtain ⟨hl, hc⟩ := hskip hne
      rw [hl] at h
      rw [hc]
      obtain ⟨A, B, C, D, E⟩ := ih hks2 f f2 pend pend2 hsub h
      refine ⟨A, B, C, D, ?_⟩
      intro k2 hk2 v hv
      rcases List.mem_cons.mp hk2 with heq | hin
      · rw [heq] at hv
        exact absurd hv (hne v)
      · exact E k2 hin v hv

theorem mem_cable_ends (cs : List (port_t × Option port_t)) (v : port_t) :
    v ∈ cable_ends cs ↔ ∃ c ∈ cs, v = c.1 ∨ c.2 = some v := by
  induction cs with
  | nil => simp [cable_ends]
  | cons c cs ih =>
    obtain ⟨p, o⟩ := c
    rw [cable_ends_cons]
    simp only [List.mem_cons, List.mem_append, ih, exists_eq_or_imp]
    cases o with
    | none => simp
    | some q =>
      simp only [Option.toList_some, List.mem_singleton, Option.some.injEq]
      constructor
      · rintro (h | h | h)
        · exact Or.inl (Or.inl h)
        · exact Or.inl (Or.inr h.symm)
        · exact Or.inr h
      · rintro ((h | h) | h)
        · exact Or.inl h
        · exact Or.inr (Or.inl h.symm)
        · exact Or.inr (Or.inr h)

theorem pending_ports_nodup (m : List (key_guid_port_t × Option port_t))
    (hkeys : (m.map Prod.fst).Nodup) (hown : pending_keyed m) :
    (m.filterMap Prod.snd).Nodup := by
  induction m with
  | nil => exact List.nodup_nil
  | cons x m ih =>
    obtain ⟨k, o⟩ := x
    simp only [List.map_cons, List.nodup_cons] at hkeys
    have hown2 : pending_keyed m := fun y hy => hown y (List.mem_cons_of_mem _ hy)
    cases o with
    | none =>
      simp only [List.filterMap_cons]
      exact ih hkeys.2 hown2
    | some p =>
      simp only [List.filterMap_cons]
      refine List.nodup_cons.mpr ⟨?_, ih hkeys.2 hown2⟩
      intro hp
      obtain ⟨y, hy, hy2⟩ := List.mem_filterMap.mp hp
      have h1 : p.key = y.1 := hown y (List.mem_cons_of_mem _ hy) p hy2
      have h2 : p.key = k := hown (k, some p) (List.mem_cons_self _ _) p rfl
      apply hkeys.1
      rw [← h2, h1]
      exact List.mem_map.mpr ⟨y, hy, rfl⟩

/-- C23: for every pending map with pairwise different keys that stores each port under the
key of the port and whose ports are linked to no port outside the map (the peer of a port of
the map is a port the map holds, or `peers` holds no port under the key of the link), a call
of `add_cables` that returns true makes calls `add_cable(port1,
port2)` such that every call is for a port of the map that is dark (`port2` is null), or for
a port of the map and its peer, a port of the map linked back to it; the ports of the calls,
both ends counted, are the ports of the map, each one exactly once; and afterwards the flat
port index holds what it held before and the ports of the map under their keys, none of which
it held before. -/
theorem add_cables_once_per_cable (f : fabric_t)
    (pending : List (key_guid_port_t × Option port_t))
    (peers : List (key_guid_port_t × port_t))
    (hkeys : (pending.map Prod.fst).Nodup) (hown : pending_keyed pending)
    (hpeers : ∀ k p c, pm_find pending k = some (some p) → p.connection = some c →
      (∃ q, pm_find pending c = some (some q)) ∨ pm_find peers c = none)
    (hok : (f.add_cables pending peers).result = Except.ok true) :
    (∀ c ∈ add_cables_calls pending peers (pending.map Prod.fst) f pending,
      (c.1.key, some c.1) ∈ pending ∧
      ((c.2 = none ∧ c.1.connection = none) ∨
        ∃ q, c.2 = some q ∧ (q.key, some q) ∈ pending ∧
          c.1.connection = some q.key ∧ q.connection = some c.1.key)) ∧
    List.Perm (cable_ends (add_cables_calls pending peers (pending.map Prod.fst) f pending))
      (pending.filterMap Prod.snd) ∧
    (∀ k v, pm_find (f.add_cables pending peers).fabric.portmap k = some v ↔
      pm_find f.portmap k = some v ∨ pm_find pending k = some (some v)) ∧
    (∀ k v, pm_find pending k = some (some v) → pm_find f.portmap k = none) := by
  rcases hloop : add_cables_loop pending peers (pending.map Prod.fst) f pending with ⟨f1, pend2, e⟩
  have hfab : (f.add_cables pending peers).fabric = f1 ∧ e = cables_end.completed := by
    unfold fabric_t.add_cables at hok ⊢
    rw [hloop] at hok ⊢
    cases e with
    | completed => exact ⟨rfl, rfl⟩
    | cable_failed => simp at hok
    | asserted err => simp at hok
  obtain ⟨hf1, he⟩ := hfab
  subst he
  obtain ⟨A, B, C, D, E⟩ := add_cables_loop_calls pending peers hown hpeers (pending.map Prod.fst) hkeys
    f f1 pending pend2 (fun _ _ h => h) hloop
  have hkey : ∀ k v, pm_find pending k = some (some v) → v.key = k := by
    intro k v h
    exact hown (k, some v) (pm_find_mem _ _ _ h) v rfl
  have hendfind : ∀ v, v ∈ cable_ends (add_cables_calls pending peers (pending.map Prod.fst) f pending) →
      pm_find pending v.key = some (some v) := by
    intro v hv
    obtain ⟨c, hc, hvc⟩ := (mem_cable_ends _ v).mp hv
    obtain ⟨a1, a2⟩ := A c hc
    rcases hvc with h1 | h1
    · rw [h1]
      exact a1
    · rcases a2 with ⟨h2, _⟩ | ⟨q, h2, h3, _⟩
      · rw [h2] at h1
        cases h1
      · rw [h2] at h1
        cases h1
        exact h3
  have hfindend : ∀ k v, pm_find pending k = some (some v) →
      v ∈ cable_ends (add_cables_calls pending peers (pending.map Prod.fst) f pending) := by
    intro k v h
    exact E k (List.mem_map.mpr ⟨(k, some v), pm_find_mem _ _ _ h, rfl⟩) v h
  refine ⟨?_, ?_, ?_, ?_⟩
  · intro c hc
    obtain ⟨a1, a2⟩ := A c hc
    refine ⟨pm_find_mem _ _ _ a1, ?_⟩
    rcases a2 with h2 | ⟨q, h2, h3, h4, h5⟩
    · exact Or.inl h2
    · exact Or.inr ⟨q, h2, pm_find_mem _ _ _ h3, h4, h5⟩
  · have hnd1 : (cable_ends (add_cables_calls pending peers (pending.map Prod.fst) f pending)).Nodup :=
      List.Pairwise.imp (fun h heq => h (congrArg port_t.key heq)) D
    refine (List.perm_ext_iff_of_nodup hnd1 (pending_ports_nodup pending hkeys hown)).mpr ?_
    intro v
    constructor
    · intro hv
      exact List.mem_filterMap.mpr ⟨(v.key, some v), pm_find_mem _ _ _ (hendfind v hv), rfl⟩
    · intro hv
      obtain ⟨x, hx, hx2⟩ := List.mem_filterMap.mp hv
      obtain ⟨k, o⟩ := x
      simp only at hx2
      subst hx2
      exact hfindend k v (pm_find_of_mem _ hkeys k _ hx)
  · intro k v
    rw [hf1, B]
    constructor
    · rintro (h | ⟨h1, h2⟩)
      · exact Or.inl h
      · rw [h2]
        exact Or.inr (hendfind v h1)
    · rintro (h | h)
      · exact Or.inl h
      · exact Or.inr ⟨hfindend k v h, (hkey k v h).symm⟩
  · intro k v h
    have := C v (hfindend k v h)
    rw [hkey k v h] at this
    exact this

theorem add_cables_once_per_cable_witness :
    (add_cables_calls sample_pending [] (sample_pending.map Prod.fst) fabric_t.empty
      sample_pending).length = 2 ∧
    List.Perm
      (cable_ends (add_cables_calls sample_pending [] (sample_pending.map Prod.fst) fabric_t.empty
        sample_pending))
      (sample_pending.filterMap Prod.snd) :=
  ⟨rfl, (add_cables_once_per_cable fabric_t.empty sample_pending [] (by decide)
    (by
      intro x hx p hp
      simp only [sample_pending, List.mem_cons, List.mem_singleton, List.not_mem_nil,
        or_false] at hx
      rcases hx with h | h | h <;> subst h <;> cases hp <;> rfl)
    (fun _ _ _ _ _ => Or.inr rfl) rfl).2.1⟩

/-- C39: on keys with non-zero guid and port number the assertions of `operator<` pass and
the comparison is the lexicographic order on `(guid, port)`: irreflexive, transitive and
total, with two keys mutually unordered exactly when they have the same guid and the same
port number, which is when they are the same key; so the lookup in a flat port index finds
the entry whose key has the guid and the port number looked for. -/
theorem key_order_lexicographic (a b c : key_guid_port_t)
    (ha : a.guid ≠ 0 ∧ a.port ≠ 0) (hb : b.guid ≠ 0 ∧ b.port ≠ 0) :
    a.lt_asserted b = Except.ok (a.lt b) ∧
    (a.lt b = true ↔ a.guid < b.guid ∨ (a.guid = b.guid ∧ a.port < b.port)) ∧
    a.lt a = false ∧
    (a.lt b = true → b.lt c = true → a.lt c = true) ∧
    (a.lt b = true ∨ b.lt a = true ∨ a = b) ∧
    ((a.lt b = false ∧ b.lt a = false) ↔ (a.guid = b.guid ∧ a.port = b.port)) ∧
    ((a.guid = b.guid ∧ a.port = b.port) ↔ a = b) ∧
    (∀ (m : List (key_guid_port_t × port_t)) (v : port_t),
      pm_find ((b, v) :: m) a =
        if b.guid = a.guid ∧ b.port = a.port then some v else pm_find m a) := by
  have hlex : ∀ x y : key_guid_port_t,
      x.lt y = true ↔ x.guid < y.guid ∨ (x.guid = y.guid ∧ x.port < y.port) := by
    intro x y
    unfold key_guid_port_t.lt
    by_cases h : x.guid = y.guid
    · simp [h]
    · simp only [h, if_false, decide_eq_true_eq, false_and, or_false]
  have hfalse : ∀ x y : key_guid_port_t,
      x.lt y = false ↔ ¬ (x.guid < y.guid ∨ (x.guid = y.guid ∧ x.port < y.port)) := by
    intro x y
    rw [← hlex]
    simp
  have heq : (a.guid = b.guid ∧ a.port = b.port) ↔ a = b := by
    constructor
    · rintro ⟨h1, h2⟩
      cases a
      cases b
      simp only at h1 h2
      rw [h1, h2]
    · intro h
      rw [h]
      exact ⟨rfl, rfl⟩
  refine ⟨?_, hlex a b, ?_, ?_, ?_, ?_, heq, ?_⟩
  · simp [key_guid_port_t.lt_asserted, key_guid_port_t.lt, ha.1, ha.2, hb.1, hb.2]
  · rw [hfalse]
    omega
  · intro h1 h2
    rw [hlex] at h1 h2 ⊢
    omega
  · rw [hlex, hlex, ← heq]
    omega
  · rw [hfalse, hfalse]
    omega
  · intro m v
    rw [pm_find_cons]
    by_cases h : b = a
    · have h2 : b.guid = a.guid ∧ b.port = a.port := by
        rw [h]
        exact ⟨rfl, rfl⟩
      rw [if_pos h, if_pos h2]
    · have h2 : ¬ (b.guid = a.guid ∧ b.port = a.port) := by
        intro h3
        apply h
        cases a
        cases b
        simp only at h3
        rw [h3.1, h3.2]
      rw [if_neg h, if_neg h2]

theorem key_order_lexicographic_witness :
    ({ guid := 1, port := 9 } : key_guid_port_t).lt_asserted { guid := 2, port := 1 } =
      Except.ok true ∧
    ({ guid := 2, port := 1 } : key_guid_port_t).lt { guid := 2, port := 1 } = false :=
  ⟨(key_order_lexicographic { guid := 1, port := 9 } { guid := 2, port := 1 }
      { guid := 3, port := 1 } (by decide) (by decide)).1,
    (key_order_lexicographic { guid := 2, port := 1 } { guid := 2, port := 1 }
      { guid := 3, port := 1 } (by decide) (by decide)).2.2.1⟩

theorem forward_of_same_tables (e e2 t t2 : entity_t) (f : fabric_t)
    (hu : e2.uft = e.uft) (hp : e2.ports = e.ports) (ht : t2.ports = t.ports) :
    e2.forward f t2 = e.forward f t := by
  unfold entity_t.forward entity_t.lid entity_t.get_first_port
  rw [hu, hp, ht]

theorem forward_in_place (e e2 t : entity_t) (f : fabric_t) (g : Nat)
    (he : map_find f.entities g = some e) (hu : e2.uft = e.uft) (hp : e2.ports = e.ports)
    (hg : e2.guid = e.guid) (hty : e2.type = e.type) :
    (∀ err, e.forward f t = Except.error err →
      e2.forward { f with entities := map_assign f.entities g e2 } t = Except.error err) ∧
    (∀ d, e.forward f t = Except.ok d →
      ∃ d2, e2.forward { f with entities := map_assign f.entities g e2 } t = Except.ok d2 ∧
        d2.guid = d.guid ∧ d2.type = d.type ∧ d2.ports = d.ports ∧ d2.uft = d.uft) := by
  unfold entity_t.forward
  rw [hu, hp]
  cases t.lid with
  | error err0 => exact ⟨fun err h => h, fun d h => by cases h⟩
  | ok tl =>
    simp only
    cases map_find e.uft tl with
    | none => exact ⟨fun err h => h, fun d h => by cases h⟩
    | some pn =>
      simp only
      cases map_find e.ports pn with
      | none => exact ⟨fun err h => h, fun d h => by cases h⟩
      | some p =>
        simp only
        cases p.connection with
        | none => exact ⟨fun err h => h, fun d h => by cases h⟩
        | some c =>
          simp only [fabric_t.find_entity, map_find_assign]
          by_cases hk : g = c.guid
          · rw [if_pos hk, ← hk, he]
            simp only
            refine ⟨(fun err h => by cases h), fun d h => ?_⟩
            simp only [Except.ok.injEq] at h
            subst h
            exact ⟨e2, rfl, hg, hty, hp, hu⟩
          · rw [if_neg hk]
            cases map_find f.entities c.guid with
            | none => exact ⟨fun err h => h, fun d h => by cases h⟩
            | some d0 =>
              simp only
              refine ⟨(fun err h => by cases h), fun d h => ?_⟩
              simp only [Except.ok.injEq] at h
              subst h
              exact ⟨d0, rfl, rfl, rfl, rfl, rfl⟩

/-- C38: `entity_t::clear_routes` and `entity_t::add_route` leave `uft` as it is, and
`forward` gives for every target what it gave before the call; with the entity changed in
place in the fabric, a failing `forward` fails the same way and a `forward` that returns
returns the same device (same guid, class, ports and forwarding table).
`build_forwarding_table` is the only writer of `uft`. -/
theorem routes_keep_forwarding (e : entity_t) (p a : Nat) (f : fabric_t) (t : entity_t) :
    e.clear_routes.1.uft = e.uft ∧ (e.add_route p a).1.uft = e.uft ∧
    e.clear_routes.1.forward f t = e.forward f t ∧
    (e.add_route p a).1.forward f t = e.forward f t ∧
    (∀ g e2, map_find f.entities g = some e →
      e2 = e.clear_routes.1 ∨ e2 = (e.add_route p a).1 →
      (∀ err, e.forward f t = Except.error err →
        e2.forward { f with entities := map_assign f.entities g e2 } t = Except.error err) ∧
      (∀ d, e.forward f t = Except.ok d →
        ∃ d2, e2.forward { f with entities := map_assign f.entities g e2 } t = Except.ok d2 ∧
          d2.guid = d.guid ∧ d2.type = d.type ∧ d2.ports = d.ports ∧ d2.uft = d.uft)) := by
  refine ⟨rfl, rfl, forward_of_same_tables e _ t t f rfl rfl rfl,
    forward_of_same_tables e _ t t f rfl rfl rfl, ?_⟩
  intro g e2 he h2
  rcases h2 with h | h
  · subst h
    exact forward_in_place e _ t f g he rfl rfl rfl rfl
  · subst h
    exact forward_in_place e _ t f g he rfl rfl rfl rfl

theorem routes_keep_forwarding_witness :
    ((star_switch 1).add_route 1 3).1.forward (star_fabric 1) (star_hca 3 3 2) =
      Except.ok (star_hca 3 3 2) ∧
    (star_switch 1).clear_routes.1.forward (star_fabric 1) (star_hca 3 3 2) =
      Except.ok (star_hca 3 3 2) :=
  ⟨(routes_keep_forwarding (star_switch 1) 1 3 (star_fabric 1) (star_hca 3 3 2)).2.2.2.1.trans
      rfl,
    (routes_keep_forwarding (star_switch 1) 1 3 (star_fabric 1) (star_hca 3 3 2)).2.2.1.trans
      rfl⟩

/-- C34 (the code at the failing input): for the host adapter at lid 10 and the switch at
lid 16, the first pass at multiplier 0 succeeds, the inference finds the bound 5 (the first
collision is at offset 6) and sets the multiplier 3, for which `2 ^ 3 - 1 = 7` exceeds the
bound, and the rebuild at multiplier 3 ends in the collision assertion at lid 16. -/
theorem build_lid_map_rebuild_collides :
    (two_device_fabric 0 type_t.HCA 10 type_t.TCA 16).build_lid_map_pass =
      Except.ok { two_device_fabric 0 type_t.HCA 10 type_t.TCA 16 with
        lidmap := [(10, 1), (16, 2)] } ∧
    fabric_t.determine_max_lmc_lid { two_device_fabric 0 type_t.HCA 10 type_t.TCA 16 with
        lidmap := [(10, 1), (16, 2)] } = Except.ok 5 ∧
    lmc_of_max_lmc_lid 5 = 3 ∧ ¬ (2 ^ 3 - 1 ≤ 5) ∧
    (two_device_fabric 0 type_t.HCA 10 type_t.TCA 16).build_lid_map true =
      Except.error error_t.AddressCollision :=
  ⟨rfl, rfl, rfl, by decide, rfl⟩

/-- C37: on a fabric whose flat index agrees with its devices, for a new valid port `port1`
whose class fits its device, linked to a new valid port `port2` whose device exists with
another class, `add_cable(port1, port2)` ends in the class assertion of `find_entity` for
`port2` after `port1` was attached: the fabric it leaves holds `port1` in the flat port index
and in the port map of its device, and differs from the fabric before the call. -/
theorem add_cable_not_atomic (f : fabric_t) (port1 port2 : port_t) (hinv : fabric_inv f)
    (hg1 : port1.guid ≠ 0) (hn1 : port1.port ≠ 0) (hg2 : port2.guid ≠ 0) (hn2 : port2.port ≠ 0)
    (hl1 : port1.connection = some port2.key) (hl2 : port2.connection = some port1.key)
    (hkey : ¬ (port1.guid = port2.guid ∧ port1.port = port2.port))
    (hu1 : pm_find f.portmap port1.key = none) (hu2 : pm_find f.portmap port2.key = none)
    (hc1 : ∀ e, map_find f.entities port1.guid = some e → e.type = port1.type)
    (hk1 : map_find f.entities port1.guid = none → port1.type ≠ type_t.UNKNOWN)
    (hbad : ∃ e, map_find f.entities port2.guid = some e ∧ e.type ≠ port2.type) :
    ∃ f1, f.add_cable port1 (some port2) = (f1, Except.error error_t.DeviceClassMismatch) ∧
      pm_find f1.portmap port1.key = some port1 ∧
      (∃ e, map_find f1.entities port1.guid = some e ∧
        map_find e.ports port1.port = some port1) ∧
      f1 ≠ f := by
  have hc : add_cable_check f port1 (some port2) = Except.ok () := by
    apply (add_cable_check_ok_iff f port1 (some port2)).mpr
    refine ⟨hg1, hn1, ?_⟩
    intro q hq
    cases hq
    exact ⟨hl1, hl2, hg2, hn2, hkey, by rw [hu1, hu2]⟩
  obtain ⟨f1, h1⟩ := attach_port_succeeds f port1 hinv hg1 hu1 hc1 hk1
  obtain ⟨_, _, _, _, _, a6, _⟩ := attach_port_frame f f1 port1 _ h1
  obtain ⟨_, b2, _, e1, b3, b4, _⟩ := attach_port_ok f f1 port1 h1
  obtain ⟨e, k1, k2⟩ := hbad
  obtain ⟨e2, c1, _, c3, _⟩ := a6 _ e k1
  have hbad1 : (∃ e, map_find f1.entities port2.guid = some e ∧ e.type ≠ port2.type) ∨
      (map_find f1.entities port2.guid = none ∧ port2.type = type_t.UNKNOWN) :=
    Or.inl ⟨e2, c1, by rw [c3]; exact k2⟩
  refine ⟨f1, ?_, b2, ⟨e1, b3, b4⟩, ?_⟩
  · unfold fabric_t.add_cable
    simp only [hc, hu1, Option.isSome_none, Bool.false_eq_true, if_false, h1,
      attach_port_mismatch f1 port2 hg2 hbad1]
  · intro heq
    rw [heq, hu1] at b2
    cases b2

theorem add_cable_not_atomic_witness :
    conflict_fabric.add_cable (sample_tca_port (some { guid := 2, port := 1 }))
        (some (sample_hca_port (some { guid := 1, port := 1 }))) =
      ((conflict_fabric.attach_port (sample_tca_port (some { guid := 2, port := 1 }))).1,
        Except.error error_t.DeviceClassMismatch) ∧
    pm_find (conflict_fabric.attach_port
      (sample_tca_port (some { guid := 2, port := 1 }))).1.portmap { guid := 1, port := 1 } =
        some (sample_tca_port (some { guid := 2, port := 1 })) := by
  obtain ⟨f1, h1, h2, _⟩ := add_cable_not_atomic conflict_fabric
    (sample_tca_port (some { guid := 2, port := 1 }))
    (sample_hca_port (some { guid := 1, port := 1 }))
    (cabled_inv _ (cabled.add_cable _ _ _ cabled.empty))
    (by decide) (by decide) (by decide) (by decide) rfl rfl (by decide) rfl rfl
    (by intro e he; cases he) (by intro _; decide) ⟨_, rfl, by decide⟩
  exact ⟨rfl, rfl⟩

theorem determine_max_lmc_lid_le (f : fabric_t) (b : Nat)
    (h : f.determine_max_lmc_lid = Except.ok b) : b ≤ 127 := by
  unfold fabric_t.determine_max_lmc_lid at h
  by_cases hn : f.portmap.length > 1
  · rw [if_pos hn] at h
    have := search_ports_le _ _ _ _ h
    unfold MAX_LMC_VALUE at this
    omega
  · rw [if_neg hn] at h
    cases h

/-- C33: `build_lid_map(true)` runs the construction pass at most twice.  After the first
pass and the inference of `m'`, if `m'` is not the multiplier of the first pass the call ends
with one call `build_lid_map(false)` at multiplier `m'` (two passes, no second inference),
and otherwise it returns with the map of the first pass (one pass); the assertion
`lmc <= MAX_LMC_VALUE` never fails.  A call that returns leaves the lid map that
`build_lid_map(false)` builds at the multiplier it leaves. -/
theorem build_lid_map_two_passes (f : fabric_t) :
    f.build_lid_map_passes true ≤ 2 ∧ f.build_lid_map_passes false = 1 ∧
    (∀ f1 b, f.build_lid_map_pass = Except.ok f1 → f1.determine_max_lmc_lid = Except.ok b →
      (f.lmc ≠ lmc_of_max_lmc_lid b →
        f.build_lid_map true =
          fabric_t.build_lid_map { f1 with lmc := lmc_of_max_lmc_lid b } false ∧
        f.build_lid_map_passes true = 2) ∧
      (f.lmc = lmc_of_max_lmc_lid b →
        f.build_lid_map true = Except.ok f1 ∧ f.build_lid_map_passes true = 1)) ∧
    (∀ f2, f.build_lid_map true = Except.ok f2 →
      fabric_t.build_lid_map { f with lmc := f2.lmc } false = Except.ok f2) := by
  refine ⟨?_, ?_, ?_, ?_⟩
  · unfold fabric_t.build_lid_map_passes
    cases f.build_lid_map_pass with
    | error err => simp
    | ok f1 =>
      simp only [if_true]
      cases f1.determine_max_lmc_lid with
      | error err => simp
      | ok b =>
        simp only
        split
        · split <;> simp
        · simp
  · unfold fabric_t.build_lid_map_passes
    cases f.build_lid_map_pass <;> simp
  · intro f1 b h1 h2
    have hb := determine_max_lmc_lid_le f1 b h2
    have hle : lmc_of_max_lmc_lid b ≤ MAX_LMC_VALUE := lmc_of_max_lmc_lid_le b hb
    obtain ⟨a1, _, _, _⟩ := build_lid_map_pass_frame f f1 h1
    refine ⟨?_, ?_⟩
    · intro hne
      refine ⟨?_, ?_⟩
      · rw [build_lid_map_false]
        unfold fabric_t.build_lid_map
        simp only [h1, h2, if_true, hle]
        rw [if_pos hne]
      · unfold fabric_t.build_lid_map_passes
        simp only [h1, h2, if_true, hle]
        rw [if_pos hne]
    · intro heq
      refine ⟨?_, ?_⟩
      · unfold fabric_t.build_lid_map
        simp only [h1, h2, if_true, hle]
        rw [if_neg (not_not.mpr heq), ← heq, ← a1]
      · unfold fabric_t.build_lid_map_passes
        simp only [h1, h2, if_true, hle]
        rw [if_neg (not_not.mpr heq)]
  · intro f2 h
    obtain ⟨hent, hpm, hwalk, _, _⟩ := build_lid_map_result f f2 true h
    rw [build_lid_map_false]
    unfold fabric_t.build_lid_map_pass
    simp only [fabric_t.clear_lidmap, hwalk]
    cases f2
    simp only at hent hpm
    simp only [hent, hpm]

theorem build_lid_map_two_passes_witness :
    (two_device_fabric 0 type_t.HCA 10 type_t.TCA 12).build_lid_map_passes true = 2 ∧
    (two_device_fabric 0 type_t.HCA 10 type_t.TCA 12).build_lid_map true =
      fabric_t.build_lid_map { two_device_fabric 0 type_t.HCA 10 type_t.TCA 12 with
        lmc := 1, lidmap := [(10, 1), (12, 2)] } false :=
  ⟨(((build_lid_map_two_passes (two_device_fabric 0 type_t.HCA 10 type_t.TCA 12)).2.2.1
      { two_device_fabric 0 type_t.HCA 10 type_t.TCA 12 with lidmap := [(10, 1), (12, 2)] }
      1 rfl rfl).1 (by decide)).2,
    (((build_lid_map_two_passes (two_device_fabric 0 type_t.HCA 10 type_t.TCA 12)).2.2.1
      { two_device_fabric 0 type_t.HCA 10 type_t.TCA 12 with lidmap := [(10, 1), (12, 2)] }
      1 rfl rfl).1 (by decide)).1⟩

theorem mem_range_one (n i : Nat) : i ∈ List.range' 1 n ↔ 1 ≤ i ∧ i ≤ n := by
  rw [List.mem_range'_1]
  omega

theorem first_hit_cases (lidmap : List (Nat × Nat)) (lid n : Nat) :
    (first_hit lidmap lid (List.range' 1 n) = none ∧
      ∀ i, 1 ≤ i → i ≤ n → map_find lidmap (lid_add lid i) = none) ∨
    (∃ i, first_hit lidmap lid (List.range' 1 n) = some i ∧ 1 ≤ i ∧ i ≤ n ∧
      (map_find lidmap (lid_add lid i)).isSome ∧
      ∀ j, 1 ≤ j → j < i → map_find lidmap (lid_add lid j) = none) := by
  cases h : first_hit lidmap lid (List.range' 1 n) with
  | none =>
    refine Or.inl ⟨rfl, ?_⟩
    intro i h1 h2
    exact first_hit_none _ _ _ h i ((mem_range_one n i).mpr ⟨h1, h2⟩)
  | some i =>
    obtain ⟨hm, hp⟩ := first_hit_some _ _ _ _ h
    obtain ⟨h1, h2⟩ := (mem_range_one n i).mp hm
    exact Or.inr ⟨i, rfl, h1, h2, hp, first_hit_range_min _ _ _ _ _ h⟩

theorem scan_offsets_min (lidmap : List (Nat × Nat)) (p : port_t) (maxoff : Nat)
    (hmax : maxoff ≤ 127) (h0 : p.lid ≠ 0) (h1 : map_find lidmap p.lid ≠ none) :
    scan_offsets lidmap p maxoff (List.range' 1 maxoff) =
      Except.ok (min maxoff (port_bound lidmap p)) := by
  rw [scan_offsets_eq lidmap p maxoff _ h0 h1]
  unfold port_bound
  rcases first_hit_cases lidmap p.lid maxoff with ⟨h1, h2⟩ | ⟨i, h1, h2, h3, h4, h5⟩
  · rw [h1]
    rcases first_hit_cases lidmap p.lid 127 with ⟨k1, _⟩ | ⟨j, k1, k2, k3, k4, _⟩
    · rw [k1]
      simp only [Except.ok.injEq]
      omega
    · rw [k1]
      simp only [Except.ok.injEq]
      have : maxoff < j := by
        by_contra hle
        have := h2 j k2 (by omega)
        rw [this] at k4
        cases k4
      exact (Nat.min_eq_left (by omega)).symm
  · rw [h1]
    rcases first_hit_cases lidmap p.lid 127 with ⟨_, k2⟩ | ⟨j, k1, k2, k3, k4, k5⟩
    · have := k2 i h2 (by omega)
      rw [this] at h4
      cases h4
    · rw [k1]
      simp only [Except.ok.injEq]
      have hij : i = j := by
        by_contra hne
        rcases Nat.lt_or_gt_of_ne hne with hlt | hgt
        · have := k5 i h2 hlt
          rw [this] at h4
          cases h4
        · have := h5 j k2 hgt
          rw [this] at k4
          cases k4
      subst hij
      exact (Nat.min_eq_right (Nat.le_trans (Nat.sub_le i 1) h3)).symm

theorem scan_offsets_ok (lidmap : List (Nat × Nat)) (p : port_t) (maxoff : Nat) (is : List Nat)
    (m : Nat) (h : scan_offsets lidmap p maxoff is = Except.ok m) (hne : is ≠ []) :
    p.lid ≠ 0 ∧ map_find lidmap p.lid ≠ none := by
  cases is with
  | nil => exact absurd rfl hne
  | cons i is =>
    unfold scan_offsets at h
    by_cases h0 : p.lid = 0
    · simp [h0] at h
    · by_cases h1 : (map_find lidmap p.lid).isNone
      · simp [h0, h1] at h
      · refine ⟨h0, ?_⟩
        intro hn
        rw [hn] at h1
        exact h1 rfl

theorem search_ports_zero (lidmap : List (Nat × Nat)) (ps : List (key_guid_port_t × port_t)) :
    search_ports lidmap ps 0 = Except.ok 0 := by
  cases ps with
  | nil => rfl
  | cons x ps =>
    obtain ⟨k, p⟩ := x
    simp [search_ports]

theorem search_ports_min (lidmap : List (Nat × Nat)) (ps : List (key_guid_port_t × port_t))
    (maxoff m : Nat) (hmax : maxoff ≤ 127)
    (h : search_ports lidmap ps maxoff = Except.ok m) :
    m = min maxoff (collision_bound lidmap ps) := by
  induction ps generalizing maxoff with
  | nil =>
    simp only [search_ports, Except.ok.injEq] at h
    simp only [collision_bound]
    omega
  | cons x ps ih =>
    obtain ⟨k, p⟩ := x
    unfold search_ports at h
    unfold collision_bound
    by_cases h0 : maxoff > 0
    · rw [if_pos h0] at h
      by_cases ht : p.type = type_t.HCA
      · rw [if_pos ht] at h
        rw [if_pos ht]
        cases hs : scan_offsets lidmap p maxoff (List.range' 1 maxoff) with
        | error err => simp [hs] at h
        | ok m1 =>
          simp only [hs] at h
          have hne : List.range' 1 maxoff ≠ [] := by
            intro hnil
            have := (mem_range_one maxoff 1).mpr ⟨Nat.le_refl _, h0⟩
            rw [hnil] at this
            cases this
          obtain ⟨a0, a1⟩ := scan_offsets_ok _ _ _ _ _ hs hne
          rw [scan_offsets_min lidmap p maxoff hmax a0 a1] at hs
          simp only [Except.ok.injEq] at hs
          have := ih m1 (by omega) h
          omega
      · rw [if_neg ht] at h
        rw [if_neg ht]
        exact ih maxoff hmax h
    · rw [if_neg h0] at h
      simp only [Except.ok.injEq] at h
      omega

theorem search_ports_total (lidmap : List (Nat × Nat)) (ps : List (key_guid_port_t × port_t))
    (maxoff : Nat) (hmax : maxoff ≤ 127)
    (hgood : ∀ x ∈ ps, x.2.type = type_t.HCA → x.2.lid ≠ 0 ∧ map_find lidmap x.2.lid ≠ none) :
    search_ports lidmap ps maxoff = Except.ok (min maxoff (collision_bound lidmap ps)) := by
  induction ps generalizing maxoff with
  | nil =>
    simp only [search_ports, collision_bound]
    rw [Nat.min_eq_left hmax]
  | cons x ps ih =>
    obtain ⟨k, p⟩ := x
    have hgood2 : ∀ x ∈ ps, x.2.type = type_t.HCA →
        x.2.lid ≠ 0 ∧ map_find lidmap x.2.lid ≠ none :=
      fun x hx => hgood x (List.mem_cons_of_mem _ hx)
    unfold search_ports collision_bound
    by_cases h0 : maxoff > 0
    · rw [if_pos h0]
      by_cases ht : p.type = type_t.HCA
      · rw [if_pos ht, if_pos ht]
        obtain ⟨a0, a1⟩ := hgood (k, p) (List.mem_cons_self _ _) ht
        rw [scan_offsets_min lidmap p maxoff hmax a0 a1]
        simp only
        rw [ih _ (by omega) hgood2]
        congr 1
        omega
      · rw [if_neg ht, if_neg ht]
        exact ih maxoff hmax hgood2
    · rw [if_neg h0]
      congr 1
      omega

theorem collision_bound_spec (lidmap : List (Nat × Nat)) (ps : List (key_guid_port_t × port_t)) :
    collision_bound lidmap ps ≤ 127 ∧
    (collision_bound lidmap ps = 127 ∨
      ∃ x ∈ ps, x.2.type = type_t.HCA ∧
        (map_find lidmap (lid_add x.2.lid (collision_bound lidmap ps + 1))).isSome ∧
        ∀ j, 1 ≤ j → j ≤ collision_bound lidmap ps →
          map_find lidmap (lid_add x.2.lid j) = none) ∧
    (∀ x ∈ ps, x.2.type = type_t.HCA → ∀ i, 1 ≤ i → i ≤ 127 →
      (map_find lidmap (lid_add x.2.lid i)).isSome → collision_bound lidmap ps ≤ i - 1) := by
  induction ps with
  | nil =>
    refine ⟨Nat.le_refl _, Or.inl rfl, ?_⟩
    intro x hx
    cases hx
  | cons x ps ih =>
    obtain ⟨k, p⟩ := x
    obtain ⟨i1, i2, i3⟩ := ih
    unfold collision_bound
    by_cases ht : p.type = type_t.HCA
    · rw [if_pos ht]
      have hpb : port_bound lidmap p ≤ 127 ∧
          (port_bound lidmap p = 127 ∨
            ((map_find lidmap (lid_add p.lid (port_bound lidmap p + 1))).isSome ∧
              ∀ j, 1 ≤ j → j ≤ port_bound lidmap p →
                map_find lidmap (lid_add p.lid j) = none)) ∧
          (∀ i, 1 ≤ i → i ≤ 127 → (map_find lidmap (lid_add p.lid i)).isSome →
            port_bound lidmap p ≤ i - 1) := by
        unfold port_bound
        rcases first_hit_cases lidmap p.lid 127 with ⟨k1, k2⟩ | ⟨j, k1, k2, k3, k4, k5⟩
        · rw [k1]
          refine ⟨Nat.le_refl _, Or.inl rfl, ?_⟩
          intro i h1 h2 h3
          rw [k2 i h1 h2] at h3
          cases h3
        · rw [k1]
          simp only
          refine ⟨by omega, Or.inr ⟨?_, ?_⟩, ?_⟩
          · have : j - 1 + 1 = j := by omega
            rw [this]
            exact k4
          · intro j2 h1 h2
            exact k5 j2 h1 (by omega)
          · intro i h1 h2 h3
            by_contra hlt
            have := k5 i h1 (by omega)
            rw [this] at h3
            cases h3
      obtain ⟨p1, p2, p3⟩ := hpb
      refine ⟨by omega, ?_, ?_⟩
      · by_cases hle : port_bound lidmap p ≤ collision_bound lidmap ps
        · rw [Nat.min_eq_left hle]
          rcases p2 with p2 | ⟨p2, p4⟩
          · exact Or.inl p2
          · exact Or.inr ⟨(k, p), List.mem_cons_self _ _, ht, p2, p4⟩
        · have hle2 : collision_bound lidmap ps ≤ port_bound lidmap p := by omega
          rw [Nat.min_eq_right hle2]
          rcases i2 with i2 | ⟨x, hx, hxt, h4, h5⟩
          · exact Or.inl i2
          · exact Or.inr ⟨x, List.mem_cons_of_mem _ hx, hxt, h4, h5⟩
      · intro x hx hxt i h1 h2 h3
        rcases List.mem_cons.mp hx with heq | hin
        · subst heq
          have := p3 i h1 h2 h3
          omega
        · have := i3 x hin hxt i h1 h2 h3
          omega
    · rw [if_neg ht]
      refine ⟨i1, ?_, ?_⟩
      · rcases i2 with i2 | ⟨x, hx, hxt, h4, h5⟩
        · exact Or.inl i2
        · exact Or.inr ⟨x, List.mem_cons_of_mem _ hx, hxt, h4, h5⟩
      · intro x hx hxt i h1 h2 h3
        rcases List.mem_cons.mp hx with heq | hin
        · subst heq
          exact absurd hxt ht
        · exact i3 x hin hxt i h1 h2 h3

theorem search_ports_append (lidmap : List (Nat × Nat))
    (ps1 ps2 : List (key_guid_port_t × port_t)) (maxoff m1 : Nat)
    (h : search_ports lidmap ps1 maxoff = Except.ok m1) :
    search_ports lidmap (ps1 ++ ps2) maxoff = search_ports lidmap ps2 m1 := by
  induction ps1 generalizing maxoff with
  | nil =>
    simp only [search_ports, Except.ok.injEq] at h
    rw [List.nil_append, h]
  | cons x ps1 ih =>
    obtain ⟨k, p⟩ := x
    rw [List.cons_append]
    generalize hr : search_ports lidmap ps2 m1 = rhs at ih ⊢
    unfold search_ports at h ⊢
    by_cases h0 : maxoff > 0
    · rw [if_pos h0] at h ⊢
      by_cases ht : p.type = type_t.HCA
      · rw [if_pos ht] at h ⊢
        cases hs : scan_offsets lidmap p maxoff (List.range' 1 maxoff) with
        | error err => simp [hs] at h
        | ok m2 =>
          simp only [hs] at h ⊢
          exact ih m2 h
      · rw [if_neg ht] at h ⊢
        exact ih maxoff h
    · rw [if_neg h0] at h ⊢
      simp only [Except.ok.injEq] at h
      have h00 : maxoff = 0 := by omega
      rw [← hr, ← h, h00, search_ports_zero]

theorem determine_max_lmc_lid_min (f : fabric_t) (m : Nat)
    (h : f.determine_max_lmc_lid = Except.ok m) : m = collision_bound f.lidmap f.portmap := by
  unfold fabric_t.determine_max_lmc_lid at h
  by_cases hn : f.portmap.length > 1
  · rw [if_pos hn] at h
    have h2 := search_ports_min f.lidmap f.portmap _ m (by unfold MAX_LMC_VALUE; norm_num) h
    have h3 := (collision_bound_spec f.lidmap f.portmap).1
    unfold MAX_LMC_VALUE at h2
    omega
  · rw [if_neg hn] at h
    cases h

/-- C31 (counterexample): after the first pass on the host adapter at lid 10 and the switch
at lid 12 the lid map holds 10 and 12.  The first offset at which `10 + i` is not in the map
is 1, so the bound of the claim is 0; the inference of the code finds 12 at offset 2 and
gives the bound 1. -/
theorem inference_stops_at_present_address :
    (two_device_fabric 0 type_t.HCA 10 type_t.TCA 12).build_lid_map_pass =
      Except.ok { two_device_fabric 0 type_t.HCA 10 type_t.TCA 12 with
        lidmap := [(10, 1), (12, 2)] } ∧
    spec_first_absent [(10, 1), (12, 2)] 10 (List.range' 1 127) = some 1 ∧
    spec_run_bound [(10, 1), (12, 2)]
      (two_device_fabric 0 type_t.HCA 10 type_t.TCA 12).portmap = 0 ∧
    fabric_t.determine_max_lmc_lid { two_device_fabric 0 type_t.HCA 10 type_t.TCA 12 with
        lidmap := [(10, 1), (12, 2)] } = Except.ok 1 ∧
    first_hit [(10, 1), (12, 2)] 10 (List.range' 1 127) = some 2 :=
  ⟨rfl, rfl, rfl, rfl, rfl⟩

/-- C31 (amended): in the inference, the scan of a host-adapter port (with a positive lid
that is in the lid map) from the current bound `maxoff` gives the smaller of `maxoff` and
`i - 1`, where `i >= 1` is the first offset at which `lid + i` is present in the lid map
(`port_bound`).  When the inference returns the bound `m`, `m` is at most 127; unless it is
127, `m + 1` is the first present offset of some host-adapter port of the flat index; and no
host-adapter port of the flat index has a present offset `i` in `1 .. 127` with
`i - 1 < m`. -/
theorem inference_bound_first_present (f : fabric_t) (m : Nat)
    (h : f.determine_max_lmc_lid = Except.ok m) :
    m ≤ 127 ∧
    (m = 127 ∨ ∃ x ∈ f.portmap, x.2.type = type_t.HCA ∧
      (map_find f.lidmap (lid_add x.2.lid (m + 1))).isSome ∧
      ∀ j, 1 ≤ j → j ≤ m → map_find f.lidmap (lid_add x.2.lid j) = none) ∧
    (∀ x ∈ f.portmap, x.2.type = type_t.HCA → ∀ i, 1 ≤ i → i ≤ 127 →
      (map_find f.lidmap (lid_add x.2.lid i)).isSome → m ≤ i - 1) ∧
    (∀ (p : port_t) (maxoff : Nat), maxoff ≤ 127 → p.lid ≠ 0 → map_find f.lidmap p.lid ≠ none →
      scan_offsets f.lidmap p maxoff (List.range' 1 maxoff) =
        Except.ok (min maxoff (port_bound f.lidmap p))) := by
  have hm := determine_max_lmc_lid_min f m h
  obtain ⟨a1, a2, a3⟩ := collision_bound_spec f.lidmap f.portmap
  rw [← hm] at a1 a2 a3
  exact ⟨a1, a2, a3, fun p maxoff h1 h2 h3 => scan_offsets_min f.lidmap p maxoff h1 h2 h3⟩

theorem inference_bound_first_present_witness :
    fabric_t.determine_max_lmc_lid { two_device_fabric 0 type_t.HCA 10 type_t.TCA 12 with
        lidmap := [(10, 1), (12, 2)] } = Except.ok 1 ∧ 1 ≤ 127 :=
  ⟨rfl, (inference_bound_first_present
    { two_device_fabric 0 type_t.HCA 10 type_t.TCA 12 with lidmap := [(10, 1), (12, 2)] }
    1 rfl).1⟩

/-- C32: the bound the inference returns is `collision_bound`: the minimum over the
host-adapter ports of the flat port index of `i - 1`, `i` the smallest offset in `1 .. 127`
at which the lid of the port plus `i` is in the lid map, and 127 when no host-adapter port
has such an offset.  The inference returns it whenever the flat index holds more than one
port and every host-adapter port has a positive lid that is in the lid map.  Once the bound
is 0 after a part of the ports, the result is 0 whatever the other ports are, and so is the
minimum over all the ports. -/
theorem inference_bound_minimum (f : fabric_t) :
    (∀ m, f.determine_max_lmc_lid = Except.ok m → m = collision_bound f.lidmap f.portmap) ∧
    (f.portmap.length > 1 →
      (∀ x ∈ f.portmap, x.2.type = type_t.HCA →
        x.2.lid ≠ 0 ∧ map_find f.lidmap x.2.lid ≠ none) →
      f.determine_max_lmc_lid = Except.ok (collision_bound f.lidmap f.portmap)) ∧
    (∀ ps1 ps2, search_ports f.lidmap ps1 127 = Except.ok 0 →
      search_ports f.lidmap (ps1 ++ ps2) 127 = Except.ok 0 ∧
        collision_bound f.lidmap (ps1 ++ ps2) = 0) ∧
    collision_bound f.lidmap [] = 127 := by
  refine ⟨fun m h => determine_max_lmc_lid_min f m h, ?_, ?_, rfl⟩
  · intro hn hgood
    unfold fabric_t.determine_max_lmc_lid
    rw [if_pos hn]
    have h1 := search_ports_total f.lidmap f.portmap (2 ^ MAX_LMC_VALUE - 1)
      (by unfold MAX_LMC_VALUE; norm_num) hgood
    have h3 := (collision_bound_spec f.lidmap f.portmap).1
    rw [h1]
    congr 1
    unfold MAX_LMC_VALUE
    omega
  · intro ps1 ps2 h
    have h1 : search_ports f.lidmap (ps1 ++ ps2) 127 = Except.ok 0 := by
      rw [search_ports_append f.lidmap ps1 ps2 127 0 h, search_ports_zero]
    refine ⟨h1, ?_⟩
    have := search_ports_min f.lidmap (ps1 ++ ps2) 127 0 (Nat.le_refl _) h1
    omega

theorem inference_bound_minimum_witness :
    fabric_t.determine_max_lmc_lid { two_device_fabric 0 type_t.HCA 10 type_t.TCA 16 with
        lidmap := [(10, 1), (16, 2)] } =
      Except.ok (collision_bound [(10, 1), (16, 2)]
        (two_device_fabric 0 type_t.HCA 10 type_t.TCA 16).portmap) ∧
    collision_bound [(10, 1), (16, 2)]
      (two_device_fabric 0 type_t.HCA 10 type_t.TCA 16).portmap = 5 :=
  ⟨(inference_bound_minimum
    { two_device_fabric 0 type_t.HCA 10 type_t.TCA 16 with lidmap := [(10, 1), (16, 2)] }).2.1
      (by decide) (by
        intro x hx ht
        simp only [two_device_fabric, List.mem_cons, List.mem_singleton, List.not_mem_nil,
          or_false] at hx
        rcases hx with h | h <;> subst h
        · exact ⟨by decide, by decide⟩
        · cases ht),
    rfl⟩

set_option maxRecDepth 100000 in
/-- C35 (counterexample): the fabric of a host adapter with two ports, at lids 10 and 500,
and a switch at lid 1000, built by `add_cable`, has three ports and multiplier 0; the first
pass maps the lids 10 and 1000, and no host-adapter port has an address of the map within
`1 .. 127` above its own.  `build_lid_map(true)` ends in the assertion that the lid 500 of
the second port is in the lid map. -/
theorem build_lid_map_unmapped_port :
    cabled dual_port_fabric ∧ dual_port_fabric.lmc = 0 ∧ dual_port_fabric.portmap.length = 3 ∧
    dual_port_fabric.build_lid_map_pass =
      Except.ok { dual_port_fabric with lidmap := [(10, 1), (1000, 2)] } ∧
    first_hit [(10, 1), (1000, 2)] 10 (List.range' 1 127) = none ∧
    first_hit [(10, 1), (1000, 2)] 500 (List.range' 1 127) = none ∧
    dual_port_fabric.build_lid_map true = Except.error error_t.LidNotMapped :=
  ⟨cabled.add_cable _ _ _ (cabled.add_cable _ _ _ (cabled.add_cable _ _ _ cabled.empty)),
    rfl, rfl, rfl, rfl, rfl, rfl⟩

/-- C35 (amended): on a fabric at multiplier 0 with at least two ports whose flat port index
holds the first port of every host adapter, when the first pass succeeds, every host-adapter
port of the flat index has a positive lid that is in the lid map of the first pass, and no
host-adapter port has an address of that map within `1 .. 127` above its own,
`build_lid_map(true)` returns with multiplier 7 and the lid map of the rebuild: a host adapter
with base `b` has exactly the 128 addresses `b + i` for `i` in `0 .. 127` (64-bit sums,
pairwise different), a switch its base. -/
theorem build_lid_map_infers_seven (f f1 : fabric_t)
    (h0 : f.lmc = 0) (hn : f.portmap.length > 1)
    (hfirst : ∀ g e, (g, e) ∈ f.entities → e.type = type_t.HCA →
      ∃ x ∈ f.portmap, x.2.type = type_t.HCA ∧ e.get_first_port = some x.2)
    (h1 : f.build_lid_map_pass = Except.ok f1)
    (hpos : ∀ x ∈ f.portmap, x.2.type = type_t.HCA →
      x.2.lid ≠ 0 ∧ map_find f1.lidmap x.2.lid ≠ none)
    (hgap : ∀ x ∈ f.portmap, x.2.type = type_t.HCA →
      ∀ i, 1 ≤ i → i ≤ 127 → map_find f1.lidmap (lid_add x.2.lid i) = none) :
    ∃ f2, f.build_lid_map true = Except.ok f2 ∧ f2.get_lmc = 7 ∧
      f2.entities = f.entities ∧ f2.portmap = f.portmap ∧
      (∀ a g, map_find f2.lidmap a = some g ↔
        ∃ e, (g, e) ∈ f.entities ∧ claims_address 127 e a) ∧
      (∀ b i j, i ≤ 127 → j ≤ 127 → lid_add b i = lid_add b j → i = j) := by
  obtain ⟨hf1lmc, hf1es, hf1pm, hwalk⟩ := build_lid_map_pass_frame f f1 h1
  have hmax0 : max_lmc_lid f.lmc = 0 := by rw [h0]; rfl
  rw [hmax0] at hwalk
  have hknown := walk_entities_ok_known 0 f.entities [] f1.lidmap hwalk
  have hfind := walk_entities_find 0 f.entities [] f1.lidmap hwalk
  have hM : ∀ x ∈ f.entities, ∀ a, claims_address 0 x.2 a → map_find f1.lidmap a ≠ none := by
    intro x hx a hc
    have := (hfind a x.1).mpr (Or.inr ⟨x.2, hx, hc⟩)
    rw [this]
    exact fun h => by cases h
  have hgood : ∀ x ∈ f.portmap, x.2.type = type_t.HCA → x.2.lid ≠ 0 ∧
      map_find f1.lidmap x.2.lid ≠ none ∧
      ∀ i, 1 ≤ i → i < 128 → map_find f1.lidmap (lid_add x.2.lid i) = none := by
    intro x hx ht
    obtain ⟨a, b⟩ := hpos x hx ht
    exact ⟨a, b, fun i hi1 hi2 => hgap x hx ht i hi1 (by omega)⟩
  have hsearch : f1.determine_max_lmc_lid = Except.ok 127 := by
    unfold fabric_t.determine_max_lmc_lid
    rw [hf1pm]
    simp only [hn, if_true]
    exact search_ports_gap f1.lidmap 128 (by norm_num) f.portmap _ hgood
      (by unfold MAX_LMC_VALUE; norm_num) (Or.inl (by unfold MAX_LMC_VALUE; norm_num))
  have hlmc : lmc_of_max_lmc_lid 127 = 7 := lmc_of_pow_pred 7 (by norm_num)
  have hle : (7 : Nat) ≤ MAX_LMC_VALUE := by unfold MAX_LMC_VALUE; norm_num
  have hgapE : ∀ x ∈ f.entities, x.2.type = type_t.HCA → ∀ b, x.2.lid = Except.ok b →
      ∀ i, 1 ≤ i → i < 128 → map_find f1.lidmap (lid_add b i) = none := by
    intro x hx ht b hb i hi1 hi2
    obtain ⟨y, hy, hyt, hyf⟩ := hfirst x.1 x.2 hx ht
    obtain ⟨_, p, hp, hpl⟩ := entity_lid_ok x.2 b hb
    rw [hyf] at hp
    cases hp
    rw [← hpl]
    exact hgap y hy hyt i hi1 (by omega)
  have hpair0 := ((walk_entities_ok_iff 0 f.entities [] (by norm_num) hknown).mp
    ⟨_, hwalk⟩).2
  have hpairk : f.entities.Pairwise (fun x y => ∀ a,
      claims_address 127 x.2 a → ¬ claims_address 127 y.2 a) :=
    List.Pairwise.imp_of_mem
      (fun {x y} hx hy hR => claims_disjoint_of_gap f1.lidmap f.entities 128 hM hgapE x y hx hy hR)
      hpair0
  obtain ⟨m2, hm2⟩ := (walk_entities_ok_iff 127 f.entities [] (by norm_num) hknown).mpr
    ⟨fun _ _ _ _ => rfl, hpairk⟩
  have hfind2 := walk_entities_find 127 f.entities [] m2 hm2
  refine ⟨{ f1 with lmc := 7, lidmap := m2 }, ?_, rfl, hf1es, hf1pm, ?_, ?_⟩
  · unfold fabric_t.build_lid_map
    simp only [h1, hsearch, if_true, hlmc, hle, h0]
    have hne : (0 : Nat) ≠ 7 := by norm_num
    simp only [hne, ne_eq, not_false_eq_true, if_true]
    unfold fabric_t.build_lid_map_pass
    simp only [fabric_t.clear_lidmap, max_lmc_lid_eq 7 (by norm_num), hf1es]
    have h127 : 2 ^ 7 - 1 = 127 := by norm_num
    rw [h127, hm2]
  · intro a g
    have := hfind2 a g
    simpa [map_find] using this
  · intro b i j hi hj hij
    have h64 : (127 : Nat) < 2 ^ 64 := by norm_num
    exact lid_add_injective b i j (by omega) (by omega) hij

set_option maxRecDepth 100000 in
theorem build_lid_map_infers_seven_witness :
    ∃ f2, (two_device_fabric 0 type_t.HCA 10 type_t.TCA 1000).build_lid_map true =
      Except.ok f2 ∧ f2.get_lmc = 7 := by
  obtain ⟨f2, h1, h2, _⟩ := build_lid_map_infers_seven
    (two_device_fabric 0 type_t.HCA 10 type_t.TCA 1000)
    { two_device_fabric 0 type_t.HCA 10 type_t.TCA 1000 with lidmap := [(10, 1), (1000, 2)] }
    rfl (by decide)
    (by
      intro g e he ht
      simp only [two_device_fabric, List.mem_cons, List.mem_singleton, List.not_mem_nil,
        or_false, Prod.mk.injEq] at he
      rcases he with ⟨_, h⟩ | ⟨_, h⟩ <;> subst h
      · exact ⟨_, List.mem_cons_self _ _, rfl, rfl⟩
      · cases ht)
    rfl
    (by
      intro x hx ht
      simp only [two_device_fabric, List.mem_cons, List.mem_singleton, List.not_mem_nil,
        or_false] at hx
      rcases hx with h | h <;> subst h
      · exact ⟨by decide, by decide⟩
      · cases ht)
    (by
      intro x hx ht i hi1 hi2
      simp only [two_device_fabric, List.mem_cons, List.mem_singleton, List.not_mem_nil,
        or_false] at hx
      rcases hx with h | h <;> subst h
      · have h3 : first_hit [(10, 1), (1000, 2)] 10 (List.range' 1 127) = none := rfl
        exact first_hit_none _ _ _ h3 i (by rw [List.mem_range'_1]; omega)
      · cases ht)
  exact ⟨f2, h1, h2⟩

theorem cable_path_snoc (f : fabric_t) (n : Nat) (a b c : entity_t)
    (h : cable_path f n a b) (hj : cable_joined f b c) : cable_path f (n + 1) a c := by
  induction h with
  | refl a => exact cable_path.step 0 a c c hj (cable_path.refl c)
  | step n a b d hab _ ih => exact cable_path.step (n + 1) a b c hab (ih hj)

theorem cable_path_list (f : fabric_t) (n : Nat) (a b : entity_t) (h : cable_path f n a b) :
    ∃ l, l.length = n ∧ List.Chain (cable_joined f) a l ∧ (a :: l).getLast? = some b := by
  induction h with
  | refl a => exact ⟨[], rfl, List.Chain.nil, rfl⟩
  | step n a b c hab _ ih =>
    obtain ⟨l, h1, h2, h3⟩ := ih
    refine ⟨b :: l, by simp [h1], List.Chain.cons hab h2, ?_⟩
    rw [List.getLast?_cons_cons]
    exact h3

theorem forward_joined (f : fabric_t) (hsym : symmetric_cabling f) (g : Nat) (e t d : entity_t)
    (he : map_find f.entities g = some e) (h : e.forward f t = Except.ok d) :
    cable_joined f e d ∧ ∃ g2, map_find f.entities g2 = some d := by
  unfold entity_t.forward at h
  cases hl : t.lid with
  | error err => simp [hl] at h
  | ok tl =>
    simp only [hl] at h
    cases hu : map_find e.uft tl with
    | none => simp [hu] at h
    | some pn =>
      simp only [hu] at h
      cases hp : map_find e.ports pn with
      | none => simp [hp] at h
      | some p =>
        simp only [hp] at h
        cases hc : p.connection with
        | none => simp [hc] at h
        | some c =>
          simp only [hc] at h
          cases hf : f.find_entity c.guid with
          | none => simp [hf] at h
          | some e2 =>
            simp only [hf, Except.ok.injEq] at h
            subst h
            obtain ⟨e3, q, k1, k2, _⟩ := hsym g e pn p c he hp hc
            have h3 : e3 = e2 := by
              unfold fabric_t.find_entity at hf
              rw [k1] at hf
              exact Option.some.inj hf
            subst h3
            exact ⟨⟨pn, p, c, q, hp, hc, hf, k2⟩, c.guid, k1⟩

theorem first_port_peer_joined (f : fabric_t) (hsym : symmetric_cabling f) (g : Nat)
    (e d : entity_t) (he : map_find f.entities g = some e)
    (h : f.first_port_peer e = Except.ok d) :
    cable_joined f e d ∧ cable_joined f d e ∧ ∃ g2, map_find f.entities g2 = some d := by
  unfold fabric_t.first_port_peer at h
  cases hports : e.ports with
  | nil => simp [hports] at h
  | cons x ps =>
    obtain ⟨n, p⟩ := x
    simp only [hports] at h
    have hp : map_find e.ports n = some p := by
      rw [hports]
      simp [map_find]
    cases hc : p.connection with
    | none => simp [hc] at h
    | some c =>
      simp only [hc] at h
      cases hf : f.find_entity c.guid with
      | none => simp [hf] at h
      | some e2 =>
        simp only [hf, Except.ok.injEq] at h
        subst h
        obtain ⟨e3, q, k1, k2, k3⟩ := hsym g e n p c he hp hc
        have h3 : e3 = e2 := by
          unfold fabric_t.find_entity at hf
          rw [k1] at hf
          exact Option.some.inj hf
        subst h3
        exact ⟨⟨n, p, c, q, hp, hc, hf, k2⟩, ⟨c.port, q, { guid := g, port := n }, p, k2, k3, he, hp⟩,
          c.guid, k1⟩

theorem forward_steps_path (f : fabric_t) (hsym : symmetric_cabling f) (right : entity_t)
    (k : Nat) : ∀ (g : Nat) (e d : entity_t), map_find f.entities g = some e →
      forward_steps f right k e = Except.ok d →
      cable_path f k e d ∧ ∃ g2, map_find f.entities g2 = some d := by
  induction k with
  | zero =>
    intro g e d he h
    simp only [forward_steps, Except.ok.injEq] at h
    subst h
    exact ⟨cable_path.refl e, g, he⟩
  | succ k ih =>
    intro g e d he h
    unfold forward_steps at h
    cases hf : e.forward f right with
    | error err => simp [hf] at h
    | ok next =>
      simp only [hf] at h
      obtain ⟨hj, g2, hn⟩ := forward_joined f hsym g e right next he hf
      obtain ⟨hp, hd⟩ := ih g2 next d hn h
      exact ⟨cable_path.step k e next d hj hp, hd⟩

theorem count_hops_path (f : fabric_t) (hsym : symmetric_cabling f) (hdist : distinct_bases f)
    (fuel n gs ge : Nat) (start end_ : entity_t)
    (hs : map_find f.entities gs = some start) (he : map_find f.entities ge = some end_)
    (h : f.count_hops fuel start end_ = some (Except.ok n)) : cable_path f n start end_ := by
  unfold fabric_t.count_hops at h
  cases hl : (if start.type = type_t.HCA then f.first_port_peer start else Except.ok start) with
  | error err => simp [hl] at h
  | ok left =>
    simp only [hl] at h
    cases hr : (if end_.type = type_t.HCA then f.first_port_peer end_ else Except.ok end_) with
    | error err => simp [hr] at h
    | ok right =>
      simp only [hr] at h
      obtain ⟨k, _, hn, ⟨d, l, hd, hdl, hrl⟩, _⟩ := count_hops_loop_sound f right fuel left _ n h
      -- the effective start
      have hleft : (∃ g, map_find f.entities g = some left) ∧
          ((start.type = type_t.HCA ∧ cable_joined f start left) ∨
            (start.type ≠ type_t.HCA ∧ left = start)) := by
        by_cases ht : start.type = type_t.HCA
        · rw [if_pos ht] at hl
          obtain ⟨j1, _, j3⟩ := first_port_peer_joined f hsym gs start left hs hl
          exact ⟨j3, Or.inl ⟨ht, j1⟩⟩
        · rw [if_neg ht] at hl
          simp only [Except.ok.injEq] at hl
          subst hl
          exact ⟨⟨gs, hs⟩, Or.inr ⟨ht, rfl⟩⟩
      -- the effective end
      have hright : (∃ g, map_find f.entities g = some right) ∧
          ((end_.type = type_t.HCA ∧ cable_joined f right end_) ∨
            (end_.type ≠ type_t.HCA ∧ right = end_)) := by
        by_cases ht : end_.type = type_t.HCA
        · rw [if_pos ht] at hr
          obtain ⟨_, j2, j3⟩ := first_port_peer_joined f hsym ge end_ right he hr
          exact ⟨j3, Or.inl ⟨ht, j2⟩⟩
        · rw [if_neg ht] at hr
          simp only [Except.ok.injEq] at hr
          subst hr
          exact ⟨⟨ge, he⟩, Or.inr ⟨ht, rfl⟩⟩
      obtain ⟨⟨gl, hgl⟩, hsl⟩ := hleft
      obtain ⟨⟨gr, hgr⟩, her⟩ := hright
      obtain ⟨hp, gd, hgd⟩ := forward_steps_path f hsym right k gl left d hgl hd
      have hdr : d = right := by
        have := hdist gd d gr right l hgd hgr hdl hrl
        rw [this, hgr] at hgd
        exact (Option.some.inj hgd).symm
      subst hdr
      rcases hsl with ⟨t1, j1⟩ | ⟨t1, e1⟩
      · rcases her with ⟨t2, j2⟩ | ⟨t2, e2⟩
        · have hn2 : n = (k + 1) + 1 := by
            rw [hn, if_pos t1, if_pos t2]
            omega
          rw [hn2]
          exact cable_path.step _ _ _ _ j1 (cable_path_snoc f k left d end_ hp j2)
        · have hn2 : n = k + 1 := by
            rw [hn, if_pos t1, if_neg t2]
            omega
          rw [hn2, ← e2]
          exact cable_path.step _ _ _ _ j1 hp
      · rcases her with ⟨t2, j2⟩ | ⟨t2, e2⟩
        · have hn2 : n = k + 1 := by
            rw [hn, if_neg t1, if_pos t2]
            omega
          rw [hn2, ← e1]
          exact cable_path_snoc f k left d end_ hp j2
        · have hn2 : n = k := by
            rw [hn, if_neg t1, if_neg t2]
            omega
          rw [hn2, ← e1, ← e2]
          exact hp

/-- C36: in a fabric with symmetric cabling in which distinct devices have distinct base
addresses, when `count_hops(start, end)` returns `n` for two devices of the fabric, there is
a sequence of `n + 1` devices, `start` followed by the `n` devices of `l`, that ends with
`end`, in which every device is joined to the next by a cable: a port of the one whose peer
is a port of the other. -/
theorem count_hops_cable_sequence (f : fabric_t) (hsym : symmetric_cabling f)
    (hdist : distinct_bases f) (fuel n gs ge : Nat) (start end_ : entity_t)
    (hs : map_find f.entities gs = some start) (he : map_find f.entities ge = some end_)
    (h : f.count_hops fuel start end_ = some (Except.ok n)) :
    ∃ l : List entity_t, (start :: l).length = n + 1 ∧ List.Chain (cable_joined f) start l ∧
      (start :: l).head? = some start ∧ (start :: l).getLast? = some end_ := by
  obtain ⟨l, h1, h2, h3⟩ := cable_path_list f n start end_
    (count_hops_path f hsym hdist fuel n gs ge start end_ hs he h)
  exact ⟨l, by simp [h1], h2, rfl, h3⟩

theorem count_hops_cable_sequence_witness :
    sample_pair_fabric.count_hops 5 (star_hca 2 2 1) sample_pair_switch = some (Except.ok 1) ∧
    ∃ l : List entity_t, (star_hca 2 2 1 :: l).length = 1 + 1 ∧
      List.Chain (cable_joined sample_pair_fabric) (star_hca 2 2 1) l ∧
      (star_hca 2 2 1 :: l).head? = some (star_hca 2 2 1) ∧
      (star_hca 2 2 1 :: l).getLast? = some sample_pair_switch := by
  have hE : sample_pair_fabric.entities =
      [(1, sample_pair_switch), (2, star_hca 2 2 1)] := rfl
  have hcases : ∀ g e, map_find sample_pair_fabric.entities g = some e →
      (g = 1 ∧ e = sample_pair_switch) ∨ (g = 2 ∧ e = star_hca 2 2 1) := by
    intro g e he
    rw [hE] at he
    simp only [map_find] at he
    by_cases h1 : 1 = g
    · rw [if_pos h1] at he
      exact Or.inl ⟨h1.symm, (Option.some.inj he).symm⟩
    · rw [if_neg h1] at he
      by_cases h2 : 2 = g
      · rw [if_pos h2] at he
        exact Or.inr ⟨h2.symm, (Option.some.inj he).symm⟩
      · rw [if_neg h2] at he
        cases he
  refine ⟨rfl, count_hops_cable_sequence sample_pair_fabric ?_ ?_ 5 1 2 1 (star_hca 2 2 1)
    sample_pair_switch rfl rfl rfl⟩
  · intro g e n p c he hp hc
    rcases hcases g e he with ⟨hg, hee⟩ | ⟨hg, hee⟩
    · subst hg
      subst hee
      simp only [sample_pair_switch, map_find] at hp
      by_cases h1 : 1 = n
      · rw [if_pos h1] at hp
        cases hp
        cases hc
        subst h1
        exact ⟨star_hca 2 2 1, sample_hca_port (some { guid := 1, port := 1 }), rfl, rfl, rfl⟩
      · rw [if_neg h1] at hp
        cases hp
    · subst hg
      subst hee
      simp only [star_hca, map_find] at hp
      by_cases h1 : 1 = n
      · rw [if_pos h1] at hp
        cases hp
        cases hc
        subst h1
        exact ⟨sample_pair_switch, sample_tca_port (some { guid := 2, port := 1 }), rfl, rfl, rfl⟩
      · rw [if_neg h1] at hp
        cases hp
  · intro g1 e1 g2 e2 l h1 h2 l1 l2
    rcases hcases g1 e1 h1 with ⟨a, b⟩ | ⟨a, b⟩ <;> rcases hcases g2 e2 h2 with ⟨c, d⟩ | ⟨c, d⟩
    · rw [a, c]
    · subst b
      subst d
      cases l1
      cases l2
    · subst b
      subst d
      cases l1
      cases l2
    · rw [a, c]

theorem add_port_not_false (e : entity_t) (port : port_t) :
    (e.add_port port).2 ≠ Except.ok false := by
  unfold entity_t.add_port
  split
  · simp
  · split <;> simp

theorem attach_port_not_false (f : fabric_t) (port : port_t) :
    (f.attach_port port).2 ≠ Except.ok false := by
  have h := add_port_not_false
  unfold fabric_t.attach_port
  split
  · simp
  · rename_i f1 e heq
    split
    · simp
    · rename_i e2 h2
      have h3 := h e port
      rw [h2] at h3
      exact absurd rfl h3
    · split <;> simp

theorem add_cable_not_false (f : fabric_t) (port1 : port_t) (port2 : Option port_t) :
    (f.add_cable port1 port2).2 ≠ Except.ok false := by
  unfold fabric_t.add_cable
  split
  · simp
  · split
    · simp
    · split
      · simp
      · rename_i f1 h1
        have h3 := attach_port_not_false f port1
        rw [h1] at h3
        exact absurd rfl h3
      · split
        · simp
        · exact attach_port_not_false _ _

theorem add_cables_loop_not_failed (objs : List (key_guid_port_t × Option port_t))
    (peers : List (key_guid_port_t × port_t)) (ks : List key_guid_port_t) (f : fabric_t)
    (pend : List (key_guid_port_t × Option port_t)) :
    (add_cables_loop objs peers ks f pend).2.2 ≠ cables_end.cable_failed := by
  induction ks generalizing f pend with
  | nil => simp [add_cables_loop]
  | cons k ks ih =>
    simp only [add_cables_loop]
    split
    · rename_i p hp
      split
      · simp
      · split
        · have h1 := add_cable_not_false f p none
          split
          · exact ih _ _
          · rename_i f1 heq
            rw [heq] at h1
            exact absurd rfl h1
          · simp
        · rename_i c hc
          split
          · simp
          · rename_i q hq
            have h1 := add_cable_not_false f p (some q)
            split
            · split
              · exact ih _ _
              · simp
            · rename_i f1 heq
              rw [heq] at h1
              exact absurd rfl h1
            · simp
    · exact ih f pend

theorem add_cables_not_false (f : fabric_t) (pending : List (key_guid_port_t × Option port_t))
    (peers : List (key_guid_port_t × port_t)) :
    (f.add_cables pending peers).result ≠ Except.ok false ∧
    (f.add_cables pending peers).deleted = [] := by
  have h := add_cables_loop_not_failed pending peers (pending.map Prod.fst) f pending
  unfold fabric_t.add_cables
  split
  · exact ⟨by simp, rfl⟩
  · rename_i f1 pend heq
    rw [heq] at h
    exact absurd rfl h
  · exact ⟨by simp, rfl⟩

theorem add_cables_ok_clears (f : fabric_t) (pending : List (key_guid_port_t × Option port_t))
    (peers : List (key_guid_port_t × port_t)) (b : Bool)
    (h : (f.add_cables pending peers).result = Except.ok b) :
    (f.add_cables pending peers).portmap = [] := by
  unfold fabric_t.add_cables at h ⊢
  split
  · rfl
  · rfl
  · rename_i f1 pend err heq
    rw [heq] at h
    simp at h

theorem add_cables_ndebug_ok_clears (f : fabric_t)
    (pending : List (key_guid_port_t × Option port_t))
    (peers : List (key_guid_port_t × port_t)) (b : Bool)
    (h : (f.add_cables_ndebug pending peers).result = Except.ok b) :
    (f.add_cables_ndebug pending peers).portmap = [] := by
  unfold fabric_t.add_cables_ndebug at h ⊢
  split
  · rfl
  · rfl
  · rename_i f1 pend del err heq
    rw [heq] at h
    simp at h

/-- C24 (the code at the failing input): in the build with assertions no call of `add_cables`
returns false or releases a port, because no call of `add_cable` returns false: a cable that
fails ends the process in its assertion.  The fabric `taken_fabric` holds port 1 of the host
adapter with guid 2, and `add_cables` is given the cable between port 1 of a new switch with
guid 1 and a port 1 of that host adapter.  With assertions the call ends in the assertion
that both ports are known or both unknown, the pending map still holding both ports and none
released.  Compiled with `NDEBUG`, `add_cable` attaches the first port, `add_port` returns
false for the second, and `add_cables` returns false having released both ports of the
pending map: the first port is released and is held by the flat port index and by the device
with guid 1.  In `conflict_fabric`, where the second port fails on its class, the call with
assertions ends with the first port held by the fabric and by the pending map alike. -/
theorem add_cables_releases_attached_port :
    (∀ (f : fabric_t) (pending : List (key_guid_port_t × Option port_t))
      (peers : List (key_guid_port_t × port_t)),
      (f.add_cables pending peers).result ≠ Except.ok false ∧
      (f.add_cables pending peers).deleted = []) ∧
    cabled taken_fabric ∧
    pm_find taken_fabric.portmap { guid := 1, port := 1 } = none ∧
    (taken_fabric.add_cables conflict_pending []).result =
      Except.error error_t.AlreadyKnown ∧
    (taken_fabric.add_cables conflict_pending []).portmap = conflict_pending ∧
    (taken_fabric.add_cables conflict_pending []).fabric = taken_fabric ∧
    (taken_fabric.add_cables_ndebug conflict_pending []).result = Except.ok false ∧
    (taken_fabric.add_cables_ndebug conflict_pending []).portmap = [] ∧
    (taken_fabric.add_cables_ndebug conflict_pending []).deleted =
      [sample_tca_port (some { guid := 2, port := 1 }),
       sample_hca_port (some { guid := 1, port := 1 })] ∧
    pm_find (taken_fabric.add_cables_ndebug conflict_pending []).fabric.portmap
      { guid := 1, port := 1 } = some (sample_tca_port (some { guid := 2, port := 1 })) ∧
    (∃ e, map_find (taken_fabric.add_cables_ndebug conflict_pending []).fabric.entities 1 =
        some e ∧
      map_find e.ports 1 = some (sample_tca_port (some { guid := 2, port := 1 }))) ∧
    (conflict_fabric.add_cables conflict_pending []).result =
      Except.error error_t.DeviceClassMismatch ∧
    (conflict_fabric.add_cables conflict_pending []).portmap = conflict_pending ∧
    pm_find (conflict_fabric.add_cables conflict_pending []).fabric.portmap
      { guid := 1, port := 1 } = some (sample_tca_port (some { guid := 2, port := 1 })) :=
  ⟨add_cables_not_false, cabled.add_cable _ _ _ cabled.empty, rfl, rfl, rfl, rfl, rfl, rfl,
    rfl, rfl, ⟨_, rfl, rfl⟩, rfl, rfl, rfl⟩

/-- C25: a call of `add_cables` that returns leaves the pending map empty, `_portmap.clear()`
being on both ways to `return !fail`.  In the build with assertions a call that returns
returns true, a failing cable ending the process in its assertion; compiled with `NDEBUG` the
call returns false when a call of `add_cable` does, and then too the pending map is empty. -/
theorem add_cables_clears_pending (f : fabric_t)
    (pending : List (key_guid_port_t × Option port_t))
    (peers : List (key_guid_port_t × port_t)) :
    (∀ b, (f.add_cables pending peers).result = Except.ok b →
      b = true ∧ (f.add_cables pending peers).portmap = []) ∧
    (∀ b, (f.add_cables_ndebug pending peers).result = Except.ok b →
      (f.add_cables_ndebug pending peers).portmap = []) := by
  refine ⟨?_, ?_⟩
  · intro b hb
    refine ⟨?_, add_cables_ok_clears f pending peers b hb⟩
    cases b with
    | true => rfl
    | false => exact absurd hb (add_cables_not_false f pending peers).1
  · intro b hb
    exact add_cables_ndebug_ok_clears f pending peers b hb

theorem add_cables_clears_pending_witness :
    (fabric_t.empty.add_cables sample_pending []).result = Except.ok true ∧
    (fabric_t.empty.add_cables sample_pending []).portmap = [] ∧
    (taken_fabric.add_cables_ndebug conflict_pending []).result = Except.ok false ∧
    (taken_fabric.add_cables_ndebug conflict_pending []).portmap = [] :=
  ⟨rfl, ((add_cables_clears_pending fabric_t.empty sample_pending []).1 true rfl).2,
    rfl, (add_cables_clears_pending taken_fabric conflict_pending []).2 false rfl⟩

/-- C8 (counterexample): in the star fabric whose switch `S` has lid 0, the host adapters `H1`
and `H2` have their first ports cabled to ports 1 and 2 of `S`, and `count_hops(H1, H2)` ends
in the assertion `port->lid > 0` of `entity_t::lid`, called by the loop condition for `S`; it
does not return 2. -/
theorem count_hops_same_switch_zero_lid :
    (star_hca 2 2 1).type = type_t.HCA ∧ (star_hca 3 3 2).type = type_t.HCA ∧
    (star_fabric 0).first_port_peer (star_hca 2 2 1) = Except.ok (star_switch 0) ∧
    (star_fabric 0).first_port_peer (star_hca 3 3 2) = Except.ok (star_switch 0) ∧
    (star_switch 0).lid = Except.error error_t.ZeroLid ∧
    (∀ fuel, (star_fabric 0).count_hops (fuel + 1) (star_hca 2 2 1) (star_hca 3 3 2) =
      some (Except.error error_t.ZeroLid)) ∧
    ¬ (∀ fuel, 0 < fuel →
      (star_fabric 0).count_hops fuel (star_hca 2 2 1) (star_hca 3 3 2) = some (Except.ok 2)) :=
  ⟨rfl, rfl, rfl, rfl, rfl, fun _ => rfl, fun h => by
    have h1 := h 1 (by decide)
    have h2 : (star_fabric 0).count_hops 1 (star_hca 2 2 1) (star_hca 3 3 2) =
        some (Except.error error_t.ZeroLid) := rfl
    rw [h2] at h1
    cases h1⟩

/-- C9 (counterexample): the switch `unset_first_switch`, a device of a fabric built by two
calls of `add_cable`, has port 2 with the positive lid 5 and port 1 with lid 0.
`entity_t::lid` reads the first port, and `count_hops(d, d)` ends in its assertion
`port->lid > 0`; it does not return 0. -/
theorem count_hops_self_unset_first_port :
    cabled unset_first_fabric ∧
    map_find unset_first_fabric.entities 1 = some unset_first_switch ∧
    unset_first_switch.type = type_t.TCA ∧
    (∃ p, map_find unset_first_switch.ports 2 = some p ∧ 0 < p.lid) ∧
    unset_first_switch.lid = Except.error error_t.ZeroLid ∧
    (∀ fuel, unset_first_fabric.count_hops (fuel + 1) unset_first_switch unset_first_switch =
      some (Except.error error_t.ZeroLid)) ∧
    ¬ (∀ fuel, 0 < fuel →
      unset_first_fabric.count_hops fuel unset_first_switch unset_first_switch =
        some (Except.ok 0)) :=
  ⟨cabled.add_cable _ _ _ (cabled.add_cable _ _ _ cabled.empty), rfl, rfl,
    ⟨_, rfl, by decide⟩, rfl, fun _ => rfl, fun h => by
    have h1 := h 1 (by decide)
    have h2 : unset_first_fabric.count_hops 1 unset_first_switch unset_first_switch =
        some (Except.error error_t.ZeroLid) := rfl
    rw [h2] at h1
    cases h1⟩

/-- C29: `fabric_t::add_route(guid, p, a)` for a guid without a device ends in an assertion
and leaves the fabric as it was (`NoEntity` when `guid`, `p`, `a` are not zero and the lid map
is not empty).  When the device `e` exists, `guid`, `p`, `a` are not zero and the lid map is not
empty, the call returns what `e.add_route(p, a)` returns and leaves the fabric with that
entity under `guid`: it returns true exactly when `a` is not in the destination set `e` has
for `p` and false exactly when it is, and the device it leaves under `guid` has for `p` the
old set with `a` and differs from `e` in nothing else; every other device, the flat port
index, the lid map and `lmc` are unchanged. -/
theorem fabric_add_route_delegates (f : fabric_t) (guid p a : Nat) :
    (map_find f.entities guid = none →
      (∃ err, f.add_route guid p a = (f, Except.error err)) ∧
      (guid ≠ 0 → p ≠ 0 → a ≠ 0 → f.lidmap ≠ [] →
        f.add_route guid p a = (f, Except.error error_t.NoEntity))) ∧
    (∀ e, map_find f.entities guid = some e → guid ≠ 0 → p ≠ 0 → a ≠ 0 → f.lidmap ≠ [] →
      (f.add_route guid p a).2 = Except.ok (e.add_route p a).2 ∧
      map_find (f.add_route guid p a).1.entities guid = some (e.add_route p a).1 ∧
      ((f.add_route guid p a).2 = Except.ok true ↔ a ∉ (map_find e.routes p).getD []) ∧
      ((f.add_route guid p a).2 = Except.ok false ↔ a ∈ (map_find e.routes p).getD []) ∧
      (∃ e2 s, map_find (f.add_route guid p a).1.entities guid = some e2 ∧
        map_find e2.routes p = some s ∧
        (∀ x, x ∈ s ↔ x = a ∨ x ∈ (map_find e.routes p).getD []) ∧
        (∀ q, q ≠ p → map_find e2.routes q = map_find e.routes q) ∧
        e2.guid = e.guid ∧ e2.type = e.type ∧ e2.ports = e.ports ∧ e2.uft = e.uft) ∧
      (∀ g, g ≠ guid → map_find (f.add_route guid p a).1.entities g = map_find f.entities g) ∧
      (f.add_route guid p a).1.portmap = f.portmap ∧
      (f.add_route guid p a).1.lidmap = f.lidmap ∧ (f.add_route guid p a).1.lmc = f.lmc) := by
  refine ⟨?_, ?_⟩
  · intro hnone
    refine ⟨?_, ?_⟩
    · unfold fabric_t.add_route
      by_cases h1 : guid = 0
      · exact ⟨error_t.ZeroGuid, by simp [h1]⟩
      by_cases h2 : p = 0
      · exact ⟨error_t.ZeroPort, by simp [h1, h2]⟩
      by_cases h3 : a = 0
      · exact ⟨error_t.ZeroLid, by simp [h1, h2, h3]⟩
      by_cases h4 : f.lidmap.length = 0
      · exact ⟨error_t.EmptyLidMap, by simp [h1, h2, h3, h4]⟩
      · exact ⟨error_t.NoEntity, by simp [h1, h2, h3, h4, hnone]⟩
    · intro h1 h2 h3 h4
      have h5 : f.lidmap.length ≠ 0 := by
        intro h
        exact h4 (List.length_eq_zero.mp h)
      simp [fabric_t.add_route, h1, h2, h3, h5, hnone]
  · intro e he h1 h2 h3 h4
    have h5 : f.lidmap.length ≠ 0 := by
      intro h
      exact h4 (List.length_eq_zero.mp h)
    have hrun : f.add_route guid p a =
        ({ f with entities := map_assign f.entities guid (e.add_route p a).1 },
          Except.ok (e.add_route p a).2) := by
      simp [fabric_t.add_route, h1, h2, h3, h5, he]
    have hres : (e.add_route p a).2 = decide (a ∉ (map_find e.routes p).getD []) := rfl
    rw [hrun]
    refine ⟨rfl, ?_, ?_, ?_, ?_, ?_, rfl, rfl, rfl⟩
    · simp [map_find_assign]
    · simp only [Except.ok.injEq, hres, decide_eq_true_eq]
    · simp only [Except.ok.injEq, hres, decide_eq_false_iff_not, not_not]
    · refine ⟨(e.add_route p a).1, set_insert ((map_find e.routes p).getD []) a, ?_, ?_, ?_, ?_,
        rfl, rfl, rfl, rfl⟩
      · simp [map_find_assign]
      · simp [entity_t.add_route, map_find_assign]
      · intro x
        exact mem_set_insert _ _ _
      · intro q hq
        simp only [entity_t.add_route, map_find_assign]
        rw [if_neg (fun h => hq h.symm)]
    · intro g hg
      simp only [map_find_assign]
      rw [if_neg (fun h => hg h.symm)]

theorem fabric_add_route_delegates_witness :
    (star_fabric 1).add_route 9 1 2 = (star_fabric 1, Except.error error_t.NoEntity) ∧
    ((star_fabric 1).add_route 1 1 3).2 = Except.ok true ∧
    ((star_fabric 1).add_route 1 1 2).2 = Except.ok false :=
  ⟨((fabric_add_route_delegates (star_fabric 1) 9 1 2).1 rfl).2 (by decide) (by decide)
      (by decide) (by decide),
    ((fabric_add_route_delegates (star_fabric 1) 1 1 3).2 (star_switch 1) rfl (by decide)
      (by decide) (by decide) (by decide)).2.2.1.mpr (by decide),
    ((fabric_add_route_delegates (star_fabric 1) 1 1 2).2 (star_switch 1) rfl (by decide)
      (by decide) (by decide) (by decide)).2.2.2.1.mpr (by decide)⟩

end infiniband
